import Mathlib

/-! TravelExplore: identity core.

A shallow embedding of the account model (`models/User.js`) and of the
`/api/auth/login` and `/api/auth/register` handlers (`server.js`).

* The MongoDB collection behind the `User` model is a list of documents.
* Values that a request draws from the outside world (the random bytes of
  `bcrypt.genSalt` and the clock read by `new Date()`) are inputs of a
  handler, gathered in `Draw`.
* Library primitives whose code is not part of the repository
  (`String.prototype.toLowerCase`, `bcrypt.hash`, `bcrypt.compare`, and
  `generateToken` of `middleware/auth`) are fields of `Env`.
* Mongoose is modelled as far as the schema of `models/User.js` asks for it:
  the setters of a path run on document fields and on query filters, `save()`
  validates the document before the `pre('save')` hook, a new document is
  inserted under the unique indexes, and a stored one receives the `$set` of
  its modified paths.
* Requests are handled one after the other.
* Code of the repository that the handlers call and that is not at hand (the
  guard `verifyToken` of `middleware/auth`, the Google strategy of
  `config/passport`, the session store) is modelled from the specification; each
  such definition says so in its comment.
-/

namespace TravelExplore

/-! ## Strings as JavaScript sees them -/

/-- Number of UTF-16 code units of a string: the value of `s.length` in JavaScript. -/
def jsLength (s : String) : Nat :=
  (s.data.map fun c => if c.toNat < 65536 then 1 else 2).sum

/-- White space and line terminators removed by `String.prototype.trim`. -/
def isJsWhitespace (c : Char) : Bool :=
  let n := c.toNat
  n == 9 || n == 10 || n == 11 || n == 12 || n == 13 || n == 32 || n == 160 ||
  n == 5760 || (8192 ≤ n && n ≤ 8202) || n == 8232 || n == 8233 || n == 8239 ||
  n == 8287 || n == 12288 || n == 65279

/-- The function `String.prototype.trim`. -/
def jsTrim (s : String) : String :=
  ⟨((s.data.dropWhile isJsWhitespace).reverse.dropWhile isJsWhitespace).reverse⟩

/-- A request field as JavaScript tests it: `undefined` and `''` are falsy. -/
def truthy : Option String → Option String
  | some s => if s = "" then none else some s
  | none => none

/-! ## Library primitives -/

/-- Primitives supplied by libraries and by `middleware/auth`. -/
structure Env where
  /-- The function `String.prototype.toLowerCase`. -/
  toLowerCase : String → String
  /-- The call `bcrypt.genSalt(rounds)`, as a function of the random bytes it draws. -/
  genSalt : Nat → String → String
  /-- The call `bcrypt.hash(plaintext, salt)`. -/
  hash : String → String → String
  /-- The call `bcrypt.compare(candidate, digest)`. -/
  compare : String → String → Bool
  /-- The function `generateToken(userId)` of `middleware/auth`. -/
  generateToken : Nat → String

/-- Values drawn from outside during one request. -/
structure Draw where
  /-- Random bytes drawn by `bcrypt.genSalt`. -/
  salt : String
  /-- Result of `new Date()`, in milliseconds. -/
  now : Nat
deriving DecidableEq, Repr

/-! ## The `User` model -/

/-- Values of the `role` path (`enum: ['user', 'admin']`). -/
inductive Role where
  | user
  | admin
deriving DecidableEq, Repr

/-- Values of the `authProvider` path (`enum: ['local', 'google']`). -/
inductive AuthProvider where
  | localProvider
  | google
deriving DecidableEq, Repr

/-- A stored `User` document. The paths `address`, `dateOfBirth` and
`preferences` are never written by the handlers below; of them only
`preferences.travelStyle` carries a validator (an `enum`), and it is the one
that is kept: `travelStyle` is `none` on a document that has no such path, as
on every document made by `new User(...)` in this repository. -/
structure User where
  _id : Nat
  name : String
  email : String
  password : Option String
  phone : Option String
  isActive : Bool
  role : Role
  googleId : Option String
  avatar : Option String
  authProvider : AuthProvider
  lastLogin : Option Nat
  createdAt : Option Nat
  updatedAt : Option Nat
  travelStyle : Option String := none
deriving DecidableEq, Repr

/-- The `users` collection. -/
abbrev Store := List User

/-- Schema paths that code may assign on a document it holds. The path `email`
is not among them: the repository assigns it only through `new User(...)`. -/
inductive Path where
  | name
  | password
  | phone
  | isActive
  | role
  | googleId
  | avatar
  | authProvider
  | lastLogin
deriving DecidableEq, Repr

/-- Copy the value of one path from `src` into `dst`. -/
def User.assign (p : Path) (src dst : User) : User :=
  match p with
  | .name => { dst with name := src.name }
  | .password => { dst with password := src.password }
  | .phone => { dst with phone := src.phone }
  | .isActive => { dst with isActive := src.isActive }
  | .role => { dst with role := src.role }
  | .googleId => { dst with googleId := src.googleId }
  | .avatar => { dst with avatar := src.avatar }
  | .authProvider => { dst with authProvider := src.authProvider }
  | .lastLogin => { dst with lastLogin := src.lastLogin }

/-- A Mongoose document held by a handler: its field values, whether it has
never been saved, and the paths marked modified since it was loaded. -/
structure Document where
  fields : User
  isNew : Bool
  modified : List Path
deriving DecidableEq, Repr

/-- The test `this.isModified('password')`. -/
def Document.isModified (doc : Document) (p : Path) : Bool :=
  doc.modified.contains p

/-- Setters of the `email` path (`lowercase: true, trim: true`). Mongoose runs
them when a document field is set and when a query filter is cast. -/
def normalizeEmail (env : Env) (email : String) : String :=
  env.toLowerCase (jsTrim email)

/-- An `ObjectId` made by `new User(...)`: a value no stored document carries. -/
def freshId (store : Store) : Nat :=
  (store.map (·._id)).foldr max 0 + 1

/-- The query `User.findOne({ email })`: the first document whose email is the
cast filter value. -/
def findOneByEmail (env : Env) (store : Store) (email : String) : Option User :=
  store.find? fun u => u.email == normalizeEmail env email

/-- The query `User.findOne({ email, isActive: true })`. -/
def findOneActiveByEmail (env : Env) (store : Store) (email : String) : Option User :=
  store.find? fun u => u.email == normalizeEmail env email && u.isActive == true

/-- Schema validation run by `save()` before the `pre('save')` hook, on a new
document and on a loaded one alike: `name` is required with `maxlength: 100`,
`email` is required, a `password` that is present has `minlength: 6`, and a
`preferences.travelStyle` that is present is one of the values of its `enum`.
The paths `role` and `authProvider` hold a value of their `enum` by their
type. -/
def validate (u : User) : Bool :=
  u.name != "" && decide (jsLength u.name ≤ 100) && u.email != "" &&
  (match u.password with
   | some p => decide (6 ≤ jsLength p)
   | none => true) &&
  (match u.travelStyle with
   | some t =>
     ["budget", "mid-range", "luxury", "adventure", "cultural", "relaxation"].contains t
   | none => true)

/-- The hook `userSchema.pre('save')`: only if the password is modified and
present, make a salt with `bcrypt.genSalt(12)` and replace the password by its
hash. `random` is what `genSalt` draws. -/
def preSave (env : Env) (random : String) (doc : Document) : Document :=
  match doc.isModified .password, truthy doc.fields.password with
  | true, some p =>
    { doc with
      fields := { doc.fields with password := some (env.hash p (env.genSalt 12 random)) } }
  | _, _ => doc

/-- Errors thrown by `save()`. Only `duplicateKey` has `code === 11000`. -/
inductive SaveError where
  | validationError
  | duplicateKey
  | documentNotFound
deriving DecidableEq, Repr

/-- The update `updateOne({ _id: id }, { $set: ... })`: apply `f` to the first
document with that id; `none` when there is no such document. -/
def updateById (id : Nat) (f : User → User) : Store → Option Store
  | [] => none
  | v :: rest =>
    if v._id = id then some (f v :: rest)
    else (updateById id f rest).map (v :: ·)

/-- The method `doc.save()`: validate, run the password hook, stamp
`timestamps: true`, then either insert a new document (subject to the unique
indexes on `_id` and `email`) or `$set` the modified paths and `updatedAt` on
the stored document. -/
def save (env : Env) (d : Draw) (store : Store) (doc : Document) :
    Except SaveError (Document × Store) :=
  if validate doc.fields then
    let hashed := preSave env d.salt doc
    let stamped : User :=
      { hashed.fields with
        createdAt := if doc.isNew then some d.now else hashed.fields.createdAt
        updatedAt := some d.now }
    let saved : Document := { fields := stamped, isNew := false, modified := [] }
    if doc.isNew then
      if store.any fun v => v._id == stamped._id || v.email == stamped.email then
        .error .duplicateKey
      else
        .ok (saved, store ++ [stamped])
    else
      let set := fun v : User =>
        { doc.modified.foldr (fun p acc => User.assign p stamped acc) v with
          updatedAt := some d.now }
      match updateById stamped._id set store with
      | some store1 => .ok (saved, store1)
      | none => .error .documentNotFound
  else
    .error .validationError

/-- The method `comparePassword` of the model. -/
def comparePassword (env : Env) (u : User) (candidatePassword : String) : Bool :=
  match truthy u.password with
  | none => false
  | some digest => env.compare candidatePassword digest

/-- The method `updateLastLogin` of the model: set `lastLogin` and save. -/
def updateLastLogin (env : Env) (d : Draw) (store : Store) (doc : Document) :
    Except SaveError (Document × Store) :=
  save env d store
    { doc with
      fields := { doc.fields with lastLogin := some d.now }
      modified := Path.lastLogin :: doc.modified }

/-- The constructor call `new User({ name, email, password, phone, role: 'user',
isActive: true, authProvider: 'local' })`: setters run (`trim` on `name` and
`phone`, `lowercase` and `trim` on `email`), paths that are not given stay
absent, and the document is new with the given paths marked modified. -/
def newUser (env : Env) (store : Store) (name email password : String)
    (phone : Option String) : Document :=
  { fields :=
      { _id := freshId store
        name := jsTrim name
        email := normalizeEmail env email
        password := some password
        phone := phone.map jsTrim
        isActive := true
        role := Role.user
        googleId := none
        avatar := none
        authProvider := AuthProvider.localProvider
        lastLogin := none
        createdAt := none
        updatedAt := none }
    isNew := true
    modified := [Path.name, Path.password] ++ (if phone.isSome then [Path.phone] else []) ++
      [Path.isActive, Path.role, Path.authProvider] }

/-- A document as returned by a query: stored, nothing modified. -/
def loaded (u : User) : Document :=
  { fields := u, isNew := false, modified := [] }

/-! ## Requests and responses -/

/-- The `user` object of a response body. `lastLogin` is `none` when the key
is not part of the object (register) and `some v` when it is (login). -/
structure UserResponse where
  id : Nat
  name : String
  email : String
  role : Role
  avatar : Option String
  lastLogin : Option (Option Nat)
deriving DecidableEq, Repr

/-- An HTTP response: status code and the JSON body. -/
structure Response where
  status : Nat
  success : Bool
  message : String
  user : Option UserResponse
  token : Option String
deriving DecidableEq, Repr

/-- The reply `res.status(code).json({ success: false, message })`. -/
def failure (code : Nat) (message : String) : Response :=
  { status := code, success := false, message := message, user := none, token := none }

/-- Body of `POST /api/auth/login`. -/
structure LoginRequest where
  email : Option String
  password : Option String
deriving DecidableEq, Repr

/-- Body of `POST /api/auth/register`. The handler reads `name`, `email`,
`password`, `phone`, `firstName` and `lastName`; `role` stands for a field the
body may carry and the handler does not read. -/
structure RegisterRequest where
  name : Option String
  email : Option String
  password : Option String
  phone : Option String
  firstName : Option String
  lastName : Option String
  role : Option String
deriving DecidableEq, Repr

/-- The 401 reply shared by both failure exits of the login handler. -/
def invalidCredential : Response :=
  failure 401 "Invalid email or password"

/-- The reply of the `catch` block of the login handler. -/
def loginError : Response :=
  failure 500 "Sorry, there was an error during login. Please try again."

/-- The success reply of the login handler for the saved document `u`. -/
def loginSuccess (env : Env) (u : User) : Response :=
  { status := 200
    success := true
    message := "Login successful"
    user := some
      { id := u._id, name := u.name, email := u.email, role := u.role,
        avatar := u.avatar, lastLogin := some u.lastLogin }
    token := some (env.generateToken u._id) }

/-- The tail shared by both branches of the login handler: update the last
login, then answer with token and user. `store0` is the collection as it was
when the document `doc` was obtained. -/
def finishLogin (env : Env) (d : Draw) (store0 : Store) (doc : Document) :
    Response × Store :=
  match updateLastLogin env d store0 doc with
  | .error _ => (loginError, store0)
  | .ok (doc', store1) => (loginSuccess env doc'.fields, store1)

/-- The handler `app.post('/api/auth/login')`: the response and the collection
after the request. -/
def login (env : Env) (d : Draw) (store : Store) (req : LoginRequest) :
    Response × Store :=
  match truthy req.email, truthy req.password with
  | some email, some password =>
    if email = "demo@user.com" ∧ password = "123456" then
      match findOneByEmail env store "demo@user.com" with
      | some u => finishLogin env d store (loaded u)
      | none =>
        match save env d store (newUser env store "Demo User" "demo@user.com" "123456" none) with
        | .error _ => (loginError, store)
        | .ok (doc, store1) => finishLogin env d store1 doc
    else
      match findOneActiveByEmail env store email with
      | none => (invalidCredential, store)
      | some u =>
        if comparePassword env u password then
          finishLogin env d store (loaded u)
        else
          (invalidCredential, store)
  | _, _ => (failure 400 "Email and password are required", store)

/-- The value `firstName && lastName ? firstName + ' ' + lastName : name`. -/
def fullName (req : RegisterRequest) : Option String :=
  match truthy req.firstName, truthy req.lastName with
  | some f, some l => some (f ++ " " ++ l)
  | _, _ => req.name

/-- The 400 reply of register for an email that is taken; sent both when
`findOne` finds the account and when `save` fails with code 11000. -/
def conflict : Response :=
  failure 400 "User with this email already exists"

/-- The 400 reply of register for a password shorter than six. -/
def weakCredential : Response :=
  failure 400 "Password must be at least 6 characters long"

/-- The reply of the `catch` block of register for any other error. -/
def registerError : Response :=
  failure 500 "Sorry, there was an error processing your registration. Please try again."

/-- The success reply of register for the saved document `u`. -/
def registerSuccess (env : Env) (u : User) : Response :=
  { status := 200
    success := true
    message := "Registration successful! Welcome to TravelExplore!"
    user := some
      { id := u._id, name := u.name, email := u.email, role := u.role,
        avatar := u.avatar, lastLogin := none }
    token := some (env.generateToken u._id) }

/-- The handler `app.post('/api/auth/register')`: the response and the
collection after the request. -/
def register (env : Env) (d : Draw) (store : Store) (req : RegisterRequest) :
    Response × Store :=
  match truthy (fullName req), truthy req.email, truthy req.password with
  | some name, some email, some password =>
    if jsLength password < 6 then
      (weakCredential, store)
    else
      match findOneByEmail env store email with
      | some _ => (conflict, store)
      | none =>
        let phone := match truthy req.phone with
          | some p => p
          | none => ""
        match save env d store (newUser env store name email password (some phone)) with
        | .ok (doc, store1) => (registerSuccess env doc.fields, store1)
        | .error .duplicateKey => (conflict, store)
        | .error _ => (registerError, store)
  | _, _, _ => (failure 400 "Name, email, and password are required", store)

/-! ## A reference instance of the primitives -/

/-- ASCII lower-casing, standing for `toLowerCase` on ASCII input. -/
def asciiLower (s : String) : String :=
  ⟨s.data.map Char.toLower⟩

/-- A toy salt with the shape of a bcrypt salt: version, cost, random part. -/
def toyGenSalt (rounds : Nat) (random : String) : String :=
  "$2a$" ++ toString rounds ++ "$" ++ random

/-- A toy hasher: a tag, the salt, and the plaintext in clear (it is not
one-way; it only serves to run the handlers). -/
def toyHash (plaintext salt : String) : String :=
  "bcrypt" ++ salt ++ "$" ++ plaintext

/-- Verification for `toyHash`: the digest ends with `$` and the candidate. -/
def toyCompare (candidate digest : String) : Bool :=
  ("$" ++ candidate).data.isSuffixOf digest.data

/-- A toy token: a tag followed by the identifier in unary. -/
def toyToken (id : Nat) : String :=
  "jwt-" ++ ⟨List.replicate id '1'⟩

/-- Verification for `toyToken`: check the tag and count the rest. -/
def toyVerify (token : String) : Option Nat :=
  if token.data.take 4 = ['j', 'w', 't', '-'] then some (token.data.length - 4) else none

/-- The reference primitives used to run the handlers on concrete inputs. -/
def refEnv : Env :=
  { toLowerCase := asciiLower
    genSalt := toyGenSalt
    hash := toyHash
    compare := toyCompare
    generateToken := toyToken }

/-- What `updateLastLogin` writes to a stored document: the `$set` of
`lastLogin` and of the `updatedAt` stamp. -/
def stampLogin (d : Draw) (v : User) : User :=
  { v with lastLogin := some d.now, updatedAt := some d.now }

/-! ## Sessions and sequences of requests -/

/-- An entry of the session table of `express-session`: the session identifier
and the account identifier that passport serialised into it, if any. -/
structure Session where
  sid : Nat
  user : Option Nat
deriving DecidableEq, Repr

/-- The session table. -/
abbrev SessionTable := List Session

/-- The handler `app.post('/api/auth/logout')` for a caller whose cookie names
the session `sid` (`none` without a cookie): `req.logout` and
`req.session.destroy` remove the caller's session from the table. -/
def logout (sessions : SessionTable) (sid : Option Nat) : Response × SessionTable :=
  ({ status := 200, success := true, message := "Logged out successfully",
     user := none, token := none },
   sessions.filter fun s => some s.sid != sid)

/-- The state the handlers act on: the `users` collection and the session table. -/
structure World where
  users : Store
  sessions : SessionTable
deriving DecidableEq, Repr

/-- A request to one of the authentication routes. -/
inductive Request where
  | login (d : Draw) (body : LoginRequest)
  | register (d : Draw) (body : RegisterRequest)
  | logout (sid : Option Nat)
deriving DecidableEq, Repr

/-- The state after one request. Neither `login` nor `register` writes to
`req.session`, and `saveUninitialized` is `false`, so they leave the session
table as it is. -/
def step (env : Env) (w : World) : Request → World
  | .login d body => { w with users := (login env d w.users body).2 }
  | .register d body => { w with users := (register env d w.users body).2 }
  | .logout sid => { w with sessions := (logout w.sessions sid).2 }

/-- The state after a sequence of requests, handled one after the other. -/
def run (env : Env) (w : World) (requests : List Request) : World :=
  requests.foldl (step env) w

/-! ## The guard of `middleware/auth` and the current-user route -/

/-- What a request presents to prove who the caller is: the bearer token of
its `Authorization` header and the session named by its cookie. -/
structure Credentials where
  bearer : Option String
  sessionId : Option Nat
deriving DecidableEq, Repr

/-- The query `User.findById(id)`. -/
def findById (store : Store) (id : Nat) : Option User :=
  store.find? fun u => u._id == id

/-- Modelled from the spec: `resolve(sessionId) -> accountId | Invalid` of the
Session Manager (§4.3), whose code (the `express-session` store and passport's
`deserializeUser` of `config/passport`) is not under src/. The table holds the
sessions that have not expired; resolving fails for an absent session and for
one that carries no account. -/
def resolveSession (sessions : SessionTable) (sid : Nat) : Option Nat :=
  (sessions.find? fun s => s.sid == sid).bind (·.user)

/-- Modelled from the spec: the guard `verifyToken` of `middleware/auth`, which
is not under src/. Following §4.2 and §4.6, the guard looks for a bearer token
first and verifies it (`verify(token) -> accountId | Invalid`); without a
bearer token it falls back to the session cookie; the identifier is then
resolved to the account that carries it. The result `none` is the spec's
`Anonymous`. The argument `verify` is the signed-token primitive. -/
def verifyToken (verify : String → Option Nat) (store : Store) (sessions : SessionTable)
    (c : Credentials) : Option User :=
  match c.bearer with
  | some token => (verify token).bind (findById store)
  | none =>
    match c.sessionId with
    | some sid => (resolveSession sessions sid).bind (findById store)
    | none => none

/-- The handler of `app.get('/api/auth/me')`, which runs once the guard has set
`req.user`. Its body has no `message` key, rendered here as the empty string. -/
def meHandler (user : User) : Response :=
  { status := 200
    success := true
    message := ""
    user := some
      { id := user._id, name := user.name, email := user.email, role := user.role,
        avatar := user.avatar, lastLogin := some user.lastLogin }
    token := none }

/-- The route `GET /api/auth/me`: the guard, then the handler. The result
`none` stands for the reply of the guard itself. -/
def me (verify : String → Option Nat) (store : Store) (sessions : SessionTable)
    (c : Credentials) : Option Response :=
  (verifyToken verify store sessions c).map meHandler

/-! ## The federated callback -/

/-- The identity that the provider asserts at the end of a handshake. -/
structure ProviderIdentity where
  providerId : String
  email : String
  name : String
deriving DecidableEq, Repr

/-- Modelled from the spec: `create(accountId) -> sessionId` of the Session
Manager (§4.3), whose code (`express-session` driven by passport's `req.login`)
is not under src/. A session under an identifier that no stored session has is
added for the account. -/
def createSession (sessions : SessionTable) (accountId : Nat) : Nat × SessionTable :=
  let sid := (sessions.map (·.sid)).foldr max 0 + 1
  (sid, sessions ++ [{ sid := sid, user := some accountId }])

/-- Modelled from the spec: the account that a handshake creates for a new
handle (§4.5), `role = ordinary, password hash absent`; the other paths take
the defaults of the schema. -/
def newFederatedUser (env : Env) (store : Store) (identity : ProviderIdentity) : Document :=
  { fields :=
      { _id := freshId store
        name := jsTrim identity.name
        email := normalizeEmail env identity.email
        password := none
        phone := none
        isActive := true
        role := Role.user
        googleId := some identity.providerId
        avatar := none
        authProvider := AuthProvider.localProvider
        lastLogin := none
        createdAt := none
        updatedAt := none }
    isNew := true
    modified := [Path.name, Path.role, Path.googleId] }

/-- Modelled from the spec: the reconciliation policy of the Google strategy
of `config/passport` (§4.5), which is not under src/. If an account with the
provider identifier exists, reuse it; else if an account with the same handle
exists, link the provider identifier to it; else create a new account. -/
def reconcile (env : Env) (d : Draw) (store : Store) (identity : ProviderIdentity) :
    Except SaveError (Document × Store) :=
  match store.find? fun u => u.googleId == some identity.providerId with
  | some u => .ok (loaded u, store)
  | none =>
    match findOneByEmail env store identity.email with
    | some u =>
      save env d store
        { fields := { u with googleId := some identity.providerId }
          isNew := false
          modified := [Path.googleId] }
    | none => save env d store (newFederatedUser env store identity)

/-- The reply of the callback route: a redirect to the dashboard that carries
the token and the user object, or the redirect to `/login?error=auth_failed`. -/
inductive CallbackReply where
  | dashboard (token : String) (user : UserResponse)
  | authFailed
deriving DecidableEq, Repr

/-- The handler of `app.get('/auth/google/callback')`, which runs once passport
has set `req.user`: update the last login, mint the token, redirect. -/
def googleCallbackHandler (env : Env) (d : Draw) (store : Store) (user : Document) :
    CallbackReply × Store :=
  match updateLastLogin env d store user with
  | .error _ => (CallbackReply.authFailed, store)
  | .ok (doc, store1) =>
    (CallbackReply.dashboard (env.generateToken doc.fields._id)
      { id := doc.fields._id, name := doc.fields.name, email := doc.fields.email,
        role := doc.fields.role, avatar := doc.fields.avatar, lastLogin := none },
     store1)

/-- The route `/auth/google/callback`. `assertion` is the outcome of the
handshake: `none` when passport fails it (`failureRedirect`), the asserted
identity otherwise. On success passport reconciles the identity with an
account, logs it in (which creates the session) and hands over to the
handler. -/
def googleCallback (env : Env) (d : Draw) (w : World)
    (assertion : Option ProviderIdentity) : CallbackReply × World :=
  match assertion with
  | none => (CallbackReply.authFailed, w)
  | some identity =>
    match reconcile env d w.users identity with
    | .error _ => (CallbackReply.authFailed, w)
    | .ok (user, store1) =>
      let handled := googleCallbackHandler env d store1 user
      (handled.1,
       { users := handled.2, sessions := (createSession w.sessions user.fields._id).2 })

/-- A request to one of the routes of the identity core. -/
inductive AuthRequest where
  | account (r : Request)
  | me (c : Credentials)
  | googleCallback (d : Draw) (assertion : Option ProviderIdentity)
deriving DecidableEq, Repr

/-- The state after one request to the identity core. The current-user route
only reads. -/
def handle (env : Env) (w : World) : AuthRequest → World
  | .account r => step env w r
  | .me _ => w
  | .googleCallback d assertion => (googleCallback env d w assertion).2

/-! ## The administrative statistics route -/

/-- Names bound at module level in `server.js`: the results of `require`, the
models, the middleware, and the constants and helpers it declares. -/
def serverBindings : List String :=
  ["express", "mongoose", "path", "cors", "helmet", "morgan", "session", "passport",
   "bcrypt", "connectDB", "checkDBHealth", "mongoUri", "User", "Booking", "Contact",
   "Newsletter", "Review", "generateToken", "verifyToken", "requireAdmin", "app", "PORT",
   "corsOptions", "generateId"]

/-- The `stats` object of the statistics reply (the two `recent...` slices are
left out). -/
structure Stats where
  totalBookings : Nat
  totalContacts : Nat
  totalNewsletterSubscribers : Nat
  totalUsers : Nat
  totalReviews : Nat
deriving DecidableEq, Repr

/-- The reply of the statistics route. -/
structure StatsReply where
  status : Nat
  success : Bool
  message : Option String
  stats : Option Stats
deriving DecidableEq, Repr

/-- The route `app.get('/api/admin/stats', (req, res) => ...)`. It is registered
without any middleware, so what the caller presents is not looked at. The body
reads the identifiers `bookings`, `contacts`, `newsletters`, `users` and
`reviews`; reading an identifier that is not bound throws a `ReferenceError`,
which the `catch` block answers with status 500. `bindings` are the names in
scope and `arrays` the lengths of the arrays bound to them. -/
def adminStats (bindings : List String) (arrays : String → Nat) (_c : Credentials) :
    StatsReply :=
  if ["bookings", "contacts", "newsletters", "users", "reviews"].all bindings.contains then
    { status := 200
      success := true
      message := none
      stats := some
        { totalBookings := arrays "bookings"
          totalContacts := arrays "contacts"
          totalNewsletterSubscribers := arrays "newsletters"
          totalUsers := arrays "users"
          totalReviews := arrays "reviews" } }
  else
    { status := 500, success := false, message := some "Error retrieving statistics",
      stats := none }

/-- Every account of `before` is still in `after`, under the same identifier
and the same handle. -/
def Retains (before after : Store) : Prop :=
  ∀ u ∈ before, ∃ v ∈ after, v._id = u._id ∧ v.email = u.email

/-- A sequence of later `save()` calls, each with its own draw; a save that
throws leaves the collection as it was. -/
def saveAll (env : Env) (store : Store) : List (Draw × Document) → Store
  | [] => store
  | (d, doc) :: rest =>
    match save env d store doc with
    | .ok (_, store1) => saveAll env store1 rest
    | .error _ => saveAll env store rest

/-- An account with its password field blanked: what is left when two accounts
are compared up to their stored password. -/
def redact (u : User) : User :=
  { u with password := none }

/-- The document that a login request authenticates when it succeeds: the demo
account (the stored one, or the one about to be created) for the demo pair,
the active account with the handle otherwise. -/
def loginSubject (env : Env) (store : Store) (req : LoginRequest) : Option User :=
  match truthy req.email, truthy req.password with
  | some email, some password =>
    if email = "demo@user.com" ∧ password = "123456" then
      match findOneByEmail env store "demo@user.com" with
      | some u => some u
      | none => some (newUser env store "Demo User" "demo@user.com" "123456" none).fields
    else
      findOneActiveByEmail env store email
  | _, _ => none

/-! ## The `Booking` model and the booking route -/

/-- The function `String.prototype.substr(start, length)` on a string of
characters of the basic plane. -/
def jsSubstr (s : String) (start length : Nat) : String :=
  ⟨(s.data.drop start).take length⟩

/-- The nested path `customerInfo` of a booking. -/
structure CustomerInfo where
  name : Option String
  email : Option String
  phone : Option String
  address : Option String
deriving DecidableEq, Repr

/-- The nested path `travelDetails` of a booking; dates are in milliseconds. -/
structure TravelDetails where
  startDate : Option Nat
  endDate : Option Nat
  travelers : Option Int
  roomType : Option String
deriving DecidableEq, Repr

/-- The nested path `pricing` of a booking. -/
structure Pricing where
  basePrice : Option Int
  totalPrice : Option Int
  currency : Option String
deriving DecidableEq, Repr

/-- A `Booking` document. -/
structure Booking where
  _id : Nat
  userId : Option Nat
  packageName : Option String
  destination : Option String
  customerInfo : CustomerInfo
  travelDetails : TravelDetails
  pricing : Pricing
  status : String
  paymentStatus : String
  specialRequests : Option String
  bookingReference : Option String
  createdAt : Option Nat
  updatedAt : Option Nat
deriving DecidableEq, Repr

/-- Body of `POST /api/booking`. -/
structure BookingRequest where
  packageName : Option String
  destination : Option String
  customerInfo : Option CustomerInfo
  travelDetails : Option TravelDetails
  pricing : Option Pricing
  specialRequests : Option String
deriving DecidableEq, Repr

/-- Values drawn from outside while a booking is saved: the clock read by
`Date.now()` and the string `Math.random().toString(36)`. -/
structure BookingDraw where
  now : Nat
  random : String
deriving DecidableEq, Repr

/-- The reply of the booking route. -/
structure BookingReply where
  status : Nat
  success : Bool
  message : String
  bookingId : Option Nat
  bookingReference : Option String
deriving DecidableEq, Repr

/-- An `ObjectId` made by `new Booking(...)`. -/
def freshBookingId (bookings : List Booking) : Nat :=
  (bookings.map (·._id)).foldr max 0 + 1

/-- The constructor call `new Booking({ userId, packageName, destination,
customerInfo, travelDetails, pricing, specialRequests })`: string setters run
(`trim`, and `lowercase` on the email), defaults fill `roomType`, `currency`,
`status` and `paymentStatus`, and `bookingReference` is not given. -/
def newBooking (env : Env) (bookings : List Booking) (userId : Option Nat)
    (packageName destination : String) (customerInfo : CustomerInfo)
    (travelDetails : TravelDetails) (pricing : Pricing)
    (specialRequests : Option String) : Booking :=
  { _id := freshBookingId bookings
    userId := userId
    packageName := some (jsTrim packageName)
    destination := some (jsTrim destination)
    customerInfo :=
      { name := customerInfo.name.map jsTrim
        email := customerInfo.email.map fun e => env.toLowerCase (jsTrim e)
        phone := customerInfo.phone.map jsTrim
        address := customerInfo.address.map jsTrim }
    travelDetails :=
      { travelDetails with
        roomType := some (travelDetails.roomType.getD "double") }
    pricing := { pricing with currency := some (pricing.currency.getD "USD") }
    status := "pending"
    paymentStatus := "pending"
    specialRequests := specialRequests.map jsTrim
    bookingReference := none
    createdAt := none
    updatedAt := none }

/-- Schema validation of a booking, the built-in `pre('save')` hook that runs
before the hooks the schema declares: the `required` paths (among them
`userId` and `bookingReference`), `min: 1` on `travelers` and the enums. -/
def validateBooking (b : Booking) : Bool :=
  (truthy b.bookingReference).isSome && b.userId.isSome &&
  (truthy b.packageName).isSome && (truthy b.destination).isSome &&
  (truthy b.customerInfo.name).isSome && (truthy b.customerInfo.email).isSome &&
  (truthy b.customerInfo.phone).isSome &&
  b.travelDetails.startDate.isSome && b.travelDetails.endDate.isSome &&
  (match b.travelDetails.travelers with
   | some t => decide (1 ≤ t)
   | none => false) &&
  (match b.travelDetails.roomType with
   | some r => ["single", "double", "suite", "family"].contains r
   | none => true) &&
  b.pricing.basePrice.isSome && b.pricing.totalPrice.isSome &&
  ["pending", "confirmed", "cancelled", "completed"].contains b.status &&
  ["pending", "paid", "refunded"].contains b.paymentStatus

/-- The hook `bookingSchema.pre('save')`: when the booking has no reference,
set it to `'BK' + Date.now() + Math.random().toString(36).substr(2, 5)
.toUpperCase()`. `upper` is `String.prototype.toUpperCase`. -/
def bookingPreSave (upper : String → String) (d : BookingDraw) (b : Booking) : Booking :=
  match truthy b.bookingReference with
  | some _ => b
  | none =>
    { b with bookingReference := some ("BK" ++ toString d.now ++ upper (jsSubstr d.random 2 5)) }

/-- The method `booking.save()` on a new document: validate, run the hook,
stamp `timestamps: true`, insert under the unique indexes on `_id` and
`bookingReference`. -/
def saveBooking (upper : String → String) (d : BookingDraw) (bookings : List Booking)
    (b : Booking) : Except SaveError (Booking × List Booking) :=
  if validateBooking b then
    let hooked := bookingPreSave upper d b
    let stamped : Booking :=
      { hooked with createdAt := some d.now, updatedAt := some d.now }
    if bookings.any fun v =>
        v._id == stamped._id || v.bookingReference == stamped.bookingReference then
      .error .duplicateKey
    else
      .ok (stamped, bookings ++ [stamped])
  else
    .error .validationError

/-- The reply of the `catch` block of the booking route. -/
def bookingError : BookingReply :=
  { status := 500, success := false,
    message := "Sorry, there was an error processing your booking. Please try again.",
    bookingId := none, bookingReference := none }

/-- The 400 reply of the booking route. -/
def bookingIncomplete : BookingReply :=
  { status := 400, success := false,
    message := "Please fill in all required booking information",
    bookingId := none, bookingReference := none }

/-- The handler `app.post('/api/booking')`. `user` is `req.user`, absent for a
caller who is not logged in. -/
def booking (env : Env) (upper : String → String) (d : BookingDraw) (user : Option User)
    (bookings : List Booking) (req : BookingRequest) : BookingReply × List Booking :=
  match truthy req.packageName, truthy req.destination, req.customerInfo,
      req.travelDetails with
  | some packageName, some destination, some customerInfo, some travelDetails =>
    let pricing := match req.pricing with
      | some p => p
      | none => { basePrice := some 0, totalPrice := some 0, currency := none }
    match saveBooking upper d bookings
        (newBooking env bookings (user.map (·._id)) packageName destination customerInfo
          travelDetails pricing req.specialRequests) with
    | .ok (saved, bookings1) =>
      ({ status := 200, success := true,
         message := "Your booking has been submitted successfully! We will contact you within 24 hours to confirm your reservation.",
         bookingId := some saved._id, bookingReference := saved.bookingReference },
       bookings1)
    | .error _ => (bookingError, bookings)
  | _, _, _, _ => (bookingIncomplete, bookings)

/-- ASCII upper-casing, standing for `toUpperCase` on ASCII input. -/
def asciiUpper (s : String) : String :=
  ⟨s.data.map Char.toUpper⟩

/-- A complete booking body: every path that the schema requires of a request
is given and valid. -/
def sampleBooking : BookingRequest :=
  { packageName := some "Goa Beach Holiday"
    destination := some "Goa"
    customerInfo := some
      { name := some "Ann Lee", email := some "ann@x.com", phone := some "+1234567890",
        address := none }
    travelDetails := some
      { startDate := some 1767225600000, endDate := some 1767657600000,
        travelers := some 2, roomType := some "double" }
    pricing := some { basePrice := some 18000, totalPrice := some 36000, currency := none }
    specialRequests := none }

/-- A draw for a booking. -/
def sampleBookingDraw : BookingDraw :=
  { now := 1700000000000, random := "0.4fzyo82mvyr" }

/-! ## The sliders of `js/script.js` -/

/-- The operator `%` of JavaScript on integers: the remainder takes the sign of
the dividend. -/
def jsMod (a b : Int) : Int :=
  Int.tmod a b

/-- The function `nextSlide`: the new value of `currentSlide`, for
`heroSlides.length = length`. -/
def nextSlide (length currentSlide : Int) : Int :=
  jsMod (currentSlide + 1) length

/-- The function `prevSlide`: the new value of `currentSlide`. -/
def prevSlide (length currentSlide : Int) : Int :=
  jsMod (currentSlide - 1 + length) length

/-- The function `nextTestimonial`: the new value of `currentTestimonial`, for
`testimonialCards.length = length`. -/
def nextTestimonial (length currentTestimonial : Int) : Int :=
  jsMod (currentTestimonial + 1) length

/-- The function `prevTestimonial`: the new value of `currentTestimonial`. -/
def prevTestimonial (length currentTestimonial : Int) : Int :=
  jsMod (currentTestimonial - 1 + length) length

/-! ## Regular expressions and `isValidEmail` of `js/script.js` -/

/-- A regular expression over characters, with character classes given as
predicates. -/
inductive Regex where
  | empty
  | eps
  | cls (p : Char → Bool)
  | seq (a b : Regex)
  | alt (a b : Regex)
  | star (r : Regex)

/-- The quantifier `+`. -/
def Regex.plus (r : Regex) : Regex :=
  Regex.seq r (Regex.star r)

/-- Whether the expression matches the empty string. -/
def Regex.nullable : Regex → Bool
  | .empty => false
  | .eps => true
  | .cls _ => false
  | .seq a b => a.nullable && b.nullable
  | .alt a b => a.nullable || b.nullable
  | .star _ => true

/-- The expression that matches what is left after the character `c`. -/
def Regex.deriv (c : Char) : Regex → Regex
  | .empty => .empty
  | .eps => .empty
  | .cls p => if p c then .eps else .empty
  | .seq a b =>
    if a.nullable then .alt (.seq (a.deriv c) b) (b.deriv c) else .seq (a.deriv c) b
  | .alt a b => .alt (a.deriv c) (b.deriv c)
  | .star r => .seq (r.deriv c) (.star r)

/-- The method `RegExp.prototype.test` for a pattern anchored by `^` and `$`:
the whole string has to match. -/
def Regex.test (r : Regex) (s : String) : Bool :=
  (s.data.foldl (fun acc c => acc.deriv c) r).nullable

/-- The class `[^\s@]`. -/
def notSpaceOrAt (c : Char) : Bool :=
  !isJsWhitespace c && c != '@'

/-- The pattern `/^[^\s@]+@[^\s@]+\.[^\s@]+$/`. -/
def emailRegex : Regex :=
  .seq (Regex.plus (.cls notSpaceOrAt))
    (.seq (.cls fun c => c == '@')
      (.seq (Regex.plus (.cls notSpaceOrAt))
        (.seq (.cls fun c => c == '.') (Regex.plus (.cls notSpaceOrAt)))))

/-- The function `isValidEmail`. -/
def isValidEmail (email : String) : Bool :=
  emailRegex.test email

/-- The strings that a regular expression denotes. -/
inductive Matches : Regex → List Char → Prop where
  | eps : Matches .eps []
  | cls {p : Char → Bool} {c : Char} : p c = true → Matches (.cls p) [c]
  | seq {a b : Regex} {s t : List Char} :
      Matches a s → Matches b t → Matches (.seq a b) (s ++ t)
  | altL {a b : Regex} {s : List Char} : Matches a s → Matches (.alt a b) s
  | altR {a b : Regex} {s : List Char} : Matches b s → Matches (.alt a b) s
  | starNil {r : Regex} : Matches (.star r) []
  | starCons {r : Regex} {s t : List Char} :
      Matches r s → Matches (.star r) t → Matches (.star r) (s ++ t)

/-- The shape of a valid email in words: no white space, exactly one `@`, at
least one character before the `@`, and after the `@` a `.` that is neither
the first nor the last character of that part. -/
def EmailShape (s : List Char) : Prop :=
  (∀ c ∈ s, isJsWhitespace c = false) ∧
  s.count '@' = 1 ∧
  s.takeWhile (fun c => c != '@') ≠ [] ∧
  ∃ i : Nat, 0 < i ∧ i + 1 < ((s.dropWhile fun c => c != '@').drop 1).length ∧
    ((s.dropWhile fun c => c != '@').drop 1)[i]? = some '.'

/-! ## Sample data -/

/-- A sample draw: random bytes for a salt and a clock reading. -/
def sampleDraw : Draw :=
  { salt := "salt", now := 1000 }

/-- An active account `a@x.com` whose password is `secret1`. -/
def alice : User :=
  { _id := 1, name := "Alice", email := "a@x.com",
    password := some (toyHash "secret1" "na"), phone := none, isActive := true,
    role := Role.user, googleId := none, avatar := none,
    authProvider := AuthProvider.localProvider, lastLogin := none,
    createdAt := some 10, updatedAt := some 10 }

/-- A deactivated account `b@x.com` whose password is `hunter22`. -/
def bob : User :=
  { _id := 2, name := "Bob", email := "b@x.com",
    password := some (toyHash "hunter22" "nb"), phone := none, isActive := false,
    role := Role.user, googleId := none, avatar := none,
    authProvider := AuthProvider.localProvider, lastLogin := none,
    createdAt := some 20, updatedAt := some 20 }

/-- A deactivated account with the demo handle and the password `letmein`. -/
def retiredDemo : User :=
  { _id := 3, name := "Old Demo", email := "demo@user.com",
    password := some (toyHash "letmein" "nc"), phone := none, isActive := false,
    role := Role.user, googleId := none, avatar := none,
    authProvider := AuthProvider.localProvider, lastLogin := none,
    createdAt := some 30, updatedAt := some 30 }

/-- A pure-federated account with the demo handle: it has no password hash. -/
def federatedDemo : User :=
  { _id := 4, name := "Fed Demo", email := "demo@user.com",
    password := none, phone := none, isActive := true,
    role := Role.user, googleId := some "g-4", avatar := none,
    authProvider := AuthProvider.google, lastLogin := none,
    createdAt := some 40, updatedAt := some 40 }

/-- An account with the demo handle whose stored password, `abc`, is shorter
than the `minlength` of the path: a document written to the collection without
going through the model. -/
def staleDemo : User :=
  { _id := 6, name := "Demo User", email := "demo@user.com",
    password := some "abc", phone := none, isActive := true,
    role := Role.user, googleId := none, avatar := none,
    authProvider := AuthProvider.localProvider, lastLogin := none,
    createdAt := some 60, updatedAt := some 60 }

/-- The demo document that `mongo-init.js` inserts with `db.users.insertOne`:
the password is the plaintext `123456` and `preferences.travelStyle` is
`'comfort'`, which is not a value of the `enum` of that path. The document has
no `authProvider`; a loaded document carries the default. -/
def seededDemo : User :=
  { _id := 7, name := "Demo User", email := "demo@user.com",
    password := some "123456", phone := some "+91 98765 43210", isActive := true,
    role := Role.user, googleId := none, avatar := none,
    authProvider := AuthProvider.localProvider, lastLogin := none,
    createdAt := some 70, updatedAt := some 70, travelStyle := some "comfort" }

/-- A pure-federated account `f@x.com`: it has no password hash. -/
def frank : User :=
  { _id := 5, name := "Frank", email := "f@x.com",
    password := none, phone := none, isActive := true,
    role := Role.user, googleId := some "g-5", avatar := none,
    authProvider := AuthProvider.google, lastLogin := none,
    createdAt := some 50, updatedAt := some 50 }

/-- The account `c@x.com` as `save()` stores it after `[alice]`, for the
password `secret1` and the sample draw. -/
def carol : User :=
  { _id := 2, name := "Carol", email := "c@x.com",
    password := some (toyHash "secret1" (toyGenSalt 12 "salt")), phone := none,
    isActive := true, role := Role.user, googleId := none, avatar := none,
    authProvider := AuthProvider.localProvider, lastLogin := none,
    createdAt := some 1000, updatedAt := some 1000 }

/-- A register body with the given name, email and password and nothing else. -/
def plainRegister (name email password : String) : RegisterRequest :=
  { name := some name, email := some email, password := some password,
    phone := none, firstName := none, lastName := none, role := none }

/-- The documented contract of the password hasher, as far as the handlers
rely on it: a digest verifies against its own plaintext, and a bcrypt digest
(60 characters) is not shorter than the `minlength` of the `password` path. -/
structure HasherContract (env : Env) : Prop where
  compare_hash : ∀ plaintext salt, env.compare plaintext (env.hash plaintext salt) = true
  digest_length : ∀ plaintext salt, 6 ≤ jsLength (env.hash plaintext salt)

/-- One-wayness of the hasher, as far as the account model shows it: a digest
is never its own plaintext. -/
structure DigestDiffers (env : Env) : Prop where
  digest_ne : ∀ plaintext salt, env.hash plaintext salt ≠ plaintext

end TravelExplore



namespace TravelExplore

/-! ## Basic facts -/

theorem truthy_eq_some {s : String} (h : s ≠ "") : truthy (some s) = some s := by
  simp [truthy, h]

theorem truthy_some_ne {o : Option String} {s : String} (h : truthy o = some s) :
    o = some s ∧ s ≠ "" := by
  cases o with
  | none => simp [truthy] at h
  | some t =>
    by_cases ht : t = ""
    · simp [truthy, ht] at h
    · simp [truthy, ht] at h
      subst h
      exact ⟨rfl, ht⟩

/-- Outside the demo shortcut, login is: look the active account up, verify. -/
theorem login_not_demo (env : Env) (d : Draw) (store : Store) (h p : String)
    (hh : h ≠ "") (hp : p ≠ "") (hdemo : ¬ (h = "demo@user.com" ∧ p = "123456")) :
    login env d store ⟨some h, some p⟩ =
      match findOneActiveByEmail env store h with
      | none => (invalidCredential, store)
      | some u =>
        if comparePassword env u p then finishLogin env d store (loaded u)
        else (invalidCredential, store) := by
  simp only [login, truthy_eq_some hh, truthy_eq_some hp, if_neg hdemo]

theorem findOneActive_some {env : Env} {store : Store} {h : String} {u : User}
    (hf : findOneActiveByEmail env store h = some u) :
    u ∈ store ∧ u.email = normalizeEmail env h ∧ u.isActive = true := by
  unfold findOneActiveByEmail at hf
  have hm := List.mem_of_find?_eq_some hf
  have hp := List.find?_some hf
  simp at hp
  exact ⟨hm, hp.1, hp.2⟩

/-- Login fails with the 401 reply when every account carrying the handle is
inactive or does not verify the password. -/
theorem login_fails_of_no_match (env : Env) (d : Draw) (store : Store) (h p : String)
    (hh : h ≠ "") (hp : p ≠ "") (hdemo : ¬ (h = "demo@user.com" ∧ p = "123456"))
    (hfail : ∀ u ∈ store, u.email = normalizeEmail env h →
      u.isActive = false ∨ comparePassword env u p = false) :
    login env d store ⟨some h, some p⟩ = (invalidCredential, store) := by
  rw [login_not_demo env d store h p hh hp hdemo]
  cases hf : findOneActiveByEmail env store h with
  | none => rfl
  | some u =>
    obtain ⟨hm, he, ha⟩ := findOneActive_some hf
    rcases hfail u hm he with h1 | h1
    · rw [ha] at h1; cases h1
    · simp [h1]

/-! ## Login: failure replies -/

/-- C1 (counterexample): on an empty collection no account has the handle
`demo@user.com`, yet the login `demo@user.com` / `123456` is answered with
status 200, a user object and a token, not with the 401 reply. -/
theorem login_demo_unknown_handle_succeeds :
    (∀ u ∈ ([] : Store), u.email ≠ normalizeEmail refEnv "demo@user.com") ∧
    (login refEnv sampleDraw [] ⟨some "demo@user.com", some "123456"⟩).1.status = 200 ∧
    (login refEnv sampleDraw [] ⟨some "demo@user.com", some "123456"⟩).1.user.isSome = true ∧
    (login refEnv sampleDraw [] ⟨some "demo@user.com", some "123456"⟩).1.token.isSome = true ∧
    (login refEnv sampleDraw [] ⟨some "demo@user.com", some "123456"⟩).1 ≠ invalidCredential := by
  refine ⟨by simp, by rfl, by rfl, by rfl, by decide⟩

/-- C1 (amended): for a non-empty handle and plaintext other than the demo
pair `demo@user.com` / `123456`, if no account has the handle, or every account
with the handle is inactive, or the plaintext verifies against none of them,
then login answers 401 'Invalid email or password' with neither a user nor a
token. -/
theorem login_invalid_credential (env : Env) (d : Draw) (store : Store) (h p : String)
    (hh : h ≠ "") (hp : p ≠ "") (hdemo : ¬ (h = "demo@user.com" ∧ p = "123456"))
    (hfail : (∀ u ∈ store, u.email ≠ normalizeEmail env h) ∨
      (∀ u ∈ store, u.email = normalizeEmail env h → u.isActive = false) ∨
      (∀ u ∈ store, u.email = normalizeEmail env h → comparePassword env u p = false)) :
    (login env d store ⟨some h, some p⟩).1 = invalidCredential ∧
    (login env d store ⟨some h, some p⟩).1.status = 401 ∧
    (login env d store ⟨some h, some p⟩).1.success = false ∧
    (login env d store ⟨some h, some p⟩).1.message = "Invalid email or password" ∧
    (login env d store ⟨some h, some p⟩).1.user = none ∧
    (login env d store ⟨some h, some p⟩).1.token = none := by
  have key : login env d store ⟨some h, some p⟩ = (invalidCredential, store) := by
    apply login_fails_of_no_match env d store h p hh hp hdemo
    intro u hu he
    rcases hfail with h1 | h1 | h1
    · exact absurd he (h1 u hu)
    · exact Or.inl (h1 u hu he)
    · exact Or.inr (h1 u hu he)
  rw [key]
  exact ⟨rfl, rfl, rfl, rfl, rfl, rfl⟩

/-- Witness of C1 (amended): `a@x.com` with a wrong password. -/
theorem login_invalid_credential_witness :
    (∀ u ∈ [alice, bob], u.email = normalizeEmail refEnv "a@x.com" →
      comparePassword refEnv u "wrong12" = false) ∧
    (login refEnv sampleDraw [alice, bob] ⟨some "a@x.com", some "wrong12"⟩).1.status = 401 :=
  ⟨by decide,
   (login_invalid_credential refEnv sampleDraw [alice, bob] "a@x.com" "wrong12"
      (by decide) (by decide) (by decide) (Or.inr (Or.inr (by decide)))).2.1⟩

/-- C2 (counterexample): the collection holds a deactivated account with the
handle `demo@user.com`; a login with that handle and `123456` is answered with
status 200, while a login with a handle that no account has is answered with
the 401 reply, so the two responses differ. -/
theorem login_demo_inactive_distinguishable :
    retiredDemo ∈ [alice, retiredDemo] ∧
    retiredDemo.email = normalizeEmail refEnv "demo@user.com" ∧
    retiredDemo.isActive = false ∧
    (∀ u ∈ [alice, retiredDemo], u.email ≠ normalizeEmail refEnv "nobody@x.com") ∧
    (login refEnv sampleDraw [alice, retiredDemo] ⟨some "nobody@x.com", some "123456"⟩).1
      = invalidCredential ∧
    (login refEnv sampleDraw [alice, retiredDemo] ⟨some "demo@user.com", some "123456"⟩).1.status
      = 200 ∧
    (login refEnv sampleDraw [alice, retiredDemo] ⟨some "demo@user.com", some "123456"⟩).1 ≠
      (login refEnv sampleDraw [alice, retiredDemo] ⟨some "nobody@x.com", some "123456"⟩).1 := by
  refine ⟨by decide, by decide, by rfl, by decide, by rfl, by rfl, by decide⟩

/-- C2 (amended): for three logins, none of them the demo pair, the first with
the handle of an active account and a password that verifies against no account
with that handle, the second with a handle that no account has, the third with
a handle whose accounts are all inactive, the three responses are identical:
status 401 with body `{success: false, message: 'Invalid email or password'}`. -/
theorem login_enumeration_resistance (env : Env) (d1 d2 d3 : Draw) (store : Store)
    (h1 p1 h2 p2 h3 p3 : String)
    (hh1 : h1 ≠ "") (hp1 : p1 ≠ "") (hh2 : h2 ≠ "") (hp2 : p2 ≠ "")
    (hh3 : h3 ≠ "") (hp3 : p3 ≠ "")
    (hdemo1 : ¬ (h1 = "demo@user.com" ∧ p1 = "123456"))
    (hdemo2 : ¬ (h2 = "demo@user.com" ∧ p2 = "123456"))
    (hdemo3 : ¬ (h3 = "demo@user.com" ∧ p3 = "123456"))
    (_hactive : ∃ u ∈ store, u.email = normalizeEmail env h1 ∧ u.isActive = true)
    (hwrong : ∀ u ∈ store, u.email = normalizeEmail env h1 → comparePassword env u p1 = false)
    (hnone : ∀ u ∈ store, u.email ≠ normalizeEmail env h2)
    (_hexists : ∃ u ∈ store, u.email = normalizeEmail env h3)
    (hinactive : ∀ u ∈ store, u.email = normalizeEmail env h3 → u.isActive = false) :
    (login env d1 store ⟨some h1, some p1⟩).1 = (login env d2 store ⟨some h2, some p2⟩).1 ∧
    (login env d2 store ⟨some h2, some p2⟩).1 = (login env d3 store ⟨some h3, some p3⟩).1 ∧
    (login env d1 store ⟨some h1, some p1⟩).1 =
      { status := 401, success := false, message := "Invalid email or password",
        user := none, token := none } := by
  have e1 : login env d1 store ⟨some h1, some p1⟩ = (invalidCredential, store) :=
    login_fails_of_no_match env d1 store h1 p1 hh1 hp1 hdemo1
      (fun u hu he => Or.inr (hwrong u hu he))
  have e2 : login env d2 store ⟨some h2, some p2⟩ = (invalidCredential, store) :=
    login_fails_of_no_match env d2 store h2 p2 hh2 hp2 hdemo2
      (fun u hu he => absurd he (hnone u hu))
  have e3 : login env d3 store ⟨some h3, some p3⟩ = (invalidCredential, store) :=
    login_fails_of_no_match env d3 store h3 p3 hh3 hp3 hdemo3
      (fun u hu he => Or.inl (hinactive u hu he))
  rw [e1, e2, e3]
  exact ⟨rfl, rfl, rfl⟩

/-- Witness of C2 (amended): `a@x.com` with a wrong password, the unknown
handle `nobody@x.com`, and the deactivated `b@x.com` with its own password. -/
theorem login_enumeration_resistance_witness :
    (login refEnv sampleDraw [alice, bob] ⟨some "a@x.com", some "wrong12"⟩).1 =
      (login refEnv sampleDraw [alice, bob] ⟨some "nobody@x.com", some "secret1"⟩).1 ∧
    (login refEnv sampleDraw [alice, bob] ⟨some "nobody@x.com", some "secret1"⟩).1 =
      (login refEnv sampleDraw [alice, bob] ⟨some "b@x.com", some "hunter22"⟩).1 ∧
    (login refEnv sampleDraw [alice, bob] ⟨some "a@x.com", some "wrong12"⟩).1 =
      { status := 401, success := false, message := "Invalid email or password",
        user := none, token := none } :=
  login_enumeration_resistance refEnv sampleDraw sampleDraw sampleDraw [alice, bob]
    "a@x.com" "wrong12" "nobody@x.com" "secret1" "b@x.com" "hunter22"
    (by decide) (by decide) (by decide) (by decide) (by decide) (by decide)
    (by decide) (by decide) (by decide)
    ⟨alice, by decide, by decide, by rfl⟩ (by decide) (by decide)
    ⟨bob, by decide, by decide⟩ (by decide)

/-! ## Register: failure replies -/

theorem findOneByEmail_some_of_mem {env : Env} {store : Store} {email : String}
    (hex : ∃ u ∈ store, u.email = normalizeEmail env email) :
    ∃ v, findOneByEmail env store email = some v := by
  obtain ⟨u, hu, he⟩ := hex
  cases hf : findOneByEmail env store email with
  | some v => exact ⟨v, rfl⟩
  | none =>
    unfold findOneByEmail at hf
    rw [List.find?_eq_none] at hf
    have := hf u hu
    simp [he] at this

theorem findOneByEmail_none {env : Env} {store : Store} {email : String}
    (hf : findOneByEmail env store email = none) :
    ∀ u ∈ store, u.email ≠ normalizeEmail env email := by
  unfold findOneByEmail at hf
  rw [List.find?_eq_none] at hf
  intro u hu he
  have := hf u hu
  simp [he] at this

/-- A non-empty `name` field makes the composed name non-empty. -/
theorem fullName_truthy_of_name (req : RegisterRequest) (n : String)
    (hn : req.name = some n) (hne : n ≠ "") : truthy (fullName req) ≠ none := by
  unfold fullName
  cases hf : truthy req.firstName with
  | none => simp [hn, truthy, hne]
  | some f =>
    cases hl : truthy req.lastName with
    | none => simp [hn, truthy, hne]
    | some l =>
      have hcat : f ++ " " ++ l ≠ "" := by
        intro h
        have := congrArg String.length h
        simp at this
        exact absurd this.1.2 (by decide)
      simp [truthy, hcat]

/-- Register past its two guards: the request has name, email and a password
of six or more, so the reply is decided by the lookup and the save. -/
theorem register_guarded (env : Env) (d : Draw) (store : Store) (req : RegisterRequest)
    (name email password : String)
    (hn : truthy (fullName req) = some name) (he : truthy req.email = some email)
    (hp : truthy req.password = some password) (hlen : 6 ≤ jsLength password) :
    register env d store req =
      match findOneByEmail env store email with
      | some _ => (conflict, store)
      | none =>
        match save env d store (newUser env store name email password
            (some (match truthy req.phone with
              | some p => p
              | none => ""))) with
        | .ok (doc, store1) => (registerSuccess env doc.fields, store1)
        | .error .duplicateKey => (conflict, store)
        | .error _ => (registerError, store) := by
  have hlt : ¬ jsLength password < 6 := by omega
  simp only [register, hn, he, hp, if_neg hlt]

/-- C3 (counterexample): the collection holds `a@x.com`; a second register for
`a@x.com` that carries the password `abc` is answered with 'Password must be at
least 6 characters long', not with the Conflict reply. -/
theorem register_existing_handle_short_password :
    alice ∈ [alice] ∧ alice.email = normalizeEmail refEnv "a@x.com" ∧
    (register refEnv sampleDraw [alice] (plainRegister "Al" "a@x.com" "abc")).1.message =
      "Password must be at least 6 characters long" ∧
    (register refEnv sampleDraw [alice] (plainRegister "Al" "a@x.com" "abc")).1 ≠ conflict := by
  refine ⟨by decide, by decide, by rfl, by decide⟩

/-- C3 (amended): for every collection that holds an account with handle `h`,
every register request for `h` that carries a non-empty name and a password of
at least 6 characters is answered with the Conflict reply 'User with this email
already exists'. -/
theorem register_existing_handle_conflict (env : Env) (d : Draw) (store : Store)
    (req : RegisterRequest) (email password : String)
    (hn : truthy (fullName req) ≠ none)
    (he : req.email = some email) (hne : email ≠ "")
    (hp : req.password = some password) (hlen : 6 ≤ jsLength password)
    (hex : ∃ u ∈ store, u.email = normalizeEmail env email) :
    (register env d store req).1 = conflict ∧
    (register env d store req).1.message = "User with this email already exists" := by
  obtain ⟨name, hname⟩ := Option.ne_none_iff_exists'.mp hn
  have hpne : password ≠ "" := by
    intro h; subst h; simp [jsLength] at hlen
  have he' : truthy req.email = some email := by rw [he]; exact truthy_eq_some hne
  have hp' : truthy req.password = some password := by rw [hp]; exact truthy_eq_some hpne
  obtain ⟨v, hv⟩ := findOneByEmail_some_of_mem hex
  rw [register_guarded env d store req name email password hname he' hp' hlen, hv]
  exact ⟨rfl, rfl⟩

/-- Witness of C3 (amended): a second register for `a@x.com`. -/
theorem register_existing_handle_conflict_witness :
    (∃ u ∈ [alice, bob], u.email = normalizeEmail refEnv "a@x.com") ∧
    (register refEnv sampleDraw [alice, bob] (plainRegister "Al" "a@x.com" "another1")).1
      = conflict :=
  ⟨⟨alice, by decide, by decide⟩,
   (register_existing_handle_conflict refEnv sampleDraw [alice, bob]
      (plainRegister "Al" "a@x.com" "another1") "a@x.com" "another1"
      (by decide) rfl (by decide) rfl (by decide) ⟨alice, by decide, by decide⟩).1⟩

/-- C4: the Conflict check of register is case-insensitive. When the collection
holds an account with handle `h` and the request has a non-empty name, a
password of at least 6 characters and an email whose trimmed, lower-cased form
is `h`, register answers 400 'User with this email already exists' and the
collection is left as it was. -/
theorem register_conflict_case_insensitive (env : Env) (d : Draw) (store : Store)
    (req : RegisterRequest) (u : User) (email password : String)
    (hn : truthy (fullName req) ≠ none)
    (he : req.email = some email) (hp : req.password = some password)
    (hlen : 6 ≤ jsLength password)
    (hu : u ∈ store) (hcase : normalizeEmail env email = u.email) (hne : email ≠ "") :
    register env d store req = (conflict, store) ∧
    (register env d store req).1.status = 400 ∧
    (register env d store req).1.message = "User with this email already exists" ∧
    (register env d store req).2.length = store.length := by
  obtain ⟨name, hname⟩ := Option.ne_none_iff_exists'.mp hn
  have hpne : password ≠ "" := by
    intro h; subst h; simp [jsLength] at hlen
  have he' : truthy req.email = some email := by rw [he]; exact truthy_eq_some hne
  have hp' : truthy req.password = some password := by rw [hp]; exact truthy_eq_some hpne
  obtain ⟨v, hv⟩ := findOneByEmail_some_of_mem ⟨u, hu, hcase.symm⟩
  rw [register_guarded env d store req name email password hname he' hp' hlen, hv]
  exact ⟨rfl, rfl, rfl, rfl⟩

/-- Witness of C4: `"  A@X.Com "` against the stored `a@x.com`. -/
theorem register_conflict_case_insensitive_witness :
    normalizeEmail refEnv "  A@X.Com " = alice.email ∧
    register refEnv sampleDraw [alice, bob] (plainRegister "Al" "  A@X.Com " "another1")
      = (conflict, [alice, bob]) :=
  ⟨by decide,
   (register_conflict_case_insensitive refEnv sampleDraw [alice, bob]
      (plainRegister "Al" "  A@X.Com " "another1") alice "  A@X.Com " "another1"
      (by decide) rfl rfl (by decide) (by decide) (by decide) (by decide)).1⟩

/-! ## Saving a new document -/

theorem le_foldr_max (l : List Nat) : ∀ n ∈ l, n ≤ l.foldr max 0 := by
  induction l with
  | nil => intro n hn; cases hn
  | cons a t ih =>
    intro n hn
    rw [List.foldr_cons]
    rcases List.mem_cons.mp hn with h | h
    · subst h; exact le_max_left _ _
    · exact le_trans (ih n h) (le_max_right _ _)

/-- The identifier given to a new document is carried by no stored document. -/
theorem freshId_not_mem (store : Store) : ∀ v ∈ store, v._id ≠ freshId store := by
  intro v hv h
  have hle : v._id ≤ (store.map (·._id)).foldr max 0 :=
    le_foldr_max _ _ (List.mem_map_of_mem _ hv)
  unfold freshId at h
  omega

theorem jsLength_empty : jsLength "" = 0 := rfl

theorem ne_empty_of_jsLength {s : String} (h : 6 ≤ jsLength s) : s ≠ "" := by
  intro hs
  subst hs
  rw [jsLength_empty] at h
  omega

/-- Saving `new User(...)` when the fields pass validation and the email is
free: the document is appended with its password hashed and both time stamps
set. -/
theorem save_newUser (env : Env) (d : Draw) (store : Store)
    (name email password : String) (phone : Option String)
    (hname : jsTrim name ≠ "") (hname100 : jsLength (jsTrim name) ≤ 100)
    (hemail : normalizeEmail env email ≠ "") (hlen : 6 ≤ jsLength password)
    (hfree : ∀ u ∈ store, u.email ≠ normalizeEmail env email) :
    save env d store (newUser env store name email password phone) =
      .ok
        ({ fields :=
            { _id := freshId store, name := jsTrim name,
              email := normalizeEmail env email,
              password := some (env.hash password (env.genSalt 12 d.salt)),
              phone := phone.map jsTrim, isActive := true, role := Role.user,
              googleId := none, avatar := none,
              authProvider := AuthProvider.localProvider, lastLogin := none,
              createdAt := some d.now, updatedAt := some d.now }
           isNew := false
           modified := [] },
         store ++
          [{ _id := freshId store, name := jsTrim name,
             email := normalizeEmail env email,
             password := some (env.hash password (env.genSalt 12 d.salt)),
             phone := phone.map jsTrim, isActive := true, role := Role.user,
             googleId := none, avatar := none,
             authProvider := AuthProvider.localProvider, lastLogin := none,
             createdAt := some d.now, updatedAt := some d.now }]) := by
  have hpne := ne_empty_of_jsLength hlen
  have hval : validate (newUser env store name email password phone).fields = true := by
    simp [validate, newUser, hname, hname100, hemail, hlen]
  have hany : (store.any fun v =>
      v._id == freshId store || v.email == normalizeEmail env email) = false := by
    rw [List.any_eq_false]
    intro v hv
    simp [freshId_not_mem store v hv, hfree v hv]
  simp only [save, hval, if_true]
  simp [newUser, preSave, Document.isModified, truthy, hpne, hany]

/-- Every reply of register other than success leaves the collection as it
was; a success reply comes with the collection produced by `save`. -/
theorem register_cases (env : Env) (d : Draw) (store : Store) (req : RegisterRequest) :
    ((register env d store req).1.success = false ∧ (register env d store req).2 = store) ∨
    ∃ name email password phone doc store1,
      truthy (fullName req) = some name ∧ truthy req.email = some email ∧
      truthy req.password = some password ∧ 6 ≤ jsLength password ∧
      findOneByEmail env store email = none ∧
      save env d store (newUser env store name email password phone) = .ok (doc, store1) ∧
      register env d store req = (registerSuccess env doc.fields, store1) := by
  cases hn : truthy (fullName req) with
  | none => left; simp [register, hn, failure]
  | some name =>
    cases he : truthy req.email with
    | none => left; simp [register, hn, he, failure]
    | some email =>
      cases hp : truthy req.password with
      | none => left; simp [register, hn, he, hp, failure]
      | some password =>
        by_cases hlen : jsLength password < 6
        · left; simp [register, hn, he, hp, hlen, weakCredential, failure]
        · have hlen6 : 6 ≤ jsLength password := by omega
          rw [register_guarded env d store req name email password hn he hp hlen6]
          cases hf : findOneByEmail env store email with
          | some v => left; simp [conflict, failure]
          | none =>
            cases hs : save env d store (newUser env store name email password
                (some (match truthy req.phone with
                  | some p => p
                  | none => ""))) with
            | error e =>
              left
              cases e <;> simp [conflict, registerError, failure]
            | ok r =>
              right
              obtain ⟨doc, store1⟩ := r
              exact ⟨name, email, password, _, doc, store1, rfl, rfl, rfl, hlen6, hf, hs, rfl⟩

/-- C5: a register call answered with the Conflict reply leaves the collection
exactly as it was: the same accounts with the same fields. -/
theorem register_conflict_frame (env : Env) (d : Draw) (store : Store)
    (req : RegisterRequest) (hconf : (register env d store req).1 = conflict) :
    (register env d store req).2 = store := by
  rcases register_cases env d store req with h | ⟨_, _, _, _, doc, store1, _, _, _, _, _, _, h⟩
  · exact h.2
  · rw [h] at hconf
    have := congrArg Response.success hconf
    simp [registerSuccess, conflict, failure] at this

/-- Witness of C5: a second register for `a@x.com`. -/
theorem register_conflict_frame_witness :
    (register refEnv sampleDraw [alice, bob] (plainRegister "Al" "A@x.com" "another1")).1
      = conflict ∧
    (register refEnv sampleDraw [alice, bob] (plainRegister "Al" "A@x.com" "another1")).2
      = [alice, bob] :=
  ⟨by decide,
   register_conflict_frame refEnv sampleDraw [alice, bob]
     (plainRegister "Al" "A@x.com" "another1") (by decide)⟩

/-- C6: a register request with a non-empty name, email and password whose
password has fewer than 6 characters is answered with 400 'Password must be at
least 6 characters long'; no account is created and the collection is
unchanged. -/
theorem register_weak_credential (env : Env) (d : Draw) (store : Store)
    (req : RegisterRequest) (email password : String)
    (hn : truthy (fullName req) ≠ none)
    (he : req.email = some email) (hne : email ≠ "")
    (hp : req.password = some password) (hpne : password ≠ "")
    (hshort : jsLength password < 6) :
    register env d store req = (weakCredential, store) ∧
    (register env d store req).1.status = 400 ∧
    (register env d store req).1.success = false ∧
    (register env d store req).1.message = "Password must be at least 6 characters long" ∧
    (register env d store req).1.user = none ∧
    (register env d store req).2 = store := by
  obtain ⟨name, hname⟩ := Option.ne_none_iff_exists'.mp hn
  have key : register env d store req = (weakCredential, store) := by
    have he1 : truthy req.email = some email := by rw [he]; exact truthy_eq_some hne
    have hp1 : truthy req.password = some password := by rw [hp]; exact truthy_eq_some hpne
    simp only [register, hname, he1, hp1, if_pos hshort]
  rw [key]
  exact ⟨rfl, rfl, rfl, rfl, rfl, rfl⟩

/-- Witness of C6: the password `abc12`. -/
theorem register_weak_credential_witness :
    jsLength "abc12" < 6 ∧
    register refEnv sampleDraw [alice] (plainRegister "Carol" "c@x.com" "abc12")
      = (weakCredential, [alice]) :=
  ⟨by decide,
   (register_weak_credential refEnv sampleDraw [alice]
      (plainRegister "Carol" "c@x.com" "abc12") "c@x.com" "abc12"
      (by decide) rfl (by decide) rfl (by decide) (by decide)).1⟩

/-! ## Register: success -/

/-- C7 (counterexample): a register request whose name is one blank, with a
free handle and a 7-character password. The name is non-empty, yet the `name`
path (`trim: true, required: true`) fails validation in `save`: the reply is
status 500 and no account is added. -/
theorem register_blank_name_rejected :
    (plainRegister " " "new@x.com" "secret1").name = some " " ∧ " " ≠ "" ∧
    (∀ u ∈ [alice], u.email ≠ normalizeEmail refEnv "new@x.com") ∧
    6 ≤ jsLength "secret1" ∧
    (register refEnv sampleDraw [alice] (plainRegister " " "new@x.com" "secret1")).1.status
      = 500 ∧
    (register refEnv sampleDraw [alice] (plainRegister " " "new@x.com" "secret1")).1.success
      = false ∧
    (register refEnv sampleDraw [alice] (plainRegister " " "new@x.com" "secret1")).2
      = [alice] := by
  refine ⟨rfl, by decide, by decide, by decide, by rfl, by rfl, by rfl⟩

/-- C7 (amended): for every register request whose name is non-empty after
trimming and at most 100 code units long, whose email is non-empty after
trimming and lower-casing and is a handle that no account has, and whose
password has at least 6 characters, register adds exactly one account: its
email is the trimmed, lower-cased request email, its stored password is the
hash of the plaintext, its role is `user` whatever the body carries (a `role`
field included), and it is active; the response reports success with that
account's identifier. -/
theorem register_creates_account (env : Env) (d : Draw) (store : Store)
    (req : RegisterRequest) (name email password : String)
    (hn : truthy (fullName req) = some name)
    (hname : jsTrim name ≠ "") (hname100 : jsLength (jsTrim name) ≤ 100)
    (he : req.email = some email) (hne : email ≠ "")
    (hemail : normalizeEmail env email ≠ "")
    (hfree : ∀ u ∈ store, u.email ≠ normalizeEmail env email)
    (hp : req.password = some password) (hlen : 6 ≤ jsLength password) :
    ∃ u : User,
      (register env d store req).2 = store ++ [u] ∧
      u.email = normalizeEmail env email ∧
      u.password = some (env.hash password (env.genSalt 12 d.salt)) ∧
      u.role = Role.user ∧
      u.isActive = true ∧
      (register env d store req).1.status = 200 ∧
      (register env d store req).1.success = true ∧
      (register env d store req).1.user.map (·.id) = some u._id := by
  have he1 : truthy req.email = some email := by rw [he]; exact truthy_eq_some hne
  have hp1 : truthy req.password = some password := by
    rw [hp]; exact truthy_eq_some (ne_empty_of_jsLength hlen)
  have hnone : findOneByEmail env store email = none := by
    unfold findOneByEmail
    rw [List.find?_eq_none]
    intro u hu
    simp [hfree u hu]
  rw [register_guarded env d store req name email password hn he1 hp1 hlen, hnone]
  simp only [save_newUser env d store name email password _ hname hname100 hemail hlen hfree]
  exact ⟨_, rfl, rfl, rfl, rfl, rfl, rfl, rfl, rfl⟩

/-- Witness of C7 (amended): a body that asks for `role: 'admin'`. -/
theorem register_creates_account_witness :
    (∀ u ∈ [alice], u.email ≠ normalizeEmail refEnv " Carol@X.com") ∧
    ∃ u : User,
      (register refEnv sampleDraw [alice]
        { name := some "Carol", email := some " Carol@X.com", password := some "secret1",
          phone := none, firstName := none, lastName := none, role := some "admin" }).2
        = [alice] ++ [u] ∧
      u.email = normalizeEmail refEnv " Carol@X.com" ∧
      u.password = some (refEnv.hash "secret1" (refEnv.genSalt 12 sampleDraw.salt)) ∧
      u.role = Role.user ∧
      u.isActive = true ∧
      (register refEnv sampleDraw [alice]
        { name := some "Carol", email := some " Carol@X.com", password := some "secret1",
          phone := none, firstName := none, lastName := none, role := some "admin" }).1.status
        = 200 ∧
      (register refEnv sampleDraw [alice]
        { name := some "Carol", email := some " Carol@X.com", password := some "secret1",
          phone := none, firstName := none, lastName := none, role := some "admin" }).1.success
        = true ∧
      (register refEnv sampleDraw [alice]
        { name := some "Carol", email := some " Carol@X.com", password := some "secret1",
          phone := none, firstName := none, lastName := none, role := some "admin" }).1.user.map
          (·.id) = some u._id :=
  ⟨by decide,
   register_creates_account refEnv sampleDraw [alice]
     { name := some "Carol", email := some " Carol@X.com", password := some "secret1",
       phone := none, firstName := none, lastName := none, role := some "admin" }
     "Carol" " Carol@X.com" "secret1"
     (by decide) (by decide) (by decide) rfl (by decide) (by decide) (by decide) rfl
     (by decide)⟩

/-! ## Updating the last login -/

theorem updateById_some_of_mem (id : Nat) (f : User → User) (store : Store)
    (h : ∃ v ∈ store, v._id = id) : ∃ store1, updateById id f store = some store1 := by
  induction store with
  | nil => obtain ⟨v, hv, _⟩ := h; cases hv
  | cons a t ih =>
    by_cases ha : a._id = id
    · exact ⟨f a :: t, by simp [updateById, ha]⟩
    · obtain ⟨v, hv, hid⟩ := h
      have hvt : v ∈ t := by
        rcases List.mem_cons.mp hv with h1 | h1
        · subst h1; exact absurd hid ha
        · exact h1
      obtain ⟨t1, ht1⟩ := ih ⟨v, hvt, hid⟩
      exact ⟨a :: t1, by simp [updateById, ha, ht1]⟩

theorem validate_lastLogin (u : User) (t : Option Nat) :
    validate { u with lastLogin := t } = validate u := rfl

/-- The method `updateLastLogin` on a document that is stored and has no
pending change: validate, then `$set` `lastLogin` and `updatedAt`. -/
theorem updateLastLogin_clean (env : Env) (d : Draw) (store : Store) (doc : Document)
    (hnew : doc.isNew = false) (hmod : doc.modified = []) :
    updateLastLogin env d store doc =
      if validate doc.fields then
        match updateById doc.fields._id (stampLogin d) store with
        | some store1 =>
          .ok ({ fields := stampLogin d doc.fields, isNew := false, modified := [] }, store1)
        | none => .error .documentNotFound
      else .error .validationError := by
  unfold updateLastLogin save
  simp only [validate_lastLogin, hnew, hmod, preSave, Document.isModified]
  by_cases hv : validate doc.fields = true
  · simp only [hv, if_true]
    simp [stampLogin, User.assign]
    rfl
  · simp [hv]

/-- The tail of login on a stored, valid document whose id is in the
collection: it succeeds and answers with the stamped document. -/
theorem finishLogin_ok (env : Env) (d : Draw) (store : Store) (u : User)
    (hval : validate u = true) (hmem : ∃ v ∈ store, v._id = u._id) :
    ∃ store1, updateById u._id (stampLogin d) store = some store1 ∧
      finishLogin env d store (loaded u) = (loginSuccess env (stampLogin d u), store1) := by
  obtain ⟨store1, hs⟩ := updateById_some_of_mem u._id (stampLogin d) store hmem
  refine ⟨store1, hs, ?_⟩
  unfold finishLogin
  rw [updateLastLogin_clean env d store (loaded u) rfl rfl]
  simp [loaded, hval, hs]

/-- The tail of login on a stored document, whatever the outcome. -/
theorem finishLogin_cases (env : Env) (d : Draw) (store : Store) (u : User) :
    finishLogin env d store (loaded u) = (loginError, store) ∨
    ∃ store1, updateById u._id (stampLogin d) store = some store1 ∧
      finishLogin env d store (loaded u) = (loginSuccess env (stampLogin d u), store1) := by
  unfold finishLogin
  rw [updateLastLogin_clean env d store (loaded u) rfl rfl]
  simp only [loaded]
  by_cases hv : validate u = true
  · cases hs : updateById u._id (stampLogin d) store with
    | none => left; simp [hv]
    | some store1 =>
      right
      exact ⟨store1, rfl, by simp [hv]⟩
  · left; simp [hv]

/-- The tail of login on a stored document that fails validation: the `save()`
of `updateLastLogin` throws, the `catch` block answers 500 and nothing is
written. -/
theorem finishLogin_invalid (env : Env) (d : Draw) (store : Store) (u : User)
    (hval : validate u = false) :
    finishLogin env d store (loaded u) = (loginError, store) := by
  unfold finishLogin
  rw [updateLastLogin_clean env d store (loaded u) rfl rfl]
  simp [loaded, hval]

/-- Saving `new User(...)`, read backwards: if it succeeds, the fields passed
validation, the email was free, and the stored document is the expected one. -/
theorem save_newUser_inv (env : Env) (d : Draw) (store : Store)
    (name email password : String) (phone : Option String) (doc : Document) (store1 : Store)
    (hfree : ∀ u ∈ store, u.email ≠ normalizeEmail env email)
    (hs : save env d store (newUser env store name email password phone) = .ok (doc, store1)) :
    ∃ u : User, doc = loaded u ∧ store1 = store ++ [u] ∧ u._id = freshId store ∧
      u.name = jsTrim name ∧ jsTrim name ≠ "" ∧ jsLength (jsTrim name) ≤ 100 ∧
      u.email = normalizeEmail env email ∧ normalizeEmail env email ≠ "" ∧
      u.password = some (env.hash password (env.genSalt 12 d.salt)) ∧ 6 ≤ jsLength password ∧
      u.isActive = true ∧ u.role = Role.user ∧ u.lastLogin = none ∧ u.googleId = none ∧
      u.avatar = none ∧ u.travelStyle = none := by
  by_cases hval : validate (newUser env store name email password phone).fields = true
  · have hv := hval
    simp [validate, newUser] at hv
    obtain ⟨⟨⟨hname, hname100⟩, hemail⟩, hlen⟩ := hv
    rw [save_newUser env d store name email password phone hname hname100 hemail hlen hfree]
      at hs
    injection hs with hs
    injection hs with h1 h2
    refine ⟨_, h1.symm, h2.symm, rfl, rfl, hname, hname100, rfl, hemail, rfl, hlen,
      rfl, rfl, rfl, rfl, rfl, rfl⟩
  · simp [save, hval] at hs

/-! ## Register, then login -/

theorem find?_append_singleton {α : Type} (q : α → Bool) (l : List α) (a : α)
    (hl : ∀ v ∈ l, q v = false) (ha : q a = true) : (l ++ [a]).find? q = some a := by
  induction l with
  | nil => simp [List.find?, ha]
  | cons b t ih =>
    have hb : q b = false := hl b (List.mem_cons_self b t)
    have ht : ∀ v ∈ t, q v = false := fun v hv => hl v (List.mem_cons_of_mem b hv)
    simp [List.find?, hb, ih ht]

/-- A login for the account that was appended last, with its own password:
both the demo shortcut and the ordinary path reach the tail of login with that
account. -/
theorem login_appended (env : Env) (hc : HasherContract env) (d : Draw) (store : Store)
    (u : User) (e p salt : String) (he : e ≠ "") (hp : p ≠ "")
    (hfree : ∀ v ∈ store, v.email ≠ normalizeEmail env e)
    (hemail : u.email = normalizeEmail env e) (hactive : u.isActive = true)
    (hpw : u.password = some (env.hash p salt)) :
    login env d (store ++ [u]) ⟨some e, some p⟩ =
      finishLogin env d (store ++ [u]) (loaded u) := by
  have hdigest : env.hash p salt ≠ "" := ne_empty_of_jsLength (hc.digest_length p salt)
  simp only [login, truthy_eq_some he, truthy_eq_some hp]
  by_cases hdemo : e = "demo@user.com" ∧ p = "123456"
  · rw [if_pos hdemo]
    have hfind : findOneByEmail env (store ++ [u]) "demo@user.com" = some u := by
      unfold findOneByEmail
      apply find?_append_singleton
      · intro v hv
        have := hfree v hv
        rw [hdemo.1] at this
        simp [this]
      · rw [hemail, hdemo.1]
        simp
    rw [hfind]
  · rw [if_neg hdemo]
    have hfind : findOneActiveByEmail env (store ++ [u]) e = some u := by
      unfold findOneActiveByEmail
      apply find?_append_singleton
      · intro v hv
        simp [hfree v hv]
      · simp [hemail, hactive]
    have hcmp : comparePassword env u p = true := by
      simp [comparePassword, hpw, truthy, hdigest, hc.compare_hash]
    rw [hfind]
    simp [hcmp]

/-- C8: register followed by login round-trips. For every collection and every
register request that succeeds with email `e` and password `p`, a login with
the same `e` and `p` right after it is answered with status 200, success and a
token, and names the same account identifier and email as register did (the
hasher is assumed to meet its contract). -/
theorem register_then_login (env : Env) (hc : HasherContract env) (d d2 : Draw)
    (store : Store) (req : RegisterRequest) (e p : String)
    (he : req.email = some e) (hp : req.password = some p)
    (hok : (register env d store req).1.success = true) :
    (login env d2 (register env d store req).2 ⟨some e, some p⟩).1.status = 200 ∧
    (login env d2 (register env d store req).2 ⟨some e, some p⟩).1.success = true ∧
    (login env d2 (register env d store req).2 ⟨some e, some p⟩).1.token.isSome = true ∧
    (register env d store req).1.user.isSome = true ∧
    (login env d2 (register env d store req).2 ⟨some e, some p⟩).1.user.map (·.id) =
      (register env d store req).1.user.map (·.id) ∧
    (login env d2 (register env d store req).2 ⟨some e, some p⟩).1.user.map (·.email) =
      (register env d store req).1.user.map (·.email) := by
  rcases register_cases env d store req with h |
    ⟨name, email, password, phone, doc, store1, _, hemail, hpass, _, hnone, hsave, hreg⟩
  · rw [h.1] at hok; cases hok
  · obtain ⟨he1, hene⟩ := truthy_some_ne hemail
    obtain ⟨hp1, hpne⟩ := truthy_some_ne hpass
    rw [he] at he1
    rw [hp] at hp1
    injection he1 with he1
    injection hp1 with hp1
    subst he1
    subst hp1
    have hfree := findOneByEmail_none hnone
    obtain ⟨u, hdoc, hstore, hid, hname, hname0, hname100, hmail, hmail0, hpw, hlen,
      hact, _, _, _, _, htravel⟩ :=
      save_newUser_inv env d store name e p phone doc store1 hfree hsave
    have hval : validate u = true := by
      simp [validate, hname, hname0, hname100, hmail, hmail0, hpw, htravel,
        hc.digest_length]
    have hmem : ∃ v ∈ store ++ [u], v._id = u._id := ⟨u, by simp, rfl⟩
    obtain ⟨store2, _, hfin⟩ := finishLogin_ok env d2 (store ++ [u]) u hval hmem
    rw [hreg, hdoc, hstore]
    simp only []
    rw [login_appended env hc d2 store u e p (env.genSalt 12 d.salt) hene hpne hfree hmail hact hpw, hfin]
    simp [loginSuccess, registerSuccess, stampLogin, loaded]

/-- The reference primitives meet the hasher contract. -/
theorem refEnv_contract : HasherContract refEnv := by
  constructor
  · intro plaintext salt
    show toyCompare plaintext (toyHash plaintext salt) = true
    simp [toyCompare, toyHash, List.isSuffixOf]
  · intro plaintext salt
    show 6 ≤ jsLength (toyHash plaintext salt)
    simp [jsLength, toyHash]
    omega

/-- Witness of C8: register `Carol@X.com`, then log in with the same body. -/
theorem register_then_login_witness :
    (register refEnv sampleDraw [alice] (plainRegister "Carol" "Carol@X.com" "secret1")).1.success
      = true ∧
    (login refEnv { salt := "s2", now := 2000 }
      (register refEnv sampleDraw [alice] (plainRegister "Carol" "Carol@X.com" "secret1")).2
      ⟨some "Carol@X.com", some "secret1"⟩).1.status = 200 :=
  ⟨by decide,
   (register_then_login refEnv refEnv_contract sampleDraw { salt := "s2", now := 2000 }
      [alice] (plainRegister "Carol" "Carol@X.com" "secret1") "Carol@X.com" "secret1"
      rfl rfl (by decide)).1⟩

/-! ## Login: what a request does to the collection -/

/-- The update `updateOne` when it succeeds: some document `v` with the id is
replaced by `f v`, every document with another id stays, and nothing else
appears. -/
theorem updateById_spec (id : Nat) (f : User → User) (store store1 : Store)
    (h : updateById id f store = some store1) :
    ∃ v ∈ store, v._id = id ∧ f v ∈ store1 ∧
      (∀ w ∈ store, w._id ≠ id → w ∈ store1) ∧
      (∀ w ∈ store1, w = f v ∨ w ∈ store) := by
  induction store generalizing store1 with
  | nil => simp [updateById] at h
  | cons a t ih =>
    by_cases ha : a._id = id
    · simp [updateById, ha] at h
      subst h
      refine ⟨a, List.mem_cons_self a t, ha, List.mem_cons_self _ _, ?_, ?_⟩
      · intro w hw hne
        rcases List.mem_cons.mp hw with h1 | h1
        · subst h1; exact absurd ha hne
        · exact List.mem_cons_of_mem _ h1
      · intro w hw
        rcases List.mem_cons.mp hw with h1 | h1
        · exact Or.inl h1
        · exact Or.inr (List.mem_cons_of_mem _ h1)
    · cases ht : updateById id f t with
      | none => simp [updateById, ha, ht] at h
      | some t1 =>
        simp [updateById, ha, ht] at h
        subst h
        obtain ⟨v, hv, hid, hfv, hkeep, hnew⟩ := ih t1 ht
        refine ⟨v, List.mem_cons_of_mem _ hv, hid, List.mem_cons_of_mem _ hfv, ?_, ?_⟩
        · intro w hw hne
          rcases List.mem_cons.mp hw with h1 | h1
          · subst h1; exact List.mem_cons_self _ _
          · exact List.mem_cons_of_mem _ (hkeep w h1 hne)
        · intro w hw
          rcases List.mem_cons.mp hw with h1 | h1
          · subst h1; exact Or.inr (List.mem_cons_self _ _)
          · rcases hnew w h1 with h2 | h2
            · exact Or.inl h2
            · exact Or.inr (List.mem_cons_of_mem _ h2)

/-- The update `updateOne` aimed at a document appended under a fresh id. -/
theorem updateById_append_fresh (f : User → User) (store : Store) (x : User)
    (hfresh : ∀ v ∈ store, v._id ≠ x._id) :
    updateById x._id f (store ++ [x]) = some (store ++ [f x]) := by
  induction store with
  | nil => simp [updateById]
  | cons a t ih =>
    have ha : a._id ≠ x._id := hfresh a (List.mem_cons_self a t)
    have ht : ∀ v ∈ t, v._id ≠ x._id := fun v hv => hfresh v (List.mem_cons_of_mem a hv)
    simp [updateById, ha, ih ht]

/-- The three ways a login request can end: a failure reply on an unchanged
collection; a success reply for a stored account `u`, whose document gets the
`$set` of `stampLogin`; or the demo account `x` created under a fresh id and a
free email, then stamped (or, if the second save fails, left as created). -/
theorem login_cases (env : Env) (d : Draw) (store : Store) (req : LoginRequest) :
    ((login env d store req).1.success = false ∧ (login env d store req).1.status ≠ 200 ∧
      (login env d store req).2 = store) ∨
    (∃ u ∈ store, ∃ store1, updateById u._id (stampLogin d) store = some store1 ∧
      login env d store req = (loginSuccess env (stampLogin d u), store1)) ∨
    (∃ x : User, (∀ v ∈ store, v._id ≠ x._id ∧ v.email ≠ x.email) ∧
      x.email = normalizeEmail env "demo@user.com" ∧
      (login env d store req = (loginError, store ++ [x]) ∨
       login env d store req = (loginSuccess env (stampLogin d x), store ++ [stampLogin d x]))) := by
  cases he : truthy req.email with
  | none => left; simp [login, he, failure]
  | some email =>
    cases hp : truthy req.password with
    | none => left; simp [login, he, hp, failure]
    | some password =>
      by_cases hdemo : email = "demo@user.com" ∧ password = "123456"
      · cases hf : findOneByEmail env store "demo@user.com" with
        | some u =>
          have hu : u ∈ store := List.mem_of_find?_eq_some hf
          have hlog : login env d store req = finishLogin env d store (loaded u) := by
            simp only [login, he, hp, if_pos hdemo, hf]
          rcases finishLogin_cases env d store u with h | ⟨store1, h1, h2⟩
          · left; rw [hlog, h]; exact ⟨rfl, by simp [loginError, failure], rfl⟩
          · right; left; exact ⟨u, hu, store1, h1, by rw [hlog, h2]⟩
        | none =>
          have hfree := findOneByEmail_none hf
          cases hs : save env d store
              (newUser env store "Demo User" "demo@user.com" "123456" none) with
          | error e =>
            left
            simp [login, he, hp, hdemo, hf, hs, loginError, failure]
          | ok r =>
            obtain ⟨doc, store1⟩ := r
            obtain ⟨x, hdoc, hstore, hid, _, _, _, hmail, _⟩ :=
              save_newUser_inv env d store _ _ _ _ doc store1 hfree hs
            have hlog : login env d store req =
                finishLogin env d (store ++ [x]) (loaded x) := by
              simp only [login, he, hp, if_pos hdemo, hf, hs, hdoc, hstore]
            have hfresh : ∀ v ∈ store, v._id ≠ x._id := by
              intro v hv; rw [hid]; exact freshId_not_mem store v hv
            right; right
            refine ⟨x, fun v hv => ⟨hfresh v hv, by rw [hmail]; exact hfree v hv⟩, hmail, ?_⟩
            rcases finishLogin_cases env d (store ++ [x]) x with h | ⟨store2, h1, h2⟩
            · left; rw [hlog, h]
            · right
              rw [updateById_append_fresh (stampLogin d) store x hfresh] at h1
              injection h1 with h1
              rw [hlog, h2, h1]
      · cases hf : findOneActiveByEmail env store email with
        | none => left; simp [login, he, hp, hdemo, hf, invalidCredential, failure]
        | some u =>
          have hu : u ∈ store := (findOneActive_some hf).1
          by_cases hc : comparePassword env u password = true
          · have hlog : login env d store req = finishLogin env d store (loaded u) := by
              simp only [login, he, hp, if_neg hdemo, hf, hc, if_true]
            rcases finishLogin_cases env d store u with h | ⟨store1, h1, h2⟩
            · left; rw [hlog, h]; exact ⟨rfl, by simp [loginError, failure], rfl⟩
            · right; left; exact ⟨u, hu, store1, h1, by rw [hlog, h2]⟩
          · left
            simp [login, he, hp, hdemo, hf, hc, invalidCredential, failure]

/-- C9: a successful login mutates exactly the last-login time of the account.
For a collection with unique ids and a login answered with status 200, the
account `a` named in the response is stored with `lastLogin` equal to the time
of the login; measured against its document before the call, its handle,
password hash (the save of `updateLastLogin` does not hash again), role,
active flag, provider identifier, name and provider are the same; and every
other account is the same document before and after. -/
theorem login_success_frame (env : Env) (d : Draw) (store : Store) (req : LoginRequest)
    (hid : (store.map (·._id)).Nodup)
    (hok : (login env d store req).1.status = 200) :
    ∃ a ∈ (login env d store req).2,
      (login env d store req).1.user.map (·.id) = some a._id ∧
      a.lastLogin = some d.now ∧
      (∀ u ∈ store, u._id = a._id →
        a.email = u.email ∧ a.password = u.password ∧ a.role = u.role ∧
        a.isActive = u.isActive ∧ a.googleId = u.googleId ∧ a.name = u.name ∧
        a.authProvider = u.authProvider) ∧
      (∀ w ∈ store, w._id ≠ a._id → w ∈ (login env d store req).2) ∧
      (∀ w ∈ (login env d store req).2, w._id ≠ a._id → w ∈ store) := by
  rcases login_cases env d store req with h | ⟨u, hu, store1, hupd, hlog⟩ | ⟨x, hx, _, h | h⟩
  · exact absurd hok h.2.1
  · obtain ⟨v, hv, hvid, hfv, hkeep, hnew⟩ := updateById_spec _ _ _ _ hupd
    have huv : v = u :=
      List.inj_on_of_nodup_map hid hv hu hvid
    subst huv
    rw [hlog]
    refine ⟨stampLogin d v, hfv, rfl, rfl, ?_, ?_, ?_⟩
    · intro w hw hwid
      have hwv : w = v := List.inj_on_of_nodup_map hid hw hv hwid
      subst hwv
      exact ⟨rfl, rfl, rfl, rfl, rfl, rfl, rfl⟩
    · intro w hw hne
      exact hkeep w hw hne
    · intro w hw hne
      rcases hnew w hw with h1 | h1
      · subst h1; exact absurd rfl hne
      · exact h1
  · rw [h] at hok
    simp [loginError, failure] at hok
  · rw [h]
    refine ⟨stampLogin d x, by simp, rfl, rfl, ?_, ?_, ?_⟩
    · intro w hw hwid
      exact absurd hwid (hx w hw).1
    · intro w hw _
      simp [hw]
    · intro w hw hne
      simp at hw
      rcases hw with h1 | h1
      · exact h1
      · subst h1; exact absurd rfl hne

/-- Witness of C9: `a@x.com` logs in with its password. -/
theorem login_success_frame_witness :
    ([alice, bob].map (·._id)).Nodup ∧
    (login refEnv sampleDraw [alice, bob] ⟨some "a@x.com", some "secret1"⟩).1.status = 200 ∧
    ∃ a ∈ (login refEnv sampleDraw [alice, bob] ⟨some "a@x.com", some "secret1"⟩).2,
      a.lastLogin = some sampleDraw.now :=
  ⟨by decide, by decide,
   (login_success_frame refEnv sampleDraw [alice, bob] ⟨some "a@x.com", some "secret1"⟩
      (by decide) (by decide)).elim fun a h => ⟨a, h.1, h.2.2.1⟩⟩

/-! ## Handle uniqueness -/

theorem updateById_map_email (id : Nat) (f : User → User) (hf : ∀ v, (f v).email = v.email)
    (store store1 : Store) (h : updateById id f store = some store1) :
    store1.map (·.email) = store.map (·.email) := by
  induction store generalizing store1 with
  | nil => simp [updateById] at h
  | cons a t ih =>
    by_cases ha : a._id = id
    · simp [updateById, ha] at h
      subst h
      simp [hf]
    · cases ht : updateById id f t with
      | none => simp [updateById, ha, ht] at h
      | some t1 =>
        simp [updateById, ha, ht] at h
        subst h
        simp [ih t1 ht]

theorem nodup_emails_append (store : Store) (x : User)
    (h : (store.map (·.email)).Nodup) (hx : ∀ v ∈ store, v.email ≠ x.email) :
    ((store ++ [x]).map (·.email)).Nodup := by
  rw [List.map_append, List.nodup_append]
  refine ⟨h, by simp, ?_⟩
  intro e he hex
  simp at hex
  obtain ⟨v, hv, hve⟩ := List.mem_map.mp he
  exact hx v hv (by rw [hve, hex])

/-- The login handler keeps the stored handles pairwise distinct. -/
theorem login_preserves_unique (env : Env) (d : Draw) (store : Store) (req : LoginRequest)
    (h : (store.map (·.email)).Nodup) :
    ((login env d store req).2.map (·.email)).Nodup := by
  rcases login_cases env d store req with h1 | ⟨u, _, store1, hupd, hlog⟩ | ⟨x, hx, _, h1 | h1⟩
  · rw [h1.2.2]; exact h
  · rw [hlog]
    show (store1.map (·.email)).Nodup
    rw [updateById_map_email u._id (stampLogin d) (fun _ => rfl) store store1 hupd]
    exact h
  · rw [h1]
    exact nodup_emails_append store x h (fun v hv => (hx v hv).2)
  · rw [h1]
    exact nodup_emails_append store (stampLogin d x) h (fun v hv => (hx v hv).2)

/-- The register handler keeps the stored handles pairwise distinct. -/
theorem register_preserves_unique (env : Env) (d : Draw) (store : Store)
    (req : RegisterRequest) (h : (store.map (·.email)).Nodup) :
    ((register env d store req).2.map (·.email)).Nodup := by
  rcases register_cases env d store req with h1 |
    ⟨name, email, password, phone, doc, store1, _, _, _, _, hnone, hsave, hreg⟩
  · rw [h1.2]; exact h
  · have hfree := findOneByEmail_none hnone
    obtain ⟨u, _, hstore, _, _, _, _, hmail, _⟩ :=
      save_newUser_inv env d store name email password phone doc store1 hfree hsave
    rw [hreg, hstore]
    exact nodup_emails_append store u h (fun v hv => by rw [hmail]; exact hfree v hv)

/-- One request keeps the stored handles pairwise distinct. -/
theorem step_preserves_unique (env : Env) (w : World) (r : Request)
    (h : (w.users.map (·.email)).Nodup) : ((step env w r).users.map (·.email)).Nodup := by
  cases r with
  | login d body => exact login_preserves_unique env d w.users body h
  | register d body => exact register_preserves_unique env d w.users body h
  | logout sid => exact h

/-- C10: handle uniqueness is an invariant. From a state whose stored handles
(the trimmed, lower-cased emails) are pairwise distinct, every state reached by
any sequence of register, login (the demo login that creates the demo account
included) and logout requests has pairwise distinct stored handles. -/
theorem handle_uniqueness_invariant (env : Env) (w : World) (requests : List Request)
    (h : (w.users.map (·.email)).Nodup) :
    ((run env w requests).users.map (·.email)).Nodup := by
  induction requests generalizing w with
  | nil => exact h
  | cons r rest ih =>
    show ((run env (step env w r) rest).users.map (·.email)).Nodup
    exact ih (step env w r) (step_preserves_unique env w r h)

/-- Witness of C10: a demo login, a register that repeats a stored handle in
another case, a fresh register and a logout, from a two-account state. -/
theorem handle_uniqueness_invariant_witness :
    (({ users := [alice, bob], sessions := [] } : World).users.map (·.email)).Nodup ∧
    ((run refEnv { users := [alice, bob], sessions := [] }
      [Request.login sampleDraw ⟨some "demo@user.com", some "123456"⟩,
       Request.register sampleDraw (plainRegister "Al" "A@X.com" "another1"),
       Request.register sampleDraw (plainRegister "Carol" "c@x.com" "secret1"),
       Request.logout none]).users.map (·.email)).Nodup :=
  ⟨by decide,
   handle_uniqueness_invariant refEnv { users := [alice, bob], sessions := [] }
     [Request.login sampleDraw ⟨some "demo@user.com", some "123456"⟩,
      Request.register sampleDraw (plainRegister "Al" "A@X.com" "another1"),
      Request.register sampleDraw (plainRegister "Carol" "c@x.com" "secret1"),
      Request.logout none] (by decide)⟩

/-! ## Accounts are never deleted -/

theorem retains_refl (store : Store) : Retains store store :=
  fun u hu => ⟨u, hu, rfl, rfl⟩

theorem retains_trans {a b c : Store} (hab : Retains a b) (hbc : Retains b c) :
    Retains a c := by
  intro u hu
  obtain ⟨v, hv, hid, hmail⟩ := hab u hu
  obtain ⟨w, hw, hid2, hmail2⟩ := hbc v hv
  exact ⟨w, hw, hid2.trans hid, hmail2.trans hmail⟩

theorem retains_append (store extra : Store) : Retains store (store ++ extra) :=
  fun u hu => ⟨u, List.mem_append_left _ hu, rfl, rfl⟩

/-- Assigning modified paths never touches the identifier or the email. -/
theorem assign_fold_key (paths : List Path) (src v : User) :
    (paths.foldr (fun p acc => User.assign p src acc) v)._id = v._id ∧
    (paths.foldr (fun p acc => User.assign p src acc) v).email = v.email := by
  induction paths with
  | nil => exact ⟨rfl, rfl⟩
  | cons p t ih =>
    rw [List.foldr_cons]
    cases p <;> exact ih

theorem updateById_retains (id : Nat) (f : User → User)
    (hf : ∀ v, (f v)._id = v._id ∧ (f v).email = v.email)
    (store store1 : Store) (h : updateById id f store = some store1) :
    Retains store store1 := by
  induction store generalizing store1 with
  | nil => simp [updateById] at h
  | cons a t ih =>
    by_cases ha : a._id = id
    · simp [updateById, ha] at h
      subst h
      intro u hu
      rcases List.mem_cons.mp hu with h1 | h1
      · subst h1
        exact ⟨f u, List.mem_cons_self _ _, (hf u).1, (hf u).2⟩
      · exact ⟨u, List.mem_cons_of_mem _ h1, rfl, rfl⟩
    · cases ht : updateById id f t with
      | none => simp [updateById, ha, ht] at h
      | some t1 =>
        simp [updateById, ha, ht] at h
        subst h
        intro u hu
        rcases List.mem_cons.mp hu with h1 | h1
        · subst h1
          exact ⟨u, List.mem_cons_self _ _, rfl, rfl⟩
        · obtain ⟨v, hv, hid, hmail⟩ := ih t1 ht u h1
          exact ⟨v, List.mem_cons_of_mem _ hv, hid, hmail⟩

/-- A successful `save()` keeps every stored account, whatever the document. -/
theorem save_retains (env : Env) (d : Draw) (store store1 : Store) (doc doc1 : Document)
    (h : save env d store doc = .ok (doc1, store1)) : Retains store store1 := by
  unfold save at h
  by_cases hval : validate doc.fields = true
  · cases hnew : doc.isNew
    · simp only [hval, hnew, Bool.false_eq_true, if_false, if_true] at h
      split at h
      · rename_i store2 hupd
        injection h with h
        injection h with _ h2
        rw [← h2]
        refine updateById_retains _ _ ?_ store store2 hupd
        intro v
        exact assign_fold_key doc.modified _ v
      · cases h
    · simp only [hval, hnew, if_true] at h
      split at h
      · cases h
      · injection h with h
        injection h with _ h2
        rw [← h2]
        exact retains_append _ _
  · simp [hval] at h

theorem login_retains (env : Env) (d : Draw) (store : Store) (req : LoginRequest) :
    Retains store (login env d store req).2 := by
  rcases login_cases env d store req with h | ⟨u, _, store1, hupd, hlog⟩ | ⟨x, _, _, h | h⟩
  · rw [h.2.2]; exact retains_refl store
  · rw [hlog]
    exact updateById_retains u._id (stampLogin d) (fun _ => ⟨rfl, rfl⟩) store store1 hupd
  · rw [h]; exact retains_append store [x]
  · rw [h]; exact retains_append store [stampLogin d x]

theorem register_retains (env : Env) (d : Draw) (store : Store) (req : RegisterRequest) :
    Retains store (register env d store req).2 := by
  rcases register_cases env d store req with h |
    ⟨name, email, password, phone, doc, store1, _, _, _, _, _, hsave, hreg⟩
  · rw [h.2]; exact retains_refl store
  · rw [hreg]
    exact save_retains env d store store1 _ doc hsave

theorem reconcile_retains (env : Env) (d : Draw) (store store1 : Store)
    (identity : ProviderIdentity) (user : Document)
    (h : reconcile env d store identity = .ok (user, store1)) : Retains store store1 := by
  unfold reconcile at h
  split at h
  · injection h with h
    injection h with _ h2
    rw [← h2]
    exact retains_refl store
  · split at h
    · exact save_retains env d store store1 _ user h
    · exact save_retains env d store store1 _ user h

theorem googleCallbackHandler_retains (env : Env) (d : Draw) (store : Store)
    (user : Document) : Retains store (googleCallbackHandler env d store user).2 := by
  unfold googleCallbackHandler
  cases h : updateLastLogin env d store user with
  | error e => exact retains_refl store
  | ok r =>
    obtain ⟨doc, store1⟩ := r
    exact save_retains env d store store1 _ doc h

theorem googleCallback_retains (env : Env) (d : Draw) (w : World)
    (assertion : Option ProviderIdentity) :
    Retains w.users (googleCallback env d w assertion).2.users := by
  cases assertion with
  | none => exact retains_refl _
  | some identity =>
    cases h : reconcile env d w.users identity with
    | error e =>
      simp only [googleCallback, h]
      exact retains_refl _
    | ok r =>
      obtain ⟨user, store1⟩ := r
      simp only [googleCallback, h]
      exact retains_trans (reconcile_retains env d w.users store1 identity user h)
        (googleCallbackHandler_retains env d store1 user)

/-- C11: accounts are never physically deleted. For every request handled by
register, login, logout, the current-user route or the federated callback,
every account that is in the collection before the request is still in it
after the request, under the same identifier and the same handle. -/
theorem accounts_never_deleted (env : Env) (w : World) (req : AuthRequest)
    (u : User) (hu : u ∈ w.users) :
    ∃ v ∈ (handle env w req).users, v._id = u._id ∧ v.email = u.email := by
  cases req with
  | account r =>
    cases r with
    | login d body => exact login_retains env d w.users body u hu
    | register d body => exact register_retains env d w.users body u hu
    | logout sid => exact ⟨u, hu, rfl, rfl⟩
  | me c => exact ⟨u, hu, rfl, rfl⟩
  | googleCallback d assertion => exact googleCallback_retains env d w assertion u hu

/-- Witness of C11: a federated callback that links `a@x.com` to a provider
identity keeps the account `a@x.com`. -/
theorem accounts_never_deleted_witness :
    alice ∈ ({ users := [alice, bob], sessions := [] } : World).users ∧
    ∃ v ∈ (handle refEnv { users := [alice, bob], sessions := [] }
        (AuthRequest.googleCallback sampleDraw
          (some { providerId := "g-1", email := "A@x.com", name := "Alice G" }))).users,
      v._id = alice._id ∧ v.email = alice.email :=
  ⟨by decide,
   accounts_never_deleted refEnv { users := [alice, bob], sessions := [] }
     (AuthRequest.googleCallback sampleDraw
       (some { providerId := "g-1", email := "A@x.com", name := "Alice G" }))
     alice (by decide)⟩

/-! ## Password verification and the save hook -/

/-- C12 (counterexample): the collection holds a pure-federated account (no
password hash) with the handle `demo@user.com`. `comparePassword` is false for
it, yet the login `demo@user.com` / `123456` is answered with status 200 and a
token, not with the 401 reply. -/
theorem login_demo_federated_succeeds :
    federatedDemo.password = none ∧
    comparePassword refEnv federatedDemo "123456" = false ∧
    (login refEnv sampleDraw [federatedDemo] ⟨some "demo@user.com", some "123456"⟩).1.status
      = 200 ∧
    (login refEnv sampleDraw [federatedDemo]
      ⟨some "demo@user.com", some "123456"⟩).1.token.isSome = true ∧
    (login refEnv sampleDraw [federatedDemo] ⟨some "demo@user.com", some "123456"⟩).1 ≠
      invalidCredential := by
  refine ⟨rfl, by rfl, by rfl, by rfl, by decide⟩

/-- C12 (amended): password verification never throws on mismatch.
`comparePassword` returns a boolean for every account and candidate; when the
account has no password hash (absent or empty, as `!this.password` tests) it
returns false for every candidate, so a password login for such an account,
other than the demo pair `demo@user.com` / `123456`, is answered with the 401
reply; otherwise it returns exactly the result of the hasher's verify on the
candidate and the stored hash. -/
theorem comparePassword_total (env : Env) (u : User) (candidate : String) :
    (comparePassword env u candidate = true ∨ comparePassword env u candidate = false) ∧
    (truthy u.password = none → comparePassword env u candidate = false) ∧
    (∀ digest, truthy u.password = some digest →
      comparePassword env u candidate = env.compare candidate digest) ∧
    (∀ (d : Draw) (store : Store) (h : String), h ≠ "" → candidate ≠ "" →
      ¬ (h = "demo@user.com" ∧ candidate = "123456") →
      u ∈ store → u.email = normalizeEmail env h →
      (∀ v ∈ store, v.email = normalizeEmail env h → truthy v.password = none) →
      (login env d store ⟨some h, some candidate⟩).1 = invalidCredential) := by
  refine ⟨?_, ?_, ?_, ?_⟩
  · cases comparePassword env u candidate
    · exact Or.inr rfl
    · exact Or.inl rfl
  · intro h
    simp [comparePassword, h]
  · intro digest h
    simp [comparePassword, h]
  · intro d store h hh hc hdemo _ _ hnone
    have key := login_fails_of_no_match env d store h candidate hh hc hdemo
      (fun v hv he => Or.inr (by simp [comparePassword, hnone v hv he]))
    rw [key]

/-- Witness of C12 (amended): the pure-federated `f@x.com` and the candidate
`guess123`. -/
theorem comparePassword_total_witness :
    truthy frank.password = none ∧
    comparePassword refEnv frank "guess123" = false ∧
    (login refEnv sampleDraw [alice, frank] ⟨some "f@x.com", some "guess123"⟩).1
      = invalidCredential :=
  ⟨by decide,
   (comparePassword_total refEnv frank "guess123").2.1 (by decide),
   (comparePassword_total refEnv frank "guess123").2.2.2 sampleDraw [alice, frank] "f@x.com"
     (by decide) (by decide) (by decide) (by decide) (by decide) (by decide)⟩

/-- A successful `save()`, read backwards. -/
theorem save_inv (env : Env) (d : Draw) (store store1 : Store) (doc doc1 : Document)
    (h : save env d store doc = .ok (doc1, store1)) :
    validate doc.fields = true ∧ doc1.isNew = false ∧ doc1.modified = [] ∧
    doc1.fields._id = doc.fields._id ∧ doc1.fields.email = doc.fields.email ∧
    doc1.fields.password = (preSave env d.salt doc).fields.password ∧
    ((doc.isNew = true ∧ store1 = store ++ [doc1.fields] ∧
        ∀ v ∈ store, v._id ≠ doc1.fields._id ∧ v.email ≠ doc1.fields.email) ∨
     (doc.isNew = false ∧
        updateById doc1.fields._id
          (fun v => { doc.modified.foldr (fun p acc => User.assign p doc1.fields acc) v with
                      updatedAt := some d.now }) store = some store1)) := by
  have hpre : (preSave env d.salt doc).fields._id = doc.fields._id ∧
      (preSave env d.salt doc).fields.email = doc.fields.email := by
    unfold preSave
    split <;> exact ⟨rfl, rfl⟩
  unfold save at h
  by_cases hval : validate doc.fields = true
  · cases hnew : doc.isNew
    · simp only [hval, hnew, Bool.false_eq_true, if_false, if_true] at h
      split at h
      · rename_i store2 hupd
        injection h with h
        injection h with h1 h2
        subst h1
        subst h2
        exact ⟨hval, rfl, rfl, hpre.1, hpre.2, rfl, Or.inr ⟨rfl, hupd⟩⟩
      · cases h
    · simp only [hval, hnew, if_true] at h
      split at h
      · cases h
      · rename_i hany
        injection h with h
        injection h with h1 h2
        subst h1
        subst h2
        refine ⟨hval, rfl, rfl, hpre.1, hpre.2, rfl, Or.inl ⟨rfl, rfl, ?_⟩⟩
        intro v hv
        simp only [Bool.not_eq_true] at hany
        rw [List.any_eq_false] at hany
        have := hany v hv
        simp at this
        exact this
  · simp [hval] at h

theorem updateById_map {α : Type} (g : User → α) (id : Nat) (f : User → User)
    (hf : ∀ v, g (f v) = g v) (store store1 : Store)
    (h : updateById id f store = some store1) : store1.map g = store.map g := by
  induction store generalizing store1 with
  | nil => simp [updateById] at h
  | cons a t ih =>
    by_cases ha : a._id = id
    · simp [updateById, ha] at h
      subst h
      simp [hf]
    · cases ht : updateById id f t with
      | none => simp [updateById, ha, ht] at h
      | some t1 =>
        simp [updateById, ha, ht] at h
        subst h
        simp [ih t1 ht]

/-- Assigning modified paths leaves the password alone when `password` is not
one of them. -/
theorem assign_fold_password (paths : List Path) (src v : User)
    (h : paths.contains Path.password = false) :
    (paths.foldr (fun p acc => User.assign p src acc) v).password = v.password := by
  induction paths with
  | nil => rfl
  | cons p t ih =>
    rw [List.foldr_cons]
    have hp : p ≠ Path.password := by
      intro hp
      subst hp
      simp at h
    have ht : t.contains Path.password = false := by
      cases hc : t.contains Path.password
      · rfl
      · simp at h hc
        exact absurd hc h.2
    cases p
    case password => exact absurd rfl hp
    all_goals exact ih ht

/-- A successful `save()` of a stored document whose password is not modified
leaves every stored password as it was. -/
theorem save_keeps_passwords (env : Env) (d : Draw) (store store1 : Store)
    (doc doc1 : Document) (hnew : doc.isNew = false)
    (hmod : doc.isModified Path.password = false)
    (h : save env d store doc = .ok (doc1, store1)) :
    store1.map (·.password) = store.map (·.password) ∧
    store1.map (·._id) = store.map (·._id) := by
  obtain ⟨_, _, _, _, _, _, hcase⟩ := save_inv env d store store1 doc doc1 h
  rcases hcase with ⟨h1, _⟩ | ⟨_, hupd⟩
  · rw [hnew] at h1; cases h1
  · constructor
    · refine updateById_map (·.password) _ _ ?_ store store1 hupd
      intro v
      exact assign_fold_password doc.modified _ v hmod
    · refine updateById_map (·._id) _ _ ?_ store store1 hupd
      intro v
      exact (assign_fold_key doc.modified _ v).1

/-- C13: the save hook hashes the password, with a salt freshly made by
`genSalt(12)`, exactly when the password is modified and present; when it is
unmodified or absent the hook leaves the document as it is. Hence the document
that `save()` returns carries the hook's password and is no longer modified, a
save of a stored document with unmodified password leaves the stored passwords
unchanged, and a save repeated on the returned document never hashes again. -/
theorem preSave_hashes_iff_modified_present (env : Env) (random : String) (doc : Document) :
    (∀ p, doc.isModified Path.password = true → truthy doc.fields.password = some p →
      preSave env random doc =
        { doc with
          fields :=
            { doc.fields with password := some (env.hash p (env.genSalt 12 random)) } }) ∧
    (doc.isModified Path.password = false ∨ truthy doc.fields.password = none →
      preSave env random doc = doc) ∧
    (∀ (d : Draw) (store store1 : Store) (doc1 : Document),
      save env d store doc = .ok (doc1, store1) →
      doc1.fields.password = (preSave env d.salt doc).fields.password ∧
      doc1.isModified Path.password = false ∧
      (doc.isNew = false → doc.isModified Path.password = false →
        store1.map (·.password) = store.map (·.password)) ∧
      ∀ (d2 : Draw) (store2 : Store) (doc2 : Document),
        save env d2 store1 doc1 = .ok (doc2, store2) →
        doc2.fields.password = doc1.fields.password ∧
        store2.map (·.password) = store1.map (·.password)) := by
  refine ⟨?_, ?_, ?_⟩
  · intro p hm hp
    simp [preSave, hm, hp]
  · intro h
    rcases h with h | h
    · simp [preSave, h]
    · unfold preSave
      rw [h]
      cases doc.isModified Path.password <;> rfl
  · intro d store store1 doc1 hsave
    obtain ⟨_, hnew1, hmod1, _, _, hpw, _⟩ := save_inv env d store store1 doc doc1 hsave
    have hclean : doc1.isModified Path.password = false := by
      simp [Document.isModified, hmod1]
    refine ⟨hpw, hclean, ?_, ?_⟩
    · intro hnew hmod
      exact (save_keeps_passwords env d store store1 doc doc1 hnew hmod hsave).1
    · intro d2 store2 doc2 hsave2
      obtain ⟨_, _, _, _, _, hpw2, _⟩ := save_inv env d2 store1 store2 doc1 doc2 hsave2
      refine ⟨?_, (save_keeps_passwords env d2 store1 store2 doc1 doc2 hnew1 hclean hsave2).1⟩
      rw [hpw2]
      simp [preSave, hclean]

/-- Witness of C13: the hook on a new document with the password `secret1`. -/
theorem preSave_hashes_iff_modified_present_witness :
    (newUser refEnv [] "Al" "a@x.com" "secret1" none).isModified Path.password = true ∧
    preSave refEnv "salt" (newUser refEnv [] "Al" "a@x.com" "secret1" none) =
      { newUser refEnv [] "Al" "a@x.com" "secret1" none with
        fields :=
          { (newUser refEnv [] "Al" "a@x.com" "secret1" none).fields with
            password := some (refEnv.hash "secret1" (refEnv.genSalt 12 "salt")) } } :=
  ⟨by decide,
   (preSave_hashes_iff_modified_present refEnv "salt"
      (newUser refEnv [] "Al" "a@x.com" "secret1" none)).1 "secret1" (by decide) (by decide)⟩

/-! ## Hash and verify through the account model -/

/-- A successful `save()` that is an insert, or an update with the password
unmodified, keeps the account `id` and its stored password. -/
theorem save_keeps_account_password (env : Env) (d : Draw) (store store1 : Store)
    (doc doc1 : Document) (id : Nat) (pw : Option String)
    (hdoc : doc.isNew = false → doc.isModified Path.password = false)
    (h : save env d store doc = .ok (doc1, store1))
    (hex : ∃ v ∈ store, v._id = id)
    (hall : ∀ v ∈ store, v._id = id → v.password = pw) :
    (∃ v ∈ store1, v._id = id) ∧ ∀ v ∈ store1, v._id = id → v.password = pw := by
  obtain ⟨v0, hv0, hv0id⟩ := hex
  obtain ⟨w0, hw0, hw0id, _⟩ := save_retains env d store store1 doc doc1 h v0 hv0
  refine ⟨⟨w0, hw0, hw0id.trans hv0id⟩, ?_⟩
  obtain ⟨_, _, _, _, _, _, hcase⟩ := save_inv env d store store1 doc doc1 h
  rcases hcase with ⟨_, hst, hfresh⟩ | ⟨hnew, hupd⟩
  · intro v hv hvid
    rw [hst] at hv
    rcases List.mem_append.mp hv with h1 | h1
    · exact hall v h1 hvid
    · simp at h1
      subst h1
      exact absurd (hv0id.trans hvid.symm) (hfresh v0 hv0).1
  · obtain ⟨u, hu, _, _, _, hnewmem⟩ := updateById_spec _ _ _ _ hupd
    intro v hv hvid
    rcases hnewmem v hv with h1 | h1
    · subst h1
      have hkey := assign_fold_key doc.modified doc1.fields u
      have hpwd := assign_fold_password doc.modified doc1.fields u (hdoc hnew)
      have huid : u._id = id := by
        rw [← hvid]; exact hkey.1.symm
      have := hall u hu huid
      rw [← this]
      exact hpwd
    · exact hall v h1 hvid

/-- Any number of later saves that do not modify a password keep the account
`id` and its stored password. -/
theorem saveAll_keeps_account_password (env : Env) (later : List (Draw × Document))
    (store : Store) (id : Nat) (pw : Option String)
    (hlater : ∀ x ∈ later, x.2.isNew = false → x.2.isModified Path.password = false)
    (hex : ∃ v ∈ store, v._id = id)
    (hall : ∀ v ∈ store, v._id = id → v.password = pw) :
    (∃ v ∈ saveAll env store later, v._id = id) ∧
    ∀ v ∈ saveAll env store later, v._id = id → v.password = pw := by
  induction later generalizing store with
  | nil => exact ⟨hex, hall⟩
  | cons x rest ih =>
    obtain ⟨d, doc⟩ := x
    have hrest : ∀ y ∈ rest, y.2.isNew = false → y.2.isModified Path.password = false :=
      fun y hy => hlater y (List.mem_cons_of_mem _ hy)
    have hdoc := hlater (d, doc) (List.mem_cons_self _ _)
    unfold saveAll
    cases hs : save env d store doc with
    | error e => exact ih store hrest hex hall
    | ok r =>
      obtain ⟨doc1, store1⟩ := r
      obtain ⟨hex1, hall1⟩ :=
        save_keeps_account_password env d store store1 doc doc1 id pw hdoc hs hex hall
      exact ih store1 hrest hex1 hall1

/-- C14: hash/verify round trip through the account model. When a new account
is saved with password `P` (the save succeeds, so `P` passes the policy), the
stored document carries the digest `hash(P, genSalt(12))`, the digest is not
`P`, and `comparePassword(P)` is true on the account; after any number of
later saves that do not modify a password the account still carries that
digest and `comparePassword(P)` is still true. The hasher is assumed to meet
its contract and to give digests that differ from their plaintext. -/
theorem hash_verify_round_trip (env : Env) (hc : HasherContract env)
    (hd : DigestDiffers env) (d : Draw) (store store1 : Store) (doc doc1 : Document)
    (P : String) (hnew : doc.isNew = true) (hmod : doc.isModified Path.password = true)
    (hpw : doc.fields.password = some P)
    (hsave : save env d store doc = .ok (doc1, store1)) :
    6 ≤ jsLength P ∧
    doc1.fields ∈ store1 ∧
    doc1.fields.password = some (env.hash P (env.genSalt 12 d.salt)) ∧
    env.hash P (env.genSalt 12 d.salt) ≠ P ∧
    comparePassword env doc1.fields P = true ∧
    ∀ later : List (Draw × Document),
      (∀ x ∈ later, x.2.isNew = false → x.2.isModified Path.password = false) →
      (∃ v ∈ saveAll env store1 later, v._id = doc1.fields._id) ∧
      ∀ v ∈ saveAll env store1 later, v._id = doc1.fields._id →
        v.password = some (env.hash P (env.genSalt 12 d.salt)) ∧
        comparePassword env v P = true := by
  obtain ⟨hval, _, _, _, _, hpw1, hcase⟩ := save_inv env d store store1 doc doc1 hsave
  have hlen : 6 ≤ jsLength P := by
    simp [validate, hpw] at hval
    exact hval.1.2
  have hPne : P ≠ "" := ne_empty_of_jsLength hlen
  have hdig : doc1.fields.password = some (env.hash P (env.genSalt 12 d.salt)) := by
    rw [hpw1]
    simp [preSave, hmod, hpw, truthy, hPne]
  have hdne : env.hash P (env.genSalt 12 d.salt) ≠ "" :=
    ne_empty_of_jsLength (hc.digest_length _ _)
  have hcmp : ∀ v : User, v.password = some (env.hash P (env.genSalt 12 d.salt)) →
      comparePassword env v P = true := by
    intro v hv
    simp [comparePassword, hv, truthy, hdne, hc.compare_hash]
  have hmem : doc1.fields ∈ store1 := by
    rcases hcase with ⟨_, hst, _⟩ | ⟨h1, _⟩
    · rw [hst]; simp
    · rw [hnew] at h1; cases h1
  have hall : ∀ v ∈ store1, v._id = doc1.fields._id →
      v.password = some (env.hash P (env.genSalt 12 d.salt)) := by
    rcases hcase with ⟨_, hst, hfresh⟩ | ⟨h1, _⟩
    · intro v hv hvid
      rw [hst] at hv
      rcases List.mem_append.mp hv with h1 | h1
      · exact absurd hvid (hfresh v h1).1
      · simp at h1
        subst h1
        exact hdig
    · rw [hnew] at h1; cases h1
  refine ⟨hlen, hmem, hdig, hd.digest_ne _ _, hcmp _ hdig, ?_⟩
  intro later hlater
  obtain ⟨hex2, hall2⟩ := saveAll_keeps_account_password env later store1 doc1.fields._id
    (some (env.hash P (env.genSalt 12 d.salt))) hlater ⟨doc1.fields, hmem, rfl⟩ hall
  exact ⟨hex2, fun v hv hvid => ⟨hall2 v hv hvid, hcmp v (hall2 v hv hvid)⟩⟩

/-- The reference hasher gives digests that differ from their plaintext. -/
theorem refEnv_digestDiffers : DigestDiffers refEnv := by
  constructor
  intro plaintext salt h
  have hlen := congrArg String.length h
  change (toyHash plaintext salt).length = plaintext.length at hlen
  simp [toyHash] at hlen
  have h6 : ("bcrypt" : String).length = 6 := by decide
  have h1 : ("$" : String).length = 1 := by decide
  omega

/-- Witness of C14: `c@x.com` saved with `secret1`, then two later saves that
set `lastLogin`. -/
theorem hash_verify_round_trip_witness :
    save refEnv sampleDraw [alice] (newUser refEnv [alice] "Carol" "c@x.com" "secret1" none)
      = .ok (loaded carol, [alice, carol]) ∧
    comparePassword refEnv carol "secret1" = true ∧
    ∃ v ∈ saveAll refEnv [alice, carol]
        [(sampleDraw, { fields := { alice with lastLogin := some 5 }, isNew := false,
                        modified := [Path.lastLogin] }),
         (sampleDraw, { fields := { carol with lastLogin := some 6 }, isNew := false,
                        modified := [Path.lastLogin] })],
      v._id = carol._id :=
  ⟨by rfl,
   (hash_verify_round_trip refEnv refEnv_contract refEnv_digestDiffers sampleDraw
      [alice] [alice, carol] (newUser refEnv [alice] "Carol" "c@x.com" "secret1" none)
      (loaded carol) "secret1" rfl (by decide) rfl (by rfl)).2.2.2.2.1,
   ((hash_verify_round_trip refEnv refEnv_contract refEnv_digestDiffers sampleDraw
      [alice] [alice, carol] (newUser refEnv [alice] "Carol" "c@x.com" "secret1" none)
      (loaded carol) "secret1" rfl (by decide) rfl (by rfl)).2.2.2.2.2
      [(sampleDraw, { fields := { alice with lastLogin := some 5 }, isNew := false,
                      modified := [Path.lastLogin] }),
       (sampleDraw, { fields := { carol with lastLogin := some 6 }, isNew := false,
                      modified := [Path.lastLogin] })]
      (by decide)).1⟩

/-! ## The demo login -/

theorem jsTrim_demo_email : jsTrim "demo@user.com" = "demo@user.com" := by decide

theorem jsTrim_demo_name : jsTrim "Demo User" = "Demo User" := by decide

/-- C15 (counterexample): the demo login does not succeed on every
collection. On a collection whose demo account is stored with the password
`abc`, and on one that holds the demo document of `mongo-init.js` (travel
style `comfort`), the `save()` of `updateLastLogin` rejects the loaded
document: the login `demo@user.com` / `123456` is answered with status 500 and
the collection stays as it was. -/
theorem demo_login_rejected_document :
    login refEnv sampleDraw [alice, staleDemo] ⟨some "demo@user.com", some "123456"⟩ =
      (loginError, [alice, staleDemo]) ∧
    login refEnv sampleDraw [seededDemo] ⟨some "demo@user.com", some "123456"⟩ =
      (loginError, [seededDemo]) ∧
    loginError.status = 500 ∧ loginError.success = false ∧ loginError.token = none := by
  decide

/-- C15 (amended): the demo login succeeds exactly when the stored demo
account, if there is one, passes the validators of the schema. On a collection
in which every account with the handle `demo@user.com` passes them, the login
`demo@user.com` / `123456` is answered with status 200, success, a token and a
user whose email is `demo@user.com`, and if no account had that handle exactly
one is created, with name `Demo User`, role `user` and active. When the
account that the lookup finds fails the validators, the answer is the 500 of
the `catch` block and the collection is unchanged. The primitives are assumed
to behave as documented: `toLowerCase` leaves `demo@user.com` as it is and the
hasher meets its contract. -/
theorem demo_login_succeeds (env : Env) (hc : HasherContract env)
    (hlow : env.toLowerCase "demo@user.com" = "demo@user.com")
    (d : Draw) (store : Store) :
    ((∀ u ∈ store, u.email = "demo@user.com" → validate u = true) →
      (login env d store ⟨some "demo@user.com", some "123456"⟩).1.status = 200 ∧
      (login env d store ⟨some "demo@user.com", some "123456"⟩).1.success = true ∧
      (login env d store ⟨some "demo@user.com", some "123456"⟩).1.token.isSome = true ∧
      (login env d store ⟨some "demo@user.com", some "123456"⟩).1.user.map (·.email)
        = some "demo@user.com" ∧
      ((∀ u ∈ store, u.email ≠ "demo@user.com") →
        ∃ x : User,
          (login env d store ⟨some "demo@user.com", some "123456"⟩).2 = store ++ [x] ∧
          x.email = "demo@user.com" ∧ x.name = "Demo User" ∧ x.role = Role.user ∧
          x.isActive = true)) ∧
    (∀ u, findOneByEmail env store "demo@user.com" = some u → validate u = false →
      login env d store ⟨some "demo@user.com", some "123456"⟩ = (loginError, store)) := by
  have hnorm : normalizeEmail env "demo@user.com" = "demo@user.com" := by
    unfold normalizeEmail
    rw [jsTrim_demo_email, hlow]
  have he : truthy (some "demo@user.com") = some "demo@user.com" :=
    truthy_eq_some (by decide)
  have hp : truthy (some "123456") = some "123456" := truthy_eq_some (by decide)
  refine ⟨fun hvalid => ?_, ?_⟩
  swap
  · intro u hf hbad
    have hlog : login env d store ⟨some "demo@user.com", some "123456"⟩ =
        finishLogin env d store (loaded u) := by
      simp only [login, he, hp, hf, and_self, if_true]
    rw [hlog, finishLogin_invalid env d store u hbad]
  cases hf : findOneByEmail env store "demo@user.com" with
  | some u =>
    have hu : u ∈ store := List.mem_of_find?_eq_some hf
    have hmail : u.email = "demo@user.com" := by
      have := List.find?_some hf
      simp at this
      rw [this, hnorm]
    have hlog : login env d store ⟨some "demo@user.com", some "123456"⟩ =
        finishLogin env d store (loaded u) := by
      simp only [login, he, hp, hf, and_self, if_true]
    obtain ⟨store1, _, hfin⟩ :=
      finishLogin_ok env d store u (hvalid u hu hmail) ⟨u, hu, rfl⟩
    rw [hlog, hfin]
    refine ⟨rfl, rfl, rfl, ?_, ?_⟩
    · simp [loginSuccess, stampLogin, hmail]
    · intro hnone
      exact absurd hmail (hnone u hu)
  | none =>
    have hfree := findOneByEmail_none hf
    have hs := save_newUser env d store "Demo User" "demo@user.com" "123456" none
      (by rw [jsTrim_demo_name]; decide) (by rw [jsTrim_demo_name]; decide)
      (by rw [hnorm]; decide) (by decide) hfree
    obtain ⟨x, hdoc, hstore, hid, hname, hname0, hname100, hmail, hmail0, hpw, _,
      hact, hrole, _, _, _, htravel⟩ := save_newUser_inv env d store _ _ _ _ _ _ hfree hs
    rw [hdoc, hstore] at hs
    have hlog : login env d store ⟨some "demo@user.com", some "123456"⟩ =
        finishLogin env d (store ++ [x]) (loaded x) := by
      simp only [login, he, hp, hf, hs, and_self, if_true]
    have hval : validate x = true := by
      simp [validate, hname, hname0, hname100, hmail, hmail0, hpw, htravel,
        hc.digest_length]
    have hfresh : ∀ v ∈ store, v._id ≠ x._id := by
      intro v hv; rw [hid]; exact freshId_not_mem store v hv
    obtain ⟨store1, hupd, hfin⟩ :=
      finishLogin_ok env d (store ++ [x]) x hval ⟨x, by simp, rfl⟩
    rw [updateById_append_fresh (stampLogin d) store x hfresh] at hupd
    injection hupd with hupd
    rw [hlog, hfin, ← hupd]
    refine ⟨rfl, rfl, rfl, ?_, ?_⟩
    · simp [loginSuccess, stampLogin, hmail, hnorm]
    · intro _
      refine ⟨stampLogin d x, rfl, ?_, ?_, hrole, hact⟩
      · show x.email = "demo@user.com"
        rw [hmail, hnorm]
      · show x.name = "Demo User"
        rw [hname, jsTrim_demo_name]

/-- The reference `toLowerCase` leaves `demo@user.com` as it is. -/
theorem refEnv_lower_demo : refEnv.toLowerCase "demo@user.com" = "demo@user.com" := by
  decide

/-- Witness of C15: the demo login on a collection that holds a demo account
which passes the validators, and on one whose demo account does not. -/
theorem demo_login_succeeds_witness :
    ((∀ u ∈ [alice, retiredDemo], u.email = "demo@user.com" → validate u = true) ∧
      (login refEnv sampleDraw [alice, retiredDemo]
        ⟨some "demo@user.com", some "123456"⟩).1.status = 200) ∧
    (findOneByEmail refEnv [alice, staleDemo] "demo@user.com" = some staleDemo ∧
      validate staleDemo = false ∧
      login refEnv sampleDraw [alice, staleDemo] ⟨some "demo@user.com", some "123456"⟩ =
        (loginError, [alice, staleDemo])) :=
  ⟨⟨by decide,
    ((demo_login_succeeds refEnv refEnv_contract refEnv_lower_demo sampleDraw
      [alice, retiredDemo]).1 (by decide)).1⟩,
   ⟨by decide, by decide,
    (demo_login_succeeds refEnv refEnv_contract refEnv_lower_demo sampleDraw
      [alice, staleDemo]).2 staleDemo (by decide) (by decide)⟩⟩

/-! ## The token of a login, presented to the current-user route -/

theorem findById_of_nodup (store : Store) (u : User) (hid : (store.map (·._id)).Nodup)
    (hu : u ∈ store) : findById store u._id = some u := by
  induction store with
  | nil => cases hu
  | cons a t ih =>
    unfold findById
    by_cases ha : a._id = u._id
    · have hau : a = u :=
        List.inj_on_of_nodup_map hid (List.mem_cons_self a t) hu ha
      subst hau
      simp [List.find?]
    · have hut : u ∈ t := by
        rcases List.mem_cons.mp hu with h1 | h1
        · subst h1; exact absurd rfl ha
        · exact h1
      have hidt : (t.map (·._id)).Nodup := by
        rw [List.map_cons] at hid
        exact (List.nodup_cons.mp hid).2
      have := ih hidt hut
      unfold findById at this
      have hb : (a._id == u._id) = false := by simp [ha]
      simp only [List.find?, hb, this]

theorem findById_updateById (id : Nat) (f : User → User) (hf : ∀ v, (f v)._id = v._id)
    (store store1 : Store) (h : updateById id f store = some store1) :
    findById store1 id = (findById store id).map f := by
  induction store generalizing store1 with
  | nil => simp [updateById] at h
  | cons a t ih =>
    by_cases ha : a._id = id
    · simp [updateById, ha] at h
      subst h
      simp [findById, List.find?, hf, ha]
    · cases ht : updateById id f t with
      | none => simp [updateById, ha, ht] at h
      | some t1 =>
        simp [updateById, ha, ht] at h
        subst h
        have := ih t1 ht
        unfold findById at this ⊢
        have hb : (a._id == id) = false := by simp [ha]
        simp only [List.find?, hb, this]

/-- C16: a token issued at login verifies to the same account. For every
successful login on a collection with unique ids, the token of the response,
presented right away as bearer token to `GET /api/auth/me`, is answered with
status 200, success, and a user object whose id, name, email and role (indeed
the whole object) are those of the account that logged in. The verifier is
assumed to return the identifier that the issuer signed. -/
theorem login_token_resolves (env : Env) (verify : String → Option Nat)
    (hverify : ∀ id, verify (env.generateToken id) = some id)
    (d : Draw) (store : Store) (sessions : SessionTable) (req : LoginRequest)
    (sid : Option Nat) (hid : (store.map (·._id)).Nodup)
    (hok : (login env d store req).1.status = 200) :
    ∃ (token : String) (a : UserResponse) (r : Response),
      (login env d store req).1.token = some token ∧
      (login env d store req).1.user = some a ∧
      me verify (login env d store req).2 sessions ⟨some token, sid⟩ = some r ∧
      r.status = 200 ∧ r.success = true ∧
      r.user.map (·.id) = some a.id ∧ r.user.map (·.name) = some a.name ∧
      r.user.map (·.email) = some a.email ∧ r.user.map (·.role) = some a.role ∧
      r.user = some a := by
  rcases login_cases env d store req with h | ⟨u, hu, store1, hupd, hlog⟩ | ⟨x, hx, _, h | h⟩
  · exact absurd hok h.2.1
  · have hfind : findById store1 u._id = some (stampLogin d u) := by
      rw [findById_updateById u._id (stampLogin d) (fun _ => rfl) store store1 hupd,
        findById_of_nodup store u hid hu]
      rfl
    rw [hlog]
    refine ⟨env.generateToken u._id, _, meHandler (stampLogin d u), rfl, rfl, ?_,
      rfl, rfl, rfl, rfl, rfl, rfl, rfl⟩
    show (verifyToken verify store1 sessions ⟨some (env.generateToken u._id), sid⟩).map
      meHandler = _
    simp only [verifyToken, hverify, Option.bind]
    show (findById store1 u._id).map meHandler = _
    rw [hfind]
    rfl
  · rw [h] at hok
    simp [loginError, failure] at hok
  · have hfind : findById (store ++ [stampLogin d x]) x._id = some (stampLogin d x) := by
      unfold findById
      apply find?_append_singleton
      · intro v hv
        simp [(hx v hv).1]
      · simp [stampLogin]
    rw [h]
    refine ⟨env.generateToken x._id, _, meHandler (stampLogin d x), rfl, rfl, ?_,
      rfl, rfl, rfl, rfl, rfl, rfl, rfl⟩
    show (verifyToken verify (store ++ [stampLogin d x]) sessions
      ⟨some (env.generateToken x._id), sid⟩).map meHandler = _
    simp only [verifyToken, hverify, Option.bind]
    show (findById (store ++ [stampLogin d x]) x._id).map meHandler = _
    rw [hfind]
    rfl

/-- The reference verifier returns the identifier that the reference issuer
signed. -/
theorem toyVerify_toyToken (id : Nat) : toyVerify (refEnv.generateToken id) = some id := by
  show toyVerify (toyToken id) = some id
  have hdata : (toyToken id).data = 'j' :: 'w' :: 't' :: '-' :: List.replicate id '1' := by
    simp [toyToken]
  simp [toyVerify, hdata]

/-- Witness of C16: `a@x.com` logs in and presents the token. -/
theorem login_token_resolves_witness :
    ([alice, bob].map (·._id)).Nodup ∧
    (login refEnv sampleDraw [alice, bob] ⟨some "a@x.com", some "secret1"⟩).1.status = 200 ∧
    ∃ (token : String) (a : UserResponse) (r : Response),
      (login refEnv sampleDraw [alice, bob] ⟨some "a@x.com", some "secret1"⟩).1.token
        = some token ∧
      (login refEnv sampleDraw [alice, bob] ⟨some "a@x.com", some "secret1"⟩).1.user
        = some a ∧
      me toyVerify (login refEnv sampleDraw [alice, bob] ⟨some "a@x.com", some "secret1"⟩).2
        [] ⟨some token, none⟩ = some r ∧
      r.status = 200 :=
  ⟨by decide, by decide,
   (login_token_resolves refEnv toyVerify toyVerify_toyToken sampleDraw [alice, bob] []
      ⟨some "a@x.com", some "secret1"⟩ none (by decide) (by decide)).elim
     fun token h1 => h1.elim fun a h2 => h2.elim fun r h =>
       ⟨token, a, r, h.1, h.2.1, h.2.2.1, h.2.2.2.1⟩⟩

/-! ## Tokens and sessions at login -/

/-- A successful login answers with `loginSuccess` for a document whose
identifier is stored after the request. -/
theorem login_success_shape (env : Env) (d : Draw) (store : Store) (req : LoginRequest)
    (hok : (login env d store req).1.success = true) :
    ∃ u : User, (login env d store req).1 = loginSuccess env u ∧
      ∃ v ∈ (login env d store req).2, v._id = u._id := by
  rcases login_cases env d store req with h | ⟨u, _, store1, hupd, hlog⟩ | ⟨x, _, _, h | h⟩
  · rw [h.1] at hok; cases hok
  · obtain ⟨v, _, hvid, hfv, _, _⟩ := updateById_spec _ _ _ _ hupd
    rw [hlog]
    exact ⟨stampLogin d u, rfl, stampLogin d v, hfv, hvid⟩
  · rw [h] at hok
    simp [loginError, failure] at hok
  · rw [h]
    exact ⟨stampLogin d x, rfl, stampLogin d x, by simp, rfl⟩

/-- A successful register answers with `registerSuccess` for the document it
stored. -/
theorem register_success_shape (env : Env) (d : Draw) (store : Store)
    (req : RegisterRequest) (hok : (register env d store req).1.success = true) :
    ∃ u : User, (register env d store req).1 = registerSuccess env u ∧
      u ∈ (register env d store req).2 := by
  rcases register_cases env d store req with h |
    ⟨name, email, password, phone, doc, store1, _, _, _, _, _, hsave, hreg⟩
  · rw [h.1] at hok; cases hok
  · obtain ⟨_, _, _, _, _, _, hcase⟩ := save_inv env d store store1 _ doc hsave
    rw [hreg]
    refine ⟨doc.fields, rfl, ?_⟩
    rcases hcase with ⟨_, hst, _⟩ | ⟨hnew, _⟩
    · show doc.fields ∈ store1
      rw [hst]; simp
    · simp [newUser] at hnew

/-- C17 (counterexample): `a@x.com` logs in with its password on a state with
an empty session table. The reply is status 200 with a token, and the session
table is still empty: no session is bound to the account. -/
theorem login_creates_no_session :
    (login refEnv sampleDraw [alice, bob] ⟨some "a@x.com", some "secret1"⟩).1.status = 200 ∧
    (login refEnv sampleDraw [alice, bob] ⟨some "a@x.com", some "secret1"⟩).1.token.isSome
      = true ∧
    (step refEnv { users := [alice, bob], sessions := [] }
      (Request.login sampleDraw ⟨some "a@x.com", some "secret1"⟩)).sessions = [] ∧
    ¬ ∃ s ∈ (step refEnv { users := [alice, bob], sessions := [] }
      (Request.login sampleDraw ⟨some "a@x.com", some "secret1"⟩)).sessions,
        s.user = some alice._id := by
  refine ⟨by rfl, by rfl, by rfl, ?_⟩
  rintro ⟨s, hs, _⟩
  have : (step refEnv { users := [alice, bob], sessions := [] }
      (Request.login sampleDraw ⟨some "a@x.com", some "secret1"⟩)).sessions = [] := by rfl
  rw [this] at hs
  cases hs

/-- C17 (amended): every successful local login (email and password) mints a
bearer token, the issuer applied to the identifier of the account named in the
response, and creates no session: the session table after the request is the
table before it. -/
theorem login_mints_token_only (env : Env) (d : Draw) (w : World) (body : LoginRequest)
    (hok : (login env d w.users body).1.status = 200) :
    (∃ a : UserResponse, (login env d w.users body).1.user = some a ∧
      (login env d w.users body).1.token = some (env.generateToken a.id)) ∧
    (step env w (Request.login d body)).sessions = w.sessions := by
  have hsucc : (login env d w.users body).1.success = true := by
    rcases login_cases env d w.users body with h | ⟨u, _, store1, _, hlog⟩ | ⟨x, _, _, h | h⟩
    · exact absurd hok h.2.1
    · rw [hlog]; rfl
    · rw [h] at hok; simp [loginError, failure] at hok
    · rw [h]; rfl
  obtain ⟨u, hu, _⟩ := login_success_shape env d w.users body hsucc
  rw [hu]
  exact ⟨⟨_, rfl, rfl⟩, rfl⟩

/-- Witness of C17 (amended): `a@x.com` logs in while one session is stored. -/
theorem login_mints_token_only_witness :
    (login refEnv sampleDraw [alice, bob] ⟨some "a@x.com", some "secret1"⟩).1.status = 200 ∧
    (step refEnv { users := [alice, bob], sessions := [{ sid := 7, user := some 2 }] }
      (Request.login sampleDraw ⟨some "a@x.com", some "secret1"⟩)).sessions
      = [{ sid := 7, user := some 2 }] :=
  ⟨by decide,
   (login_mints_token_only refEnv sampleDraw
      { users := [alice, bob], sessions := [{ sid := 7, user := some 2 }] }
      ⟨some "a@x.com", some "secret1"⟩ (by decide)).2⟩

/-- C18: session destruction is idempotent. A logout for a caller whose session
is absent from the table (no cookie, or a cookie that names no stored session)
is answered with success, 'Logged out successfully', and leaves the table
unchanged; a second logout is answered the same way and leaves the table as
the first logout left it. -/
theorem logout_idempotent (sessions : SessionTable) (sid : Option Nat) :
    ((∀ s ∈ sessions, some s.sid ≠ sid) →
      logout sessions sid =
        ({ status := 200, success := true, message := "Logged out successfully",
           user := none, token := none }, sessions)) ∧
    (logout (logout sessions sid).2 sid).2 = (logout sessions sid).2 ∧
    (logout (logout sessions sid).2 sid).1 = (logout sessions sid).1 ∧
    (logout sessions sid).1.success = true ∧
    (logout sessions sid).1.message = "Logged out successfully" := by
  refine ⟨?_, ?_, rfl, rfl, rfl⟩
  · intro habsent
    unfold logout
    congr 1
    rw [List.filter_eq_self]
    intro s hs
    simp [habsent s hs]
  · simp [logout, List.filter_filter]

/-- Witness of C18: a logout with a cookie that names no stored session. -/
theorem logout_idempotent_witness :
    (∀ s ∈ [({ sid := 7, user := some 2 } : Session)], some s.sid ≠ some 9) ∧
    logout [{ sid := 7, user := some 2 }] (some 9) =
      ({ status := 200, success := true, message := "Logged out successfully",
         user := none, token := none }, [{ sid := 7, user := some 2 }]) :=
  ⟨by decide,
   (logout_idempotent [{ sid := 7, user := some 2 }] (some 9)).1 (by decide)⟩

/-! ## The administrative statistics route, evaluated -/

/-- C19 (the code at the failing input): whatever the caller presents, also
nothing at all, `GET /api/admin/stats` is answered with status 500 and
'Error retrieving statistics', the reply of its `catch` block: no guard runs
and `bookings` is not bound in `server.js`. No statistics are sent. -/
theorem adminStats_internal_error (arrays : String → Nat) (c : Credentials) :
    adminStats serverBindings arrays c =
      { status := 500, success := false, message := some "Error retrieving statistics",
        stats := none } ∧
    adminStats serverBindings arrays { bearer := none, sessionId := none } =
      adminStats serverBindings arrays c := by
  have hall : (["bookings", "contacts", "newsletters", "users", "reviews"].all
      serverBindings.contains) = false := by decide
  simp only [adminStats, hall, Bool.false_eq_true, if_false, and_self]

/-! ## One issuer for every way in -/

/-- The callback handler, read backwards: a redirect to the dashboard carries
the token of `req.user` and the user object of `req.user`. -/
theorem googleCallbackHandler_dashboard (env : Env) (d : Draw) (store store1 : Store)
    (user : Document) (token : String) (a : UserResponse)
    (h : googleCallbackHandler env d store user = (CallbackReply.dashboard token a, store1)) :
    token = env.generateToken user.fields._id ∧ a.id = user.fields._id := by
  unfold googleCallbackHandler at h
  cases hs : updateLastLogin env d store user with
  | error e => rw [hs] at h; simp at h
  | ok r =>
    obtain ⟨doc, store2⟩ := r
    rw [hs] at h
    simp only [Prod.mk.injEq, CallbackReply.dashboard.injEq] at h
    obtain ⟨⟨htok, ha⟩, _⟩ := h
    unfold updateLastLogin at hs
    obtain ⟨_, _, _, hid, _⟩ := save_inv env d store store2 _ doc hs
    simp only at hid
    rw [← htok, ← ha, hid]
    exact ⟨rfl, rfl⟩

/-- C20: token issuance is uniform across authentication methods. In every
success path, register, password login and demo login (both are `login`), and
the federated callback, the token handed to the caller is the token issuer
applied to the identifier of the account that was authenticated (the account
named in the reply, stored under that identifier), and to nothing else. -/
theorem token_issuance_uniform (env : Env) (d : Draw) (store : Store) :
    (∀ req : RegisterRequest, (register env d store req).1.success = true →
      ∃ a : UserResponse, (register env d store req).1.user = some a ∧
        (register env d store req).1.token = some (env.generateToken a.id) ∧
        ∃ v ∈ (register env d store req).2, v._id = a.id) ∧
    (∀ req : LoginRequest, (login env d store req).1.success = true →
      ∃ a : UserResponse, (login env d store req).1.user = some a ∧
        (login env d store req).1.token = some (env.generateToken a.id) ∧
        ∃ v ∈ (login env d store req).2, v._id = a.id) ∧
    (∀ (user : Document) (token : String) (a : UserResponse) (store1 : Store),
      googleCallbackHandler env d store user = (CallbackReply.dashboard token a, store1) →
      token = env.generateToken user.fields._id ∧ a.id = user.fields._id) := by
  refine ⟨?_, ?_, ?_⟩
  · intro req hok
    obtain ⟨u, hu, hmem⟩ := register_success_shape env d store req hok
    rw [hu]
    exact ⟨_, rfl, rfl, u, hmem, rfl⟩
  · intro req hok
    obtain ⟨u, hu, v, hv, hvid⟩ := login_success_shape env d store req hok
    rw [hu]
    exact ⟨_, rfl, rfl, v, hv, hvid⟩
  · intro user token a store1 h
    exact googleCallbackHandler_dashboard env d store store1 user token a h

/-- Witness of C20: a register, a password login, a demo login and a callback
for `a@x.com`, each with the token of the account named in the reply. -/
theorem token_issuance_uniform_witness :
    (register refEnv sampleDraw [alice, bob]
      (plainRegister "Carol" "c@x.com" "secret1")).1.token = some (refEnv.generateToken 3) ∧
    (login refEnv sampleDraw [alice, bob] ⟨some "a@x.com", some "secret1"⟩).1.token
      = some (refEnv.generateToken 1) ∧
    (login refEnv sampleDraw [alice, bob] ⟨some "demo@user.com", some "123456"⟩).1.token
      = some (refEnv.generateToken 3) ∧
    ∃ (token : String) (a : UserResponse) (store1 : Store),
      googleCallbackHandler refEnv sampleDraw [alice, bob] (loaded alice)
        = (CallbackReply.dashboard token a, store1) ∧
      token = refEnv.generateToken alice._id :=
  ⟨((token_issuance_uniform refEnv sampleDraw [alice, bob]).1
      (plainRegister "Carol" "c@x.com" "secret1") (by decide)).elim
      fun a h => h.2.1.trans (congrArg (fun x => some (refEnv.generateToken x.id))
        (Option.some.inj (h.1.symm.trans (by rfl)) :
          a = { id := 3, name := "Carol", email := "c@x.com", role := Role.user,
                avatar := none, lastLogin := none })),
   by rfl, by rfl,
   ⟨refEnv.generateToken 1,
    { id := 1, name := "Alice", email := "a@x.com", role := Role.user, avatar := none,
      lastLogin := none },
    [stampLogin sampleDraw alice, bob], by rfl,
    ((token_issuance_uniform refEnv sampleDraw [alice, bob]).2.2 (loaded alice)
      (refEnv.generateToken 1)
      { id := 1, name := "Alice", email := "a@x.com", role := Role.user, avatar := none,
        lastLogin := none }
      [stampLogin sampleDraw alice, bob] (by rfl)).1⟩⟩

/-! ## Register: every outcome -/

/-- The 400 reply of register for a missing name, email or password. -/
theorem register_missing_field (env : Env) (d : Draw) (store : Store) (req : RegisterRequest)
    (h : truthy (fullName req) = none ∨ truthy req.email = none ∨
      truthy req.password = none) :
    register env d store req =
      (failure 400 "Name, email, and password are required", store) := by
  unfold register
  rcases h with h | h | h
  · rw [h]
  · rw [h]
    cases truthy (fullName req) <;> rfl
  · rw [h]
    cases truthy (fullName req) <;> cases truthy req.email <;> rfl

/-- C21 (counterexample): a register request with an empty body is answered
with status 400 'Name, email, and password are required': a failure that is
neither Conflict nor WeakCredential. -/
theorem register_empty_body_outcome :
    (register refEnv sampleDraw [alice]
      { name := none, email := none, password := none, phone := none,
        firstName := none, lastName := none, role := none }).1
      = failure 400 "Name, email, and password are required" ∧
    failure 400 "Name, email, and password are required" ≠ conflict ∧
    failure 400 "Name, email, and password are required" ≠ weakCredential ∧
    (failure 400 "Name, email, and password are required").success = false := by
  refine ⟨by rfl, by decide, by decide, rfl⟩

/-- C21 (amended): register has exactly these outcomes. For every request and
every collection it either succeeds with an account that is then stored, or
fails with Conflict, or with WeakCredential, or with the reply for a missing
name, email or password (400), or with the reply of its `catch` block (500);
every failure leaves the collection as it was. -/
theorem register_outcomes (env : Env) (d : Draw) (store : Store) (req : RegisterRequest) :
    (∃ u ∈ (register env d store req).2,
      (register env d store req).1 = registerSuccess env u) ∨
    register env d store req = (conflict, store) ∨
    register env d store req = (weakCredential, store) ∨
    register env d store req =
      (failure 400 "Name, email, and password are required", store) ∨
    register env d store req = (registerError, store) := by
  cases hn : truthy (fullName req) with
  | none => exact Or.inr (Or.inr (Or.inr (Or.inl
      (register_missing_field env d store req (Or.inl hn)))))
  | some name =>
    cases he : truthy req.email with
    | none => exact Or.inr (Or.inr (Or.inr (Or.inl
        (register_missing_field env d store req (Or.inr (Or.inl he))))))
    | some email =>
      cases hp : truthy req.password with
      | none => exact Or.inr (Or.inr (Or.inr (Or.inl
          (register_missing_field env d store req (Or.inr (Or.inr hp))))))
      | some password =>
        by_cases hlen : jsLength password < 6
        · right; right; left
          simp only [register, hn, he, hp, if_pos hlen]
        · have hlen6 : 6 ≤ jsLength password := by omega
          rw [register_guarded env d store req name email password hn he hp hlen6]
          cases hf : findOneByEmail env store email with
          | some v => right; left; rfl
          | none =>
            cases hs : save env d store (newUser env store name email password
                (some (match truthy req.phone with
                  | some p => p
                  | none => ""))) with
            | error e =>
              cases e
              · right; right; right; right; rfl
              · right; left; rfl
              · right; right; right; right; rfl
            | ok r =>
              left
              obtain ⟨doc, store1⟩ := r
              obtain ⟨_, _, _, _, _, _, hcase⟩ := save_inv env d store store1 _ doc hs
              refine ⟨doc.fields, ?_, rfl⟩
              rcases hcase with ⟨_, hst, _⟩ | ⟨hnew, _⟩
              · show doc.fields ∈ store1
                rw [hst]; simp
              · simp [newUser] at hnew

/-- C22 (counterexample): a register request with `firstName` `" Ann"` and
`lastName` `"Lee"`. The account is stored with the name `"Ann Lee"`, which is
not `firstName + ' ' + lastName` (that string starts with a blank): the `name`
path trims. -/
theorem register_name_is_trimmed :
    (register refEnv sampleDraw []
      { name := none, email := some "ann@x.com", password := some "secret1",
        phone := none, firstName := some " Ann", lastName := some "Lee",
        role := none }).1.success = true ∧
    ((register refEnv sampleDraw []
      { name := none, email := some "ann@x.com", password := some "secret1",
        phone := none, firstName := some " Ann", lastName := some "Lee",
        role := none }).2.map (·.name)) = ["Ann Lee"] ∧
    ("Ann Lee" : String) ≠ " Ann" ++ " " ++ "Lee" := by
  refine ⟨by rfl, by rfl, by decide⟩

/-- C22 (amended): display-name composition at registration. The composed name
is `firstName + ' ' + lastName` when both are non-empty (also when a `name`
field is given) and the `name` field otherwise; a successful register stores
exactly one account, whose name is the composed name trimmed; when the
composed name, the email or the password is missing or empty, register
answers 400 'Name, email, and password are required' and the collection is
unchanged. -/
theorem register_name_composition (env : Env) (d : Draw) (store : Store)
    (req : RegisterRequest) :
    (∀ f l, truthy req.firstName = some f → truthy req.lastName = some l →
      fullName req = some (f ++ " " ++ l)) ∧
    (truthy req.firstName = none ∨ truthy req.lastName = none →
      fullName req = req.name) ∧
    ((register env d store req).1.success = true →
      ∃ (u : User) (n : String),
        (register env d store req).2 = store ++ [u] ∧
        truthy (fullName req) = some n ∧ u.name = jsTrim n ∧
        (register env d store req).1.user.map (·.name) = some (jsTrim n)) ∧
    (truthy (fullName req) = none ∨ truthy req.email = none ∨
        truthy req.password = none →
      register env d store req =
        (failure 400 "Name, email, and password are required", store)) := by
  refine ⟨?_, ?_, ?_, register_missing_field env d store req⟩
  · intro f l hf hl
    simp [fullName, hf, hl]
  · intro h
    unfold fullName
    rcases h with h | h
    · rw [h]
    · rw [h]
      cases truthy req.firstName <;> rfl
  · intro hok
    rcases register_cases env d store req with h |
      ⟨name, email, password, phone, doc, store1, hn, _, _, _, hnone, hsave, hreg⟩
    · rw [h.1] at hok; cases hok
    · have hfree := findOneByEmail_none hnone
      obtain ⟨u, hdoc, hstore, _, hname, _⟩ :=
        save_newUser_inv env d store name email password phone doc store1 hfree hsave
      rw [hreg, hdoc, hstore]
      exact ⟨u, name, rfl, hn, hname, by simp [registerSuccess, loaded, hname]⟩

/-- Witness of C22 (amended): `firstName` and `lastName` win over `name`. -/
theorem register_name_composition_witness :
    truthy (some "Ann") = some "Ann" ∧ truthy (some "Lee") = some "Lee" ∧
    fullName { name := some "Nickname", email := some "ann@x.com",
               password := some "secret1", phone := none, firstName := some "Ann",
               lastName := some "Lee", role := none } = some ("Ann" ++ " " ++ "Lee") :=
  ⟨by decide, by decide,
   (register_name_composition refEnv sampleDraw []
      { name := some "Nickname", email := some "ann@x.com",
        password := some "secret1", phone := none, firstName := some "Ann",
        lastName := some "Lee", role := none }).1 "Ann" "Lee" (by decide) (by decide)⟩

/-! ## Login: failures are atomic -/

/-- C23: a login that does not succeed is atomic. For every collection and
every login request answered with status 400 or 401, the collection after the
request equals the collection before it: no last-login time changes and no
account is created. -/
theorem login_failure_atomic (env : Env) (d : Draw) (store : Store) (req : LoginRequest)
    (hfail : (login env d store req).1.status = 400 ∨
      (login env d store req).1.status = 401) :
    (login env d store req).2 = store := by
  rcases login_cases env d store req with h | ⟨u, _, store1, _, hlog⟩ | ⟨x, _, _, h | h⟩
  · exact h.2.2
  · rw [hlog] at hfail
    simp [loginSuccess] at hfail
  · rw [h] at hfail
    simp [loginError, failure] at hfail
  · rw [h] at hfail
    simp [loginSuccess] at hfail

/-- Witness of C23: a wrong password for `a@x.com`, and a body without a
password. -/
theorem login_failure_atomic_witness :
    (login refEnv sampleDraw [alice, bob] ⟨some "a@x.com", some "wrong12"⟩).1.status = 401 ∧
    (login refEnv sampleDraw [alice, bob] ⟨some "a@x.com", some "wrong12"⟩).2 = [alice, bob] ∧
    (login refEnv sampleDraw [alice, bob] ⟨some "a@x.com", none⟩).1.status = 400 ∧
    (login refEnv sampleDraw [alice, bob] ⟨some "a@x.com", none⟩).2 = [alice, bob] :=
  ⟨by decide,
   login_failure_atomic refEnv sampleDraw [alice, bob] ⟨some "a@x.com", some "wrong12"⟩
     (Or.inr (by decide)),
   by decide,
   login_failure_atomic refEnv sampleDraw [alice, bob] ⟨some "a@x.com", none⟩
     (Or.inl (by decide))⟩

/-! ## No response discloses a password -/

theorem find?_redact (q : User → Bool) (hq : ∀ u, q (redact u) = q u) (s1 s2 : Store)
    (h : s1.map redact = s2.map redact) :
    (s1.find? q).map redact = (s2.find? q).map redact := by
  have key : ∀ s : Store, (s.find? q).map redact = (s.map redact).find? q := by
    intro s
    rw [List.find?_map]
    have : q ∘ redact = q := funext hq
    rw [this]
  rw [key s1, key s2, h]

theorem freshId_redact (s1 s2 : Store) (h : s1.map redact = s2.map redact) :
    freshId s1 = freshId s2 := by
  have key : ∀ s : Store, s.map (·._id) = (s.map redact).map (·._id) := by
    intro s
    rw [List.map_map]
    rfl
  unfold freshId
  rw [key s1, key s2, h]

/-- The user object of a successful login is the one of its subject, stamped. -/
theorem login_user_of_subject (env : Env) (d : Draw) (store : Store) (req : LoginRequest)
    (hok : (login env d store req).1.success = true) :
    (login env d store req).1.user =
      (loginSubject env store req).bind
        (fun u => (loginSuccess env (stampLogin d u)).user) := by
  cases he : truthy req.email with
  | none => simp [login, he, failure] at hok
  | some email =>
    cases hp : truthy req.password with
    | none => simp [login, he, hp, failure] at hok
    | some password =>
      by_cases hdemo : email = "demo@user.com" ∧ password = "123456"
      · cases hf : findOneByEmail env store "demo@user.com" with
        | some u =>
          have hlog : login env d store req = finishLogin env d store (loaded u) := by
            simp only [login, he, hp, if_pos hdemo, hf]
          have hsub : loginSubject env store req = some u := by
            simp only [loginSubject, he, hp, if_pos hdemo, hf]
          rw [hsub]
          rcases finishLogin_cases env d store u with h | ⟨store1, _, h2⟩
          · rw [hlog, h] at hok; simp [loginError, failure] at hok
          · rw [hlog, h2]; rfl
        | none =>
          have hfree := findOneByEmail_none hf
          have hsub : loginSubject env store req =
              some (newUser env store "Demo User" "demo@user.com" "123456" none).fields := by
            simp only [loginSubject, he, hp, if_pos hdemo, hf]
          rw [hsub]
          cases hs : save env d store
              (newUser env store "Demo User" "demo@user.com" "123456" none) with
          | error e =>
            simp [login, he, hp, hdemo, hf, hs, loginError, failure] at hok
          | ok r =>
            obtain ⟨doc, store1⟩ := r
            obtain ⟨x, hdoc, hstore, hid, hname, _, _, hmail, _, _, _, _, hrole, _, _, hav⟩ :=
              save_newUser_inv env d store _ _ _ _ doc store1 hfree hs
            have hlog : login env d store req =
                finishLogin env d (store ++ [x]) (loaded x) := by
              simp only [login, he, hp, if_pos hdemo, hf, hs, hdoc, hstore]
            rcases finishLogin_cases env d (store ++ [x]) x with h | ⟨store2, _, h2⟩
            · rw [hlog, h] at hok; simp [loginError, failure] at hok
            · rw [hlog, h2]
              simp [loginSuccess, stampLogin, newUser, hid, hname, hmail, hrole, hav]
      · have hsub : loginSubject env store req = findOneActiveByEmail env store email := by
          simp only [loginSubject, he, hp, if_neg hdemo]
        rw [hsub]
        cases hf : findOneActiveByEmail env store email with
        | none => simp [login, he, hp, hdemo, hf, invalidCredential, failure] at hok
        | some u =>
          by_cases hc : comparePassword env u password = true
          · have hlog : login env d store req = finishLogin env d store (loaded u) := by
              simp only [login, he, hp, if_neg hdemo, hf, hc, if_true]
            rcases finishLogin_cases env d store u with h | ⟨store1, _, h2⟩
            · rw [hlog, h] at hok; simp [loginError, failure] at hok
            · rw [hlog, h2]; rfl
          · simp [login, he, hp, hdemo, hf, hc, invalidCredential, failure] at hok

/-- The subject of a login does not depend on stored passwords. -/
theorem loginSubject_redact (env : Env) (s1 s2 : Store) (req : LoginRequest)
    (h : s1.map redact = s2.map redact) :
    (loginSubject env s1 req).map redact = (loginSubject env s2 req).map redact := by
  unfold loginSubject
  cases truthy req.email with
  | none => rfl
  | some email =>
    cases truthy req.password with
    | none => rfl
    | some password =>
      simp only []
      by_cases hdemo : email = "demo@user.com" ∧ password = "123456"
      · simp only [if_pos hdemo]
        have hfind := find?_redact
          (fun u => u.email == normalizeEmail env "demo@user.com") (fun _ => rfl) s1 s2 h
        have hfresh := freshId_redact s1 s2 h
        unfold findOneByEmail
        cases h1 : s1.find? (fun u => u.email == normalizeEmail env "demo@user.com") with
        | none =>
          cases h2 : s2.find? (fun u => u.email == normalizeEmail env "demo@user.com") with
          | none => simp [newUser, hfresh]
          | some v => rw [h1, h2] at hfind; cases hfind
        | some u =>
          cases h2 : s2.find? (fun u => u.email == normalizeEmail env "demo@user.com") with
          | none => rw [h1, h2] at hfind; cases hfind
          | some v => rw [h1, h2] at hfind; exact hfind
      · simp only [if_neg hdemo]
        exact find?_redact
          (fun u => u.email == normalizeEmail env email && u.isActive == true)
          (fun _ => rfl) s1 s2 h

/-- The user object of a successful register, spelled out. -/
theorem register_user_of_request (env : Env) (d : Draw) (store : Store)
    (req : RegisterRequest) (hok : (register env d store req).1.success = true) :
    ∃ name email, truthy (fullName req) = some name ∧ truthy req.email = some email ∧
      (register env d store req).1.user =
        some { id := freshId store, name := jsTrim name, email := normalizeEmail env email,
               role := Role.user, avatar := none, lastLogin := none } := by
  rcases register_cases env d store req with h |
    ⟨name, email, password, phone, doc, store1, hn, he, _, _, hnone, hsave, hreg⟩
  · rw [h.1] at hok; cases hok
  · have hfree := findOneByEmail_none hnone
    obtain ⟨u, hdoc, _, hid, hname, _, _, hmail, _, _, _, _, hrole, _, _, hav⟩ :=
      save_newUser_inv env d store name email password phone doc store1 hfree hsave
    refine ⟨name, email, hn, he, ?_⟩
    rw [hreg, hdoc]
    simp [registerSuccess, loaded, hid, hname, hmail, hrole, hav]

/-- C24: no response discloses a password or a password hash. The user object
of a success response has the fields id, name, email, role, avatar and
lastLogin only, and it is the same for accounts that differ only in their
stored password: on two collections that are equal up to the stored passwords,
a login that succeeds on both returns the same user object, a register that
succeeds on both (also with two different passwords in the request) returns the
same user object, and `GET /api/auth/me` returns the same user object. -/
theorem no_password_disclosure (env : Env) (d : Draw) (store1 store2 : Store)
    (hsame : store1.map redact = store2.map redact) :
    (∀ req : LoginRequest,
      (login env d store1 req).1.success = true →
      (login env d store2 req).1.success = true →
      (login env d store1 req).1.user = (login env d store2 req).1.user) ∧
    (∀ (req : RegisterRequest) (password2 : Option String),
      (register env d store1 req).1.success = true →
      (register env d store2 { req with password := password2 }).1.success = true →
      (register env d store1 req).1.user =
        (register env d store2 { req with password := password2 }).1.user) ∧
    (∀ (verify : String → Option Nat) (sessions : SessionTable) (c : Credentials),
      (me verify store1 sessions c).map (·.user) =
        (me verify store2 sessions c).map (·.user)) ∧
    (∀ (u : User) (pw : Option String),
      (loginSuccess env { u with password := pw }).user = (loginSuccess env u).user ∧
      (registerSuccess env { u with password := pw }).user = (registerSuccess env u).user ∧
      (meHandler { u with password := pw }).user = (meHandler u).user) := by
  refine ⟨?_, ?_, ?_, fun _ _ => ⟨rfl, rfl, rfl⟩⟩
  · intro req h1 h2
    rw [login_user_of_subject env d store1 req h1, login_user_of_subject env d store2 req h2]
    have hsub := loginSubject_redact env store1 store2 req hsame
    cases hs1 : loginSubject env store1 req with
    | none =>
      cases hs2 : loginSubject env store2 req with
      | none => rfl
      | some v => rw [hs1, hs2] at hsub; cases hsub
    | some u =>
      cases hs2 : loginSubject env store2 req with
      | none => rw [hs1, hs2] at hsub; cases hsub
      | some v =>
        rw [hs1, hs2] at hsub
        simp only [Option.map_some', Option.some.injEq] at hsub
        show (loginSuccess env (stampLogin d u)).user = (loginSuccess env (stampLogin d v)).user
        have hu : (loginSuccess env (stampLogin d u)).user =
            (loginSuccess env (stampLogin d (redact u))).user := rfl
        have hv : (loginSuccess env (stampLogin d v)).user =
            (loginSuccess env (stampLogin d (redact v))).user := rfl
        rw [hu, hv, hsub]
  · intro req password2 h1 h2
    obtain ⟨n1, e1, hn1, he1, hu1⟩ := register_user_of_request env d store1 req h1
    obtain ⟨n2, e2, hn2, he2, hu2⟩ :=
      register_user_of_request env d store2 { req with password := password2 } h2
    have hfn : fullName { req with password := password2 } = fullName req := rfl
    rw [hfn, hn1] at hn2
    have he : truthy ({ req with password := password2 } : RegisterRequest).email =
        truthy req.email := rfl
    rw [he, he1] at he2
    injection hn2 with hn2
    injection he2 with he2
    rw [hu1, hu2, ← hn2, ← he2, freshId_redact store1 store2 hsame]
  · intro verify sessions c
    have hfind : ∀ id, (findById store1 id).map redact = (findById store2 id).map redact :=
      fun id => find?_redact (fun u => u._id == id) (fun _ => rfl) store1 store2 hsame
    have hres : (verifyToken verify store1 sessions c).map redact =
        (verifyToken verify store2 sessions c).map redact := by
      unfold verifyToken
      cases c.bearer with
      | some token =>
        simp only []
        cases verify token with
        | none => rfl
        | some id => exact hfind id
      | none =>
        simp only []
        cases c.sessionId with
        | none => rfl
        | some sid =>
          simp only []
          cases resolveSession sessions sid with
          | none => rfl
          | some id => exact hfind id
    unfold me
    cases h1 : verifyToken verify store1 sessions c with
    | none =>
      cases h2 : verifyToken verify store2 sessions c with
      | none => rfl
      | some v => rw [h1, h2] at hres; cases hres
    | some u =>
      cases h2 : verifyToken verify store2 sessions c with
      | none => rw [h1, h2] at hres; cases hres
      | some v =>
        rw [h1, h2] at hres
        simp only [Option.map_some', Option.some.injEq] at hres
        show some (meHandler u).user = some (meHandler v).user
        have hu : (meHandler u).user = (meHandler (redact u)).user := rfl
        have hv : (meHandler v).user = (meHandler (redact v)).user := rfl
        rw [hu, hv, hres]

theorem no_password_disclosure_witness :
    [alice].map redact = [{ alice with password := some "plain-text" }].map redact ∧
    alice.password ≠ some "plain-text" ∧
    (me toyVerify [alice] [] { bearer := some (toyToken 1), sessionId := none }).isSome = true ∧
    (me toyVerify [alice] [] { bearer := some (toyToken 1), sessionId := none }).map (·.user) =
      (me toyVerify [{ alice with password := some "plain-text" }] []
        { bearer := some (toyToken 1), sessionId := none }).map (·.user) :=
  ⟨rfl, by decide, by decide,
    (no_password_disclosure refEnv sampleDraw [alice]
      [{ alice with password := some "plain-text" }] rfl).2.2.1 toyVerify []
      { bearer := some (toyToken 1), sessionId := none }⟩

/-! ## Bookings -/

/-- A new booking never passes validation: it has no reference yet. -/
theorem validateBooking_newBooking (env : Env) (bookings : List Booking)
    (userId : Option Nat) (packageName destination : String) (customerInfo : CustomerInfo)
    (travelDetails : TravelDetails) (pricing : Pricing) (specialRequests : Option String) :
    validateBooking (newBooking env bookings userId packageName destination customerInfo
      travelDetails pricing specialRequests) = false := by
  simp [validateBooking, newBooking, truthy]

/-- C25 (the code at the failing input): the complete booking `sampleBooking`
from a caller who is not logged in is answered with status 500 and nothing is
stored. More generally every booking request, logged in or not, is answered
without success (the 500 of the `catch` block or the 400 for a missing field)
and leaves the collection as it was: `save()` validates before the hook that
makes the reference runs, and a new booking has no `bookingReference` (nor,
for an anonymous caller, a `userId`), both `required`. -/
theorem booking_never_stored (env : Env) (upper : String → String) (d : BookingDraw)
    (user : Option User) (bookings : List Booking) (req : BookingRequest) :
    booking refEnv asciiUpper sampleBookingDraw none [] sampleBooking = (bookingError, []) ∧
    (booking env upper d user bookings req).1.success = false ∧
    (booking env upper d user bookings req).2 = bookings ∧
    ((booking env upper d user bookings req).1 = bookingError ∨
      (booking env upper d user bookings req).1 = bookingIncomplete) := by
  refine ⟨by rfl, ?_⟩
  unfold booking
  split
  · simp [saveBooking, validateBooking_newBooking, bookingError]
  · exact ⟨rfl, rfl, Or.inr rfl⟩

theorem append_ne_empty_of_left (a b : String) (h : a ≠ "") : a ++ b ≠ "" := by
  intro hab
  have hlen := congrArg String.length hab
  simp at hlen
  apply h
  have : a.data = [] := by
    have := hlen.1
    rw [String.length] at this
    exact List.length_eq_zero.mp this
  cases a
  simp_all

/-- C26: booking reference generation. After the hook has run the reference is
non-empty; a reference that was set is left unchanged, so the hook is
idempotent; a reference that was absent becomes `'BK'`, the decimal clock
reading, and the upper-cased `substr(2, 5)` of `Math.random().toString(36)`:
at most 5 characters, each taken from that base-36 string after its first
two. -/
theorem bookingPreSave_reference (upper : String → String) (d d2 : BookingDraw)
    (b : Booking) :
    truthy (bookingPreSave upper d b).bookingReference ≠ none ∧
    (∀ r, truthy b.bookingReference = some r → bookingPreSave upper d b = b) ∧
    bookingPreSave upper d2 (bookingPreSave upper d b) = bookingPreSave upper d b ∧
    (truthy b.bookingReference = none →
      (bookingPreSave upper d b).bookingReference =
        some ("BK" ++ toString d.now ++ upper (jsSubstr d.random 2 5)) ∧
      (jsSubstr d.random 2 5).data.length ≤ 5 ∧
      ∀ c ∈ (jsSubstr d.random 2 5).data, c ∈ d.random.data.drop 2) := by
  have hne : "BK" ++ toString d.now ++ upper (jsSubstr d.random 2 5) ≠ "" := by
    rw [String.append_assoc]
    exact append_ne_empty_of_left _ _ (by decide)
  have hset : truthy (bookingPreSave upper d b).bookingReference ≠ none := by
    unfold bookingPreSave
    cases h : truthy b.bookingReference with
    | some r => simp [h]
    | none => simp [truthy, hne]
  refine ⟨hset, ?_, ?_, ?_⟩
  · intro r hr
    simp [bookingPreSave, hr]
  · obtain ⟨r, hr⟩ := Option.ne_none_iff_exists'.mp hset
    generalize bookingPreSave upper d b = b1 at hr
    simp [bookingPreSave, hr]
  · intro habsent
    refine ⟨by simp [bookingPreSave, habsent], ?_, ?_⟩
    · simp [jsSubstr]
    · intro c hc
      simp only [jsSubstr] at hc
      exact List.mem_of_mem_take hc

/-- Witness of C26: the hook on a new booking, with the sample draw. -/
theorem bookingPreSave_reference_witness :
    truthy (newBooking refEnv [] none "Goa Beach Holiday" "Goa"
      ⟨none, none, none, none⟩ ⟨none, none, none, none⟩ ⟨none, none, none⟩
      none).bookingReference = none ∧
    (bookingPreSave asciiUpper sampleBookingDraw
      (newBooking refEnv [] none "Goa Beach Holiday" "Goa"
        ⟨none, none, none, none⟩ ⟨none, none, none, none⟩ ⟨none, none, none⟩
        none)).bookingReference =
      some ("BK" ++ toString sampleBookingDraw.now ++
        asciiUpper (jsSubstr sampleBookingDraw.random 2 5)) ∧
    "BK" ++ toString sampleBookingDraw.now ++
      asciiUpper (jsSubstr sampleBookingDraw.random 2 5) = "BK17000000000004FZYO" :=
  ⟨by decide,
   ((bookingPreSave_reference asciiUpper sampleBookingDraw sampleBookingDraw
      (newBooking refEnv [] none "Goa Beach Holiday" "Goa"
        ⟨none, none, none, none⟩ ⟨none, none, none, none⟩ ⟨none, none, none⟩
        none)).2.2.2 (by decide)).1,
   by decide⟩

/-! ## Slider index arithmetic -/

theorem jsMod_of_lt (a n : Int) (h0 : 0 ≤ a) (hn : a < n) : jsMod a n = a := by
  unfold jsMod
  rw [Int.tmod_eq_emod h0 (by omega)]
  exact Int.emod_eq_of_lt h0 hn

theorem jsMod_self (n : Int) (hn : 0 < n) : jsMod n n = 0 := by
  unfold jsMod
  rw [Int.tmod_eq_emod (by omega) (by omega)]
  exact Int.emod_self

theorem jsMod_add_self (a n : Int) (h0 : 0 ≤ a) (hn : a < n) : jsMod (a + n) n = a := by
  unfold jsMod
  rw [Int.tmod_eq_emod (by omega) (by omega), Int.add_emod_self]
  exact Int.emod_eq_of_lt h0 hn

theorem next_index (n c : Int) (hc0 : 0 ≤ c) (hcn : c < n) :
    jsMod (c + 1) n = if c + 1 = n then 0 else c + 1 := by
  by_cases h : c + 1 = n
  · rw [if_pos h, h]
    exact jsMod_self n (by omega)
  · rw [if_neg h]
    exact jsMod_of_lt (c + 1) n (by omega) (by omega)

theorem prev_index (n c : Int) (hc0 : 0 ≤ c) (hcn : c < n) :
    jsMod (c - 1 + n) n = if c = 0 then n - 1 else c - 1 := by
  by_cases h : c = 0
  · rw [if_pos h, h]
    exact jsMod_of_lt (0 - 1 + n) n (by omega) (by omega) |>.trans (by omega)
  · rw [if_neg h]
    exact jsMod_add_self (c - 1) n (by omega) (by omega)

/-- C29: slider index arithmetic. For `n > 0` slides and a current index `c`
with `0 <= c < n`, `nextSlide` and `prevSlide` give an index in `[0, n)`, each
undoes the other, next from `n - 1` wraps to 0 and prev from 0 wraps to
`n - 1`; the same holds for the testimonial slider. -/
theorem slider_index_arithmetic (n c : Int) (hn : 0 < n) (hc0 : 0 ≤ c) (hcn : c < n) :
    (0 ≤ nextSlide n c ∧ nextSlide n c < n) ∧
    (0 ≤ prevSlide n c ∧ prevSlide n c < n) ∧
    prevSlide n (nextSlide n c) = c ∧
    nextSlide n (prevSlide n c) = c ∧
    nextSlide n (n - 1) = 0 ∧
    prevSlide n 0 = n - 1 ∧
    (0 ≤ nextTestimonial n c ∧ nextTestimonial n c < n) ∧
    (0 ≤ prevTestimonial n c ∧ prevTestimonial n c < n) ∧
    prevTestimonial n (nextTestimonial n c) = c ∧
    nextTestimonial n (prevTestimonial n c) = c ∧
    nextTestimonial n (n - 1) = 0 ∧
    prevTestimonial n 0 = n - 1 := by
  have hnext : jsMod (c + 1) n = if c + 1 = n then 0 else c + 1 := next_index n c hc0 hcn
  have hprev : jsMod (c - 1 + n) n = if c = 0 then n - 1 else c - 1 :=
    prev_index n c hc0 hcn
  have hwrap : jsMod (n - 1 + 1) n = 0 := by
    rw [next_index n (n - 1) (by omega) (by omega)]
    simp
  have hwrap0 : jsMod (0 - 1 + n) n = n - 1 := by
    rw [prev_index n 0 (by omega) hn]
    simp
  have hpn : jsMod (jsMod (c + 1) n - 1 + n) n = c := by
    rw [hnext]
    by_cases h : c + 1 = n
    · rw [if_pos h, hwrap0]; omega
    · rw [if_neg h, prev_index n (c + 1) (by omega) (by omega)]
      rw [if_neg (by omega)]; omega
  have hnp : jsMod (jsMod (c - 1 + n) n + 1) n = c := by
    rw [hprev]
    by_cases h : c = 0
    · rw [if_pos h, hwrap]; omega
    · rw [if_neg h, next_index n (c - 1) (by omega) (by omega)]
      rw [if_neg (by omega)]; omega
  have hnr : 0 ≤ jsMod (c + 1) n ∧ jsMod (c + 1) n < n := by
    rw [hnext]; split <;> omega
  have hpr : 0 ≤ jsMod (c - 1 + n) n ∧ jsMod (c - 1 + n) n < n := by
    rw [hprev]; split <;> omega
  exact ⟨hnr, hpr, hpn, hnp, hwrap, hwrap0, hnr, hpr, hpn, hnp, hwrap, hwrap0⟩

/-- Witness of C29: five slides, at the last one. -/
theorem slider_index_arithmetic_witness :
    (0 : Int) < 5 ∧ (0 : Int) ≤ 4 ∧ (4 : Int) < 5 ∧
    nextSlide 5 4 = 0 ∧ prevSlide 5 (nextSlide 5 4) = 4 :=
  ⟨by decide, by decide, by decide,
   by decide,
   (slider_index_arithmetic 5 4 (by decide) (by decide) (by decide)).2.2.1⟩

/-! ## The derivative matcher is correct -/

theorem matches_empty_inv {u : List Char} (h : Matches .empty u) : False := by
  cases h

theorem matches_eps_inv {u : List Char} (h : Matches .eps u) : u = [] := by
  cases h
  rfl

theorem matches_cls_inv {p : Char → Bool} {u : List Char} (h : Matches (.cls p) u) :
    ∃ c, u = [c] ∧ p c = true := by
  cases h with
  | cls hp => exact ⟨_, rfl, hp⟩

theorem matches_seq_inv {a b : Regex} {u : List Char} (h : Matches (.seq a b) u) :
    ∃ s t, u = s ++ t ∧ Matches a s ∧ Matches b t := by
  cases h with
  | seq h1 h2 => exact ⟨_, _, rfl, h1, h2⟩

theorem matches_alt_inv {a b : Regex} {u : List Char} (h : Matches (.alt a b) u) :
    Matches a u ∨ Matches b u := by
  cases h with
  | altL h1 => exact Or.inl h1
  | altR h1 => exact Or.inr h1

theorem nullable_iff (r : Regex) : r.nullable = true ↔ Matches r [] := by
  induction r with
  | empty =>
    constructor
    · intro h; cases h
    · intro h; exact (matches_empty_inv h).elim
  | eps => exact ⟨fun _ => Matches.eps, fun _ => rfl⟩
  | cls p =>
    constructor
    · intro h; cases h
    · intro h
      obtain ⟨c, hc, _⟩ := matches_cls_inv h
      cases hc
  | seq a b iha ihb =>
    constructor
    · intro h
      simp only [Regex.nullable, Bool.and_eq_true] at h
      exact Matches.seq (iha.mp h.1) (ihb.mp h.2)
    · intro h
      obtain ⟨s, t, hst, ha, hb⟩ := matches_seq_inv h
      have hs : s = [] := (List.append_eq_nil.mp hst.symm).1
      have ht : t = [] := (List.append_eq_nil.mp hst.symm).2
      subst hs
      subst ht
      simp only [Regex.nullable, Bool.and_eq_true]
      exact ⟨iha.mpr ha, ihb.mpr hb⟩
  | alt a b iha ihb =>
    constructor
    · intro h
      simp only [Regex.nullable, Bool.or_eq_true] at h
      rcases h with h | h
      · exact Matches.altL (iha.mp h)
      · exact Matches.altR (ihb.mp h)
    · intro h
      simp only [Regex.nullable, Bool.or_eq_true]
      rcases matches_alt_inv h with h1 | h1
      · exact Or.inl (iha.mpr h1)
      · exact Or.inr (ihb.mpr h1)
  | star r _ => exact ⟨fun _ => Matches.starNil, fun _ => rfl⟩

/-- A non-empty match of `r*` starts with a non-empty match of `r`. -/
theorem matches_star_cons {r : Regex} {c : Char} {s u : List Char} {q : Regex}
    (h : Matches q u) (hq : q = .star r) (hu : u = c :: s) :
    ∃ s1 s2, s = s1 ++ s2 ∧ Matches r (c :: s1) ∧ Matches (.star r) s2 := by
  induction h with
  | eps => cases hq
  | cls _ => cases hq
  | seq _ _ _ _ => cases hq
  | altL _ _ => cases hq
  | altR _ _ => cases hq
  | starNil => cases hu
  | @starCons r0 s0 t0 h1 h2 _ ih2 =>
    injection hq with hq
    subst hq
    cases s0 with
    | nil =>
      simp only [List.nil_append] at hu
      exact ih2 rfl hu
    | cons c0 s1 =>
      simp only [List.cons_append, List.cons.injEq] at hu
      obtain ⟨hc, hs⟩ := hu
      subst hc
      exact ⟨s1, t0, hs.symm, h1, h2⟩

theorem deriv_iff (r : Regex) (c : Char) (s : List Char) :
    Matches (r.deriv c) s ↔ Matches r (c :: s) := by
  induction r generalizing s with
  | empty =>
    constructor
    · intro h; exact (matches_empty_inv h).elim
    · intro h; exact (matches_empty_inv h).elim
  | eps =>
    constructor
    · intro h; exact (matches_empty_inv h).elim
    · intro h; cases matches_eps_inv h
  | cls p =>
    constructor
    · intro h
      by_cases hp : p c = true
      · simp only [Regex.deriv, hp, if_true] at h
        rw [matches_eps_inv h]
        exact Matches.cls hp
      · simp only [Regex.deriv, hp] at h
        exact (matches_empty_inv h).elim
    · intro h
      obtain ⟨c1, hc1, hp⟩ := matches_cls_inv h
      simp only [List.cons.injEq] at hc1
      obtain ⟨hc, hs⟩ := hc1
      subst hc
      subst hs
      simp only [Regex.deriv, hp, if_true]
      exact Matches.eps
  | seq a b iha ihb =>
    by_cases hn : a.nullable = true
    · constructor
      · intro h
        simp only [Regex.deriv, hn, if_true] at h
        rcases matches_alt_inv h with h1 | h1
        · obtain ⟨s1, s2, hs, ha, hb⟩ := matches_seq_inv h1
          rw [hs]
          exact Matches.seq ((iha s1).mp ha) hb
        · exact Matches.seq ((nullable_iff a).mp hn) ((ihb s).mp h1)
      · intro h
        simp only [Regex.deriv, hn, if_true]
        obtain ⟨s1, s2, hs, ha, hb⟩ := matches_seq_inv h
        cases s1 with
        | nil =>
          simp only [List.nil_append] at hs
          rw [← hs] at hb
          exact Matches.altR ((ihb s).mpr hb)
        | cons c1 s1 =>
          simp only [List.cons_append, List.cons.injEq] at hs
          obtain ⟨hc, hs⟩ := hs
          subst hc
          rw [hs]
          exact Matches.altL (Matches.seq ((iha s1).mpr ha) hb)
    · constructor
      · intro h
        simp only [Regex.deriv, hn] at h
        obtain ⟨s1, s2, hs, ha, hb⟩ := matches_seq_inv h
        rw [hs]
        exact Matches.seq ((iha s1).mp ha) hb
      · intro h
        simp only [Regex.deriv, hn]
        obtain ⟨s1, s2, hs, ha, hb⟩ := matches_seq_inv h
        cases s1 with
        | nil => exact absurd ((nullable_iff a).mpr ha) hn
        | cons c1 s1 =>
          simp only [List.cons_append, List.cons.injEq] at hs
          obtain ⟨hc, hs⟩ := hs
          subst hc
          rw [hs]
          exact Matches.seq ((iha s1).mpr ha) hb
  | alt a b iha ihb =>
    constructor
    · intro h
      rcases matches_alt_inv h with h1 | h1
      · exact Matches.altL ((iha s).mp h1)
      · exact Matches.altR ((ihb s).mp h1)
    · intro h
      rcases matches_alt_inv h with h1 | h1
      · exact Matches.altL ((iha s).mpr h1)
      · exact Matches.altR ((ihb s).mpr h1)
  | star r ih =>
    constructor
    · intro h
      obtain ⟨s1, s2, hs, ha, hb⟩ := matches_seq_inv h
      rw [hs]
      exact Matches.starCons ((ih s1).mp ha) hb
    · intro h
      obtain ⟨s1, s2, hs, ha, hb⟩ := matches_star_cons h rfl rfl
      rw [hs]
      exact Matches.seq ((ih s1).mpr ha) hb

theorem foldl_deriv_iff (s : List Char) (r : Regex) :
    (s.foldl (fun acc c => acc.deriv c) r).nullable = true ↔ Matches r s := by
  induction s generalizing r with
  | nil => exact nullable_iff r
  | cons c t ih =>
    rw [List.foldl_cons, ih (r.deriv c)]
    exact deriv_iff r c t

/-- The matcher accepts exactly the strings that the expression denotes. -/
theorem test_iff_matches (r : Regex) (s : String) :
    r.test s = true ↔ Matches r s.data :=
  foldl_deriv_iff s.data r

/-! ## The language of the email pattern -/

theorem matches_star_cls_all {p : Char → Bool} {q : Regex} {u : List Char}
    (h : Matches q u) (hq : q = .star (.cls p)) : ∀ c ∈ u, p c = true := by
  induction h with
  | eps => cases hq
  | cls _ => cases hq
  | seq _ _ _ _ => cases hq
  | altL _ _ => cases hq
  | altR _ _ => cases hq
  | starNil => intro c hc; cases hc
  | @starCons r0 s0 t0 h1 _ _ ih2 =>
    injection hq with hq
    subst hq
    obtain ⟨c0, hc0, hp⟩ := matches_cls_inv h1
    subst hc0
    intro c hc
    rcases List.mem_append.mp hc with h3 | h3
    · simp only [List.mem_singleton] at h3
      rw [h3]; exact hp
    · exact ih2 rfl c h3

theorem matches_star_cls_of_all (p : Char → Bool) (u : List Char)
    (h : ∀ c ∈ u, p c = true) : Matches (.star (.cls p)) u := by
  induction u with
  | nil => exact Matches.starNil
  | cons c t ih =>
    have hc : p c = true := h c (List.mem_cons_self c t)
    have ht : ∀ x ∈ t, p x = true := fun x hx => h x (List.mem_cons_of_mem c hx)
    exact Matches.starCons (s := [c]) (Matches.cls hc) (ih ht)

/-- The quantifier `+` on a class: a non-empty run of characters of the class. -/
theorem matches_plus_cls (p : Char → Bool) (u : List Char) :
    Matches (Regex.plus (.cls p)) u ↔ u ≠ [] ∧ ∀ c ∈ u, p c = true := by
  constructor
  · intro h
    obtain ⟨s, t, hst, hs, ht⟩ := matches_seq_inv h
    obtain ⟨c0, hc0, hp⟩ := matches_cls_inv hs
    subst hc0
    subst hst
    refine ⟨by simp, ?_⟩
    intro c hc
    rcases List.mem_append.mp hc with h3 | h3
    · simp only [List.mem_singleton] at h3
      rw [h3]; exact hp
    · exact matches_star_cls_all ht rfl c h3
  · intro ⟨hne, hall⟩
    cases u with
    | nil => exact absurd rfl hne
    | cons c t =>
      have hc : p c = true := hall c (List.mem_cons_self c t)
      have ht : ∀ x ∈ t, p x = true := fun x hx => hall x (List.mem_cons_of_mem c hx)
      exact Matches.seq (s := [c]) (Matches.cls hc) (matches_star_cls_of_all p t ht)

/-- The strings of the email pattern: a run of the class, `@`, a run of the
class, `.`, a run of the class. -/
theorem matches_emailRegex (u : List Char) :
    Matches emailRegex u ↔
      ∃ l d1 d2 : List Char, u = l ++ '@' :: (d1 ++ '.' :: d2) ∧
        (l ≠ [] ∧ ∀ c ∈ l, notSpaceOrAt c = true) ∧
        (d1 ≠ [] ∧ ∀ c ∈ d1, notSpaceOrAt c = true) ∧
        (d2 ≠ [] ∧ ∀ c ∈ d2, notSpaceOrAt c = true) := by
  constructor
  · intro h
    obtain ⟨l, r1, h1, hl, hr1⟩ := matches_seq_inv h
    obtain ⟨a, r2, h2, ha, hr2⟩ := matches_seq_inv hr1
    obtain ⟨d1, r3, h3, hd1, hr3⟩ := matches_seq_inv hr2
    obtain ⟨b, d2, h4, hb, hd2⟩ := matches_seq_inv hr3
    obtain ⟨ca, hca, hpa⟩ := matches_cls_inv ha
    obtain ⟨cb, hcb, hpb⟩ := matches_cls_inv hb
    have hat : ca = '@' := by simpa using hpa
    have hdot : cb = '.' := by simpa using hpb
    refine ⟨l, d1, d2, ?_, (matches_plus_cls _ l).mp hl, (matches_plus_cls _ d1).mp hd1,
      (matches_plus_cls _ d2).mp hd2⟩
    rw [h1, h2, h3, h4, hca, hcb, hat, hdot]
    simp
  · intro ⟨l, d1, d2, hu, hl, hd1, hd2⟩
    rw [hu]
    refine Matches.seq ((matches_plus_cls _ l).mpr hl) ?_
    refine Matches.seq (s := ['@']) (Matches.cls (by simp)) ?_
    refine Matches.seq ((matches_plus_cls _ d1).mpr hd1) ?_
    exact Matches.seq (s := ['.']) (Matches.cls (by simp)) ((matches_plus_cls _ d2).mpr hd2)

theorem notSpaceOrAt_iff (c : Char) :
    notSpaceOrAt c = true ↔ isJsWhitespace c = false ∧ c ≠ '@' := by
  simp [notSpaceOrAt]

theorem takeWhile_not_at (l rest : List Char) (hl : ∀ c ∈ l, c ≠ '@') :
    (l ++ '@' :: rest).takeWhile (fun c => c != '@') = l ∧
    (l ++ '@' :: rest).dropWhile (fun c => c != '@') = '@' :: rest := by
  induction l with
  | nil => simp [List.takeWhile, List.dropWhile]
  | cons a t ih =>
    have ha : a ≠ '@' := hl a (List.mem_cons_self a t)
    have ht : ∀ c ∈ t, c ≠ '@' := fun c hc => hl c (List.mem_cons_of_mem a hc)
    have hb : (a != '@') = true := by simp [ha]
    rw [List.cons_append, List.takeWhile_cons, List.dropWhile_cons]
    simp only [hb, if_true]
    exact ⟨by rw [(ih ht).1], (ih ht).2⟩

theorem dropWhile_not_at (s : List Char) :
    s.dropWhile (fun c => c != '@') = [] ∨
    ∃ rest, s.dropWhile (fun c => c != '@') = '@' :: rest := by
  induction s with
  | nil => exact Or.inl rfl
  | cons a t ih =>
    by_cases ha : a = '@'
    · right
      subst ha
      exact ⟨t, by simp [List.dropWhile]⟩
    · have hb : (a != '@') = true := by simp [ha]
      simp only [List.dropWhile, hb]
      exact ih

theorem split_at_index (l : List Char) (i : Nat) (x : Char) (h : l[i]? = some x) :
    l = l.take i ++ x :: l.drop (i + 1) := by
  induction l generalizing i with
  | nil => simp at h
  | cons a t ih =>
    cases i with
    | zero =>
      simp at h
      simp [h]
    | succ j =>
      simp at h
      simp only [List.take_succ_cons, List.drop_succ_cons, List.cons_append, List.cons.injEq,
        true_and]
      exact ih j h


theorem count_at_zero (l : List Char) (h : ∀ c ∈ l, c ≠ '@') : l.count '@' = 0 :=
  List.count_eq_zero.mpr fun hm => h '@' hm rfl

theorem emailShape_of_parts (l d1 d2 : List Char)
    (hl : l ≠ [] ∧ ∀ c ∈ l, notSpaceOrAt c = true)
    (hd1 : d1 ≠ [] ∧ ∀ c ∈ d1, notSpaceOrAt c = true)
    (hd2 : d2 ≠ [] ∧ ∀ c ∈ d2, notSpaceOrAt c = true) :
    EmailShape (l ++ '@' :: (d1 ++ '.' :: d2)) := by
  have hl2 : ∀ c ∈ l, c ≠ '@' := fun c hc => ((notSpaceOrAt_iff c).mp (hl.2 c hc)).2
  have h12 : ∀ c ∈ d1, c ≠ '@' := fun c hc => ((notSpaceOrAt_iff c).mp (hd1.2 c hc)).2
  have h22 : ∀ c ∈ d2, c ≠ '@' := fun c hc => ((notSpaceOrAt_iff c).mp (hd2.2 c hc)).2
  obtain ⟨htake, hdrop⟩ := takeWhile_not_at l (d1 ++ '.' :: d2) hl2
  refine ⟨?_, ?_, ?_, d1.length, ?_, ?_, ?_⟩
  · intro c hc
    rcases List.mem_append.mp hc with h | h
    · exact ((notSpaceOrAt_iff c).mp (hl.2 c h)).1
    · rcases List.mem_cons.mp h with h | h
      · rw [h]; decide
      · rcases List.mem_append.mp h with h | h
        · exact ((notSpaceOrAt_iff c).mp (hd1.2 c h)).1
        · rcases List.mem_cons.mp h with h | h
          · rw [h]; decide
          · exact ((notSpaceOrAt_iff c).mp (hd2.2 c h)).1
  · have hdot : ('.' == '@') = false := by decide
    rw [List.count_append, List.count_cons_self, List.count_append, List.count_cons,
      count_at_zero l hl2, count_at_zero d1 h12, count_at_zero d2 h22]
    simp [hdot]
  · rw [htake]; exact hl.1
  · exact List.length_pos.mpr hd1.1
  · rw [hdrop]
    have : 0 < d2.length := List.length_pos.mpr hd2.1
    simp only [List.drop_succ_cons, List.drop_zero, List.length_append, List.length_cons]
    omega
  · rw [hdrop]
    simp only [List.drop_succ_cons, List.drop_zero]
    rw [List.getElem?_append_right (Nat.le_refl _)]
    simp

theorem parts_of_emailShape (s : List Char) (h : EmailShape s) :
    ∃ l d1 d2 : List Char, s = l ++ '@' :: (d1 ++ '.' :: d2) ∧
      (l ≠ [] ∧ ∀ c ∈ l, notSpaceOrAt c = true) ∧
      (d1 ≠ [] ∧ ∀ c ∈ d1, notSpaceOrAt c = true) ∧
      (d2 ≠ [] ∧ ∀ c ∈ d2, notSpaceOrAt c = true) := by
  obtain ⟨hws, hcount, hne, i, hi0, hi1, hget⟩ := h
  have hsplit : s = s.takeWhile (fun c => c != '@') ++ s.dropWhile (fun c => c != '@') :=
    (List.takeWhile_append_dropWhile _ s).symm
  have hl2 : ∀ c ∈ s.takeWhile (fun c => c != '@'), c ≠ '@' := by
    intro c hc
    have := List.mem_takeWhile_imp hc
    simpa using this
  rcases dropWhile_not_at s with hnil | ⟨d, hd⟩
  · rw [hnil] at hi1
    simp at hi1
  · rw [hd] at hsplit hi1 hget
    simp only [List.drop_succ_cons, List.drop_zero] at hi1 hget
    generalize s.takeWhile (fun c => c != '@') = l at hsplit hne hl2
    subst hsplit
    have hd0 : d.count '@' = 0 := by
      rw [List.count_append, List.count_cons_self, count_at_zero l hl2] at hcount
      omega
    have hd2 : ∀ c ∈ d, c ≠ '@' := by
      intro c hc hEq
      subst hEq
      exact List.count_eq_zero.mp hd0 hc
    have hdsplit := split_at_index d i '.' hget
    have hL : ∀ c ∈ l, notSpaceOrAt c = true := fun c hc =>
      (notSpaceOrAt_iff c).mpr ⟨hws c (List.mem_append_left _ hc), hl2 c hc⟩
    have hD : ∀ c ∈ d, notSpaceOrAt c = true := fun c hc =>
      (notSpaceOrAt_iff c).mpr
        ⟨hws c (List.mem_append_right _ (List.mem_cons_of_mem _ hc)), hd2 c hc⟩
    refine ⟨l, d.take i, d.drop (i + 1), ?_, ⟨hne, hL⟩, ⟨?_, ?_⟩, ⟨?_, ?_⟩⟩
    · rw [← hdsplit]
    · intro h0
      have := congrArg List.length h0
      rw [List.length_take, List.length_nil] at this
      omega
    · exact fun c hc => hD c (List.mem_of_mem_take hc)
    · intro h0
      have := congrArg List.length h0
      rw [List.length_drop, List.length_nil] at this
      omega
    · exact fun c hc => hD c (List.mem_of_mem_drop hc)

/-- Claim C28: `isValidEmail(s)` is true exactly when `s` has no white space,
exactly one `@`, at least one character before the `@`, and after the `@` a
`.` that is neither the first nor the last character of that part. -/
theorem isValidEmail_characterisation (s : String) :
    isValidEmail s = true ↔ EmailShape s.data := by
  unfold isValidEmail
  rw [test_iff_matches, matches_emailRegex]
  constructor
  · intro ⟨l, d1, d2, hs, hl, hd1, hd2⟩
    rw [hs]
    exact emailShape_of_parts l d1 d2 hl hd1 hd2
  · exact parts_of_emailShape s.data


/-- Witness of C28: `ann@x.com` is accepted and has the shape; `ann@x` is
rejected and does not have it. -/
theorem isValidEmail_characterisation_witness :
    (isValidEmail "ann@x.com" = true ∧ EmailShape "ann@x.com".data) ∧
    (isValidEmail "ann@x" = false ∧ ¬ EmailShape "ann@x".data) :=
  ⟨⟨by decide, (isValidEmail_characterisation "ann@x.com").mp (by decide)⟩,
   ⟨by decide, fun h =>
      absurd ((isValidEmail_characterisation "ann@x").mpr h) (by decide)⟩⟩

end TravelExplore
